import Mathlib

/-!
# baldr: the graph tile reader (`src/baldr/graphtile.cc`)

A shallow embedding of the query side of `GraphTile` and of the records it reads.

Conventions of the embedding.

* A section pointer (`nodes_`, `signs_`, `departures_`, ...) is the function that gives, for a
  signed record offset from the section start, the record found there.  The header count says
  how many of these records belong to the section; what the function returns at other offsets
  is whatever the neighbouring bytes of the buffer decode to.
* A pointer returned into a section (`const TransitDeparture*`, ...) is the record offset, a null
  pointer is `none`.
* `int32_t` variables are `Int`; every `int32_t` operation goes through `int32`, which makes a
  signed overflow undefined behaviour, and conversions between `uint32_t` and `int32_t` are the
  modular ones.
* A thrown `std::runtime_error` is `Fault.runtime_error` with the text of `what()`.
* Loops are recursions on an iteration budget, `count + 2` for a section of `count` records; a
  loop that exhausts it yields `Fault.nontermination`.  The theorems state results other than
  that one, so each of them shows in passing that the budget was enough.
-/

namespace baldr

/-! ## Outcomes -/

/-- The ways a call can fail to return a value. -/
inductive Fault where
  /-- A `std::runtime_error` carrying the given `what()` text. -/
  | runtime_error (what : String)
  /-- Undefined behaviour of the C++ abstract machine: signed overflow, a null dereference,
  a read past the end of the tile buffer. -/
  | undefined_behaviour
  /-- The iteration budget of the model ran out. -/
  | nontermination
  deriving DecidableEq, Repr

deriving instance DecidableEq for Except

/-- Smallest `int32_t`. -/
def INT32_MIN : Int := -2147483648

/-- Largest `int32_t`. -/
def INT32_MAX : Int := 2147483647

/-- The result of an `int32_t` operation whose mathematical value is `x`. -/
def int32 (x : Int) : Except Fault Int :=
  if INT32_MIN ≤ x ∧ x ≤ INT32_MAX then .ok x else .error .undefined_behaviour

/-- Conversion of a `uint32_t` value to `int32_t`. -/
def to_int32 (n : Nat) : Int :=
  if n % 4294967296 < 2147483648 then ((n % 4294967296 : Nat) : Int)
  else ((n % 4294967296 : Nat) : Int) - 4294967296

/-- Conversion of an `int32_t` value to `uint32_t`, as done when it is compared with one. -/
def to_uint32 (i : Int) : Nat := (i % 4294967296).toNat

/-- Dereference of a pointer that may be null. -/
def deref {α : Type} : Option α → Except Fault α
  | some a => .ok a
  | none => .error .undefined_behaviour

/-- Construction of a `std::string` from a `const char*`: the bytes before the first NUL.
The argument is the memory from the pointer to the end of the tile buffer; a string with no
NUL in it is read past the end of the buffer. -/
def c_str : List Nat → Except Fault (List Nat)
  | [] => .error .undefined_behaviour
  | b :: bs => if b = 0 then .ok [] else (c_str bs).map (fun s => b :: s)

/-! ## Records -/

/-- Identifier of a tile, node or edge: `GraphId` with its three components. -/
structure GraphId where
  tileid : Nat
  level : Nat
  id : Nat
  deriving DecidableEq, Repr, Inhabited

/-- The counts and offsets `GraphTile` reads from `GraphTileHeader`. -/
structure GraphTileHeader where
  graphid : GraphId := default
  nodecount : Nat := 0
  directededgecount : Nat := 0
  access_restriction_count : Nat := 0
  departurecount : Nat := 0
  stopcount : Nat := 0
  routecount : Nat := 0
  schedulecount : Nat := 0
  signcount : Nat := 0
  admincount : Nat := 0
  edgeinfo_offset : Nat := 0
  textlist_offset : Nat := 0
  deriving DecidableEq, Repr, Inhabited

/-- The fields of `NodeInfo` used by `GraphTile`. -/
structure NodeInfo where
  edge_index : Nat := 0
  edge_count : Nat := 0
  deriving DecidableEq, Repr, Inhabited

/-- The fields of `DirectedEdge` used by `GraphTile`. -/
structure DirectedEdge where
  endnode : GraphId := default
  opp_index : Nat := 0
  deriving DecidableEq, Repr, Inhabited

/-- `AccessRestriction` (`accessrestriction.cc`). -/
structure AccessRestriction where
  edgeindex : Nat := 0
  type : Nat := 0
  modes : Nat := 0
  days_of_week : Nat := 0
  value : Nat := 0
  deriving DecidableEq, Repr, Inhabited

/-- The fields of `Sign` used by `GraphTile`. -/
structure Sign where
  edgeindex : Nat := 0
  type : Nat := 0
  text_offset : Nat := 0
  deriving DecidableEq, Repr, Inhabited

/-- `SignInfo`, built from a sign type and the text at a `const char*`. -/
structure SignInfo where
  type : Nat
  text : List Nat
  deriving DecidableEq, Repr, Inhabited

/-- The fields of `TransitDeparture` used by `GraphTile`. -/
structure TransitDeparture where
  lineid : Nat := 0
  tripid : Nat := 0
  routeid : Nat := 0
  departure_time : Nat := 0
  schedule_index : Nat := 0
  deriving DecidableEq, Repr, Inhabited

/-- The fields of `TransitStop` used by `GraphTile`. -/
structure TransitStop where
  one_stop_offset : Nat := 0
  deriving DecidableEq, Repr, Inhabited

/-- The fields of `TransitRoute` used by `GraphTile`. -/
structure TransitRoute where
  one_stop_offset : Nat := 0
  op_by_onestop_id_offset : Nat := 0
  deriving DecidableEq, Repr, Inhabited

/-- A `TransitSchedule` record, given by its validity predicate
`IsValid(day, dow, date_before_tile)`; the class itself is not part of these sources. -/
structure TransitSchedule where
  IsValid : Nat → Nat → Bool → Bool := fun _ _ _ => false

instance : Inhabited TransitSchedule := ⟨{}⟩

/-- The fields of `Admin` used by `GraphTile`. -/
structure Admin where
  country_offset : Nat := 0
  state_offset : Nat := 0
  country_iso : List Nat := []
  state_iso : List Nat := []
  deriving DecidableEq, Repr, Inhabited

/-- The data members of `GraphTile` read by the queries below.  `header_` is `none` when the
pointer was never set; `textlist_` is the memory from the start of the text list to the end of
the tile buffer, `edgeinfo_` the memory from the start of the edge information.  An
`unordered_map` is the list of its entries, a `tile_index_pair` a pair of numbers, a
`std::string` the list of its bytes. -/
structure GraphTile where
  size_ : Nat := 0
  header_ : Option GraphTileHeader := none
  nodes_ : Int → NodeInfo := fun _ => default
  directededges_ : Int → DirectedEdge := fun _ => default
  access_restrictions_ : Int → AccessRestriction := fun _ => default
  departures_ : Int → TransitDeparture := fun _ => default
  transit_stops_ : Int → TransitStop := fun _ => default
  transit_routes_ : Int → TransitRoute := fun _ => default
  transit_schedules_ : Int → TransitSchedule := fun _ => default
  signs_ : Int → Sign := fun _ => default
  admins_ : Int → Admin := fun _ => default
  textlist_ : List Nat := []
  textlist_size_ : Nat := 0
  edge_bins_ : Int → GraphId := fun _ => default
  edgeinfo_ : List Nat := []
  edgeinfo_size_ : Nat := 0
  stop_one_stops : List (List Nat × (Nat × Nat)) := []
  route_one_stops : List (List Nat × List (Nat × Nat)) := []
  oper_one_stops : List (List Nat × List (Nat × Nat)) := []

/-- The records of a section: offsets `0 .. count - 1` of its pointer, in order. -/
def records {α : Type} (p : Int → α) (count : Nat) : List α :=
  (List.range count).map (fun (i : Nat) => p (i : Int))

/-- A section whose first records are `l`, followed in memory by copies of `next`. -/
def section_of {α : Type} (l : List α) (next : α) : Int → α :=
  fun i => if i < 0 then next else l.getD i.toNat next

/-! ## Accessors by index (`graphtile.cc`, lines 185-283) -/

/-- `GraphTile::node(const GraphId&)`. -/
def node_id (t : GraphTile) (node : GraphId) : Except Fault Int := do
  let header ← deref t.header_
  if node.id < header.nodecount then
    return (node.id : Int)
  throw (.runtime_error ("GraphTile NodeInfo index out of bounds: " ++
    toString node.tileid ++ "," ++ toString node.level ++ "," ++
    toString node.id ++ " nodecount= " ++ toString header.nodecount))

/-- `GraphTile::node(const size_t)`. -/
def node (t : GraphTile) (idx : Nat) : Except Fault Int := do
  let header ← deref t.header_
  if idx < header.nodecount then
    return (idx : Int)
  throw (.runtime_error ("GraphTile NodeInfo index out of bounds: " ++
    toString header.graphid.tileid ++ "," ++ toString header.graphid.level ++ "," ++
    toString idx ++ " nodecount= " ++ toString header.nodecount))

/-- `GraphTile::directededge(const GraphId&)`. -/
def directededge_id (t : GraphTile) (edge : GraphId) : Except Fault Int := do
  let header ← deref t.header_
  if edge.id < header.directededgecount then
    return (edge.id : Int)
  throw (.runtime_error ("GraphTile DirectedEdge index out of bounds: " ++
    toString header.graphid.tileid ++ "," ++ toString header.graphid.level ++ "," ++
    toString edge.id ++ " directededgecount= " ++ toString header.directededgecount))

/-- `GraphTile::directededge(const size_t)`. -/
def directededge (t : GraphTile) (idx : Nat) : Except Fault Int := do
  let header ← deref t.header_
  if idx < header.directededgecount then
    return (idx : Int)
  throw (.runtime_error ("GraphTile DirectedEdge index out of bounds: " ++
    toString header.graphid.tileid ++ "," ++ toString header.graphid.level ++ "," ++
    toString idx ++ " directededgecount= " ++ toString header.directededgecount))

/-- `GraphTile::admin(const size_t)`. -/
def admin (t : GraphTile) (idx : Nat) : Except Fault Int := do
  let header ← deref t.header_
  if idx < header.admincount then
    return (idx : Int)
  throw (.runtime_error "GraphTile Admin index out of bounds")

/-- `GraphTile::GetName(const uint32_t)`. -/
def GetName (t : GraphTile) (textlist_offset : Nat) : Except Fault (List Nat) :=
  if textlist_offset < t.textlist_size_ then
    c_str (t.textlist_.drop textlist_offset)
  else
    throw (.runtime_error "GetName: offset exceeds size of text list")

/-! ## The sorted-array searches (`graphtile.cc`, lines 285-458 and 525-575) -/

/-- The binary search loop of `GetSigns`, `GetNextDeparture`, `GetTransitDeparture` and
`GetAccessRestrictions` (the same loop four times, over the key `edgeindex()` or `lineid()`):
`some mid` when it left with `found`, `none` when `low <= high` failed. -/
def binary_search_loop (key : Int → Nat) (target : Nat) :
    Nat → Int → Int → Except Fault (Option Int)
  | 0, _, _ => .error .nontermination
  | fuel + 1, low, high =>
    if low ≤ high then do
      let sum ← int32 (low + high)
      let mid := sum.tdiv 2
      if key mid = target then
        return some mid
      if target < key mid then
        let high ← int32 (mid - 1)
        binary_search_loop key target fuel low high
      else
        let low ← int32 (mid + 1)
        binary_search_loop key target fuel low high
    else
      return none

/-- The search with its initialisation `low = 0`, `high = count-1`. -/
def binary_search (key : Int → Nat) (count : Nat) (target : Nat) : Except Fault (Option Int) :=
  binary_search_loop key target (count + 2) 0 (to_int32 (count - 1))

/-- The loop `while (mid > 0 && p[mid-1].key() == target) mid--`
of `GetSigns` and `GetAccessRestrictions`. -/
def back_up (key : Int → Nat) (target : Nat) : Nat → Int → Except Fault Int
  | 0, _ => .error .nontermination
  | fuel + 1, mid =>
    if 0 < mid then do
      let prior ← int32 (mid - 1)
      if key prior = target then
        back_up key target fuel prior
      else
        return mid
    else
      return mid

/-- The loop of `GetSigns` that adds the signs (lines 319-327). -/
def GetSigns.add_signs (t : GraphTile) (idx count : Nat) :
    Nat → Int → List SignInfo → Except Fault (List SignInfo)
  | 0, _, _ => .error .nontermination
  | fuel + 1, mid, signs =>
    if (t.signs_ mid).edgeindex = idx ∧ to_uint32 mid < count then do
      if (t.signs_ mid).text_offset < t.textlist_size_ then
        let text ← c_str (t.textlist_.drop (t.signs_ mid).text_offset)
        let signs := signs ++ [⟨(t.signs_ mid).type, text⟩]
        let mid ← int32 (mid + 1)
        GetSigns.add_signs t idx count fuel mid signs
      else
        throw (.runtime_error "GetSigns: offset exceeds size of text list")
    else
      return signs

/-- `GraphTile::GetSigns(const uint32_t)`. -/
def GetSigns (t : GraphTile) (idx : Nat) : Except Fault (List SignInfo) := do
  let header ← deref t.header_
  let count := header.signcount
  if count = 0 then
    return []
  match ← binary_search (fun i => (t.signs_ i).edgeindex) count idx with
  | none => return []
  | some mid =>
    let mid ← back_up (fun i => (t.signs_ i).edgeindex) idx (count + 2) mid
    GetSigns.add_signs t idx count (count + 2) mid []

/-- `GraphTile::GetTransitStop(const uint32_t)`. -/
def GetTransitStop (t : GraphTile) (idx : Nat) : Except Fault (Option Int) := do
  let header ← deref t.header_
  let count := header.stopcount
  if count = 0 then
    return none
  if idx < count then
    return some (idx : Int)
  throw (.runtime_error "GraphTile Transit Stop index out of bounds")

/-- `GraphTile::GetTransitRoute(const uint32_t)`. -/
def GetTransitRoute (t : GraphTile) (idx : Nat) : Except Fault (Option Int) := do
  let header ← deref t.header_
  let count := header.routecount
  if count = 0 then
    return none
  if idx < count then
    return some (idx : Int)
  throw (.runtime_error "GraphTile GetTransitRoute index out of bounds")

/-- `GraphTile::GetTransitSchedule(const uint32_t)`. -/
def GetTransitSchedule (t : GraphTile) (idx : Nat) : Except Fault (Option Int) := do
  let header ← deref t.header_
  let count := header.schedulecount
  if count = 0 then
    return none
  if idx < count then
    return some (idx : Int)
  throw (.runtime_error "GraphTile GetTransitSchedule index out of bounds")

/-- The loop of `GetNextDeparture` that backs up while the prior departure of the line does not
leave before `current_time` (lines 371-375). -/
def GetNextDeparture.back_up (t : GraphTile) (lineid current_time : Nat) :
    Nat → Int → Except Fault Int
  | 0, _ => .error .nontermination
  | fuel + 1, mid =>
    if 0 < mid then do
      let prior ← int32 (mid - 1)
      if (t.departures_ prior).lineid = lineid ∧
          (t.departures_ prior).departure_time ≥ current_time then
        GetNextDeparture.back_up t lineid current_time fuel prior
      else
        return mid
    else
      return mid

/-- The test of lines 382-386: the departure at `dep` does not leave before `current_time` and
its schedule is valid. -/
def GetNextDeparture.valid (t : GraphTile) (current_time day dow : Nat)
    (date_before_tile : Bool) (dep : Int) : Except Fault Bool :=
  if (t.departures_ dep).departure_time ≥ current_time then do
    let schedule ← deref (← GetTransitSchedule t (t.departures_ dep).schedule_index)
    return (t.transit_schedules_ schedule).IsValid day dow date_before_tile
  else
    return false

/-- The `while (true)` loop of `GetNextDeparture` (lines 379-396); `dep` is the offset of the
record the pointer `dep` points to. -/
def GetNextDeparture.iterate (t : GraphTile) (lineid current_time day dow : Nat)
    (date_before_tile : Bool) (count : Nat) : Nat → Int → Int → Except Fault (Option Int)
  | 0, _, _ => .error .nontermination
  | fuel + 1, mid, dep => do
    if ← GetNextDeparture.valid t current_time day dow date_before_tile dep then
      return some dep
    let at_end := decide (to_uint32 mid = count)
    let mid ← int32 (mid + 1)
    if at_end then
      return none
    let dep := dep + 1
    if (t.departures_ dep).lineid ≠ lineid then
      return none
    GetNextDeparture.iterate t lineid current_time day dow date_before_tile count fuel mid dep

/-- `GraphTile::GetNextDeparture`. -/
def GetNextDeparture (t : GraphTile) (lineid current_time day dow : Nat)
    (date_before_tile : Bool) : Except Fault (Option Int) := do
  let header ← deref t.header_
  let count := header.departurecount
  if count = 0 then
    return none
  match ← binary_search (fun i => (t.departures_ i).lineid) count lineid with
  | none => return none
  | some mid =>
    let mid ← GetNextDeparture.back_up t lineid current_time (count + 2) mid
    GetNextDeparture.iterate t lineid current_time day dow date_before_tile count
      (count + 2) mid mid

/-- The first loop of `GetTransitDeparture` after the search (lines 439-445): `.inl mid` when
it returns `&departures_[mid]` from inside the loop, `.inr mid` when the loop ends. -/
def GetTransitDeparture.back_up (t : GraphTile) (lineid tripid : Nat) :
    Nat → Int → Except Fault (Int ⊕ Int)
  | 0, _ => .error .nontermination
  | fuel + 1, mid =>
    if 0 < mid then do
      let prior ← int32 (mid - 1)
      if (t.departures_ prior).lineid = lineid then
        if (t.departures_ mid).tripid = tripid then
          return .inl mid
        GetTransitDeparture.back_up t lineid tripid fuel prior
      else
        return .inr mid
    else
      return .inr mid

/-- The second loop of `GetTransitDeparture` (lines 447-449). -/
def GetTransitDeparture.advance (t : GraphTile) (tripid count : Nat) :
    Nat → Int → Except Fault Int
  | 0, _ => .error .nontermination
  | fuel + 1, mid =>
    if (t.departures_ mid).tripid ≠ tripid ∧ to_uint32 mid < count then do
      let mid ← int32 (mid + 1)
      GetTransitDeparture.advance t tripid count fuel mid
    else
      return mid

/-- `GraphTile::GetTransitDeparture`. -/
def GetTransitDeparture (t : GraphTile) (lineid tripid : Nat) : Except Fault (Option Int) := do
  let header ← deref t.header_
  let count := header.departurecount
  if count = 0 then
    return none
  match ← binary_search (fun i => (t.departures_ i).lineid) count lineid with
  | none => return none
  | some mid =>
    match ← GetTransitDeparture.back_up t lineid tripid (count + 2) mid with
    | .inl mid => return some mid
    | .inr mid =>
      let mid ← GetTransitDeparture.advance t tripid count (count + 2) mid
      if (t.departures_ mid).tripid = tripid then
        return some mid
      return none

/-- The loop of `GetAccessRestrictions` that collects the restrictions (lines 564-569). -/
def GetAccessRestrictions.collect (t : GraphTile) (idx access count : Nat) :
    Nat → Int → List AccessRestriction → Except Fault (List AccessRestriction)
  | 0, _, _ => .error .nontermination
  | fuel + 1, mid, restrictions =>
    if (t.access_restrictions_ mid).edgeindex = idx ∧ to_uint32 mid < count then do
      let restrictions :=
        if (t.access_restrictions_ mid).modes &&& access ≠ 0 then
          restrictions ++ [t.access_restrictions_ mid]
        else restrictions
      let mid ← int32 (mid + 1)
      GetAccessRestrictions.collect t idx access count fuel mid restrictions
    else
      return restrictions

/-- `GraphTile::GetAccessRestrictions`. -/
def GetAccessRestrictions (t : GraphTile) (idx access : Nat) :
    Except Fault (List AccessRestriction) := do
  let header ← deref t.header_
  let count := header.access_restriction_count
  if count = 0 then
    return []
  match ← binary_search (fun i => (t.access_restrictions_ i).edgeindex) count idx with
  | none => return []
  | some mid =>
    let mid ← back_up (fun i => (t.access_restrictions_ i).edgeindex) idx (count + 2) mid
    GetAccessRestrictions.collect t idx access count (count + 2) mid []

/-- `GraphTile::GetOpposingEdgeId(const DirectedEdge*)`; `node(endnode.id())` is the call of
`node(const size_t)`.  The widths of `edge_index()`, of `opp_index()` and of the ordinal of a
`GraphId` are set by declarations that are not part of these sources; the sum is taken
exactly. -/
def GetOpposingEdgeId (t : GraphTile) (edge : DirectedEdge) : Except Fault GraphId := do
  let endnode := edge.endnode
  let n ← node t endnode.id
  return { tileid := endnode.tileid, level := endnode.level,
           id := (t.nodes_ n).edge_index + edge.opp_index }

/-! ## The offsets the searches read

The functions below are the loops of `GetSigns` and `GetAccessRestrictions` once more, each
returning, next to its result, the offsets of the section at which it reads a record, in the
order of the reads (`p[mid]` in a loop condition is one read, also when `&&` then stops). -/

/-- The binary search loop with the offsets it reads (`p[mid]`, once per iteration). -/
def binary_search_loop_traced (key : Int → Nat) (target : Nat) :
    Nat → Int → Int → List Int × Except Fault (Option Int)
  | 0, _, _ => ([], .error .nontermination)
  | fuel + 1, low, high =>
    if low ≤ high then
      match int32 (low + high) with
      | .error e => ([], .error e)
      | .ok sum =>
        let mid := sum.tdiv 2
        if key mid = target then
          ([mid], .ok (some mid))
        else if target < key mid then
          match int32 (mid - 1) with
          | .error e => ([mid], .error e)
          | .ok high =>
            let rest := binary_search_loop_traced key target fuel low high
            (mid :: rest.1, rest.2)
        else
          match int32 (mid + 1) with
          | .error e => ([mid], .error e)
          | .ok low =>
            let rest := binary_search_loop_traced key target fuel low high
            (mid :: rest.1, rest.2)
    else
      ([], .ok none)

/-- The search with its initialisation, and the offsets it reads. -/
def binary_search_traced (key : Int → Nat) (count : Nat) (target : Nat) :
    List Int × Except Fault (Option Int) :=
  binary_search_loop_traced key target (count + 2) 0 (to_int32 (count - 1))

/-- The backward walk with the offsets it reads (`p[mid-1]`, when `mid > 0`). -/
def back_up_traced (key : Int → Nat) (target : Nat) : Nat → Int → List Int × Except Fault Int
  | 0, _ => ([], .error .nontermination)
  | fuel + 1, mid =>
    if 0 < mid then
      match int32 (mid - 1) with
      | .error e => ([], .error e)
      | .ok prior =>
        if key prior = target then
          let rest := back_up_traced key target fuel prior
          (prior :: rest.1, rest.2)
        else
          ([prior], .ok mid)
    else
      ([], .ok mid)

/-- The adding loop of `GetSigns` with the offsets of `signs_` it reads: `signs_[mid]` in the
condition `signs_[mid].edgeindex() == idx && mid < count`, whose left operand is evaluated
first, and again in the body. -/
def GetSigns.add_signs_traced (t : GraphTile) (idx count : Nat) :
    Nat → Int → List SignInfo → List Int × Except Fault (List SignInfo)
  | 0, _, _ => ([], .error .nontermination)
  | fuel + 1, mid, signs =>
    if (t.signs_ mid).edgeindex = idx ∧ to_uint32 mid < count then
      if (t.signs_ mid).text_offset < t.textlist_size_ then
        match c_str (t.textlist_.drop (t.signs_ mid).text_offset) with
        | .error e => ([mid, mid], .error e)
        | .ok text =>
          match int32 (mid + 1) with
          | .error e => ([mid, mid], .error e)
          | .ok next =>
            let rest := GetSigns.add_signs_traced t idx count fuel next
              (signs ++ [⟨(t.signs_ mid).type, text⟩])
            (mid :: mid :: rest.1, rest.2)
      else
        ([mid, mid], .error (.runtime_error "GetSigns: offset exceeds size of text list"))
    else
      ([mid], .ok signs)

/-- `GraphTile::GetSigns` with the offsets of `signs_` it reads. -/
def GetSigns.traced (t : GraphTile) (idx : Nat) : List Int × Except Fault (List SignInfo) :=
  match t.header_ with
  | none => ([], .error .undefined_behaviour)
  | some header =>
    let count := header.signcount
    if count = 0 then ([], .ok [])
    else
      let found := binary_search_traced (fun i => (t.signs_ i).edgeindex) count idx
      match found.2 with
      | .error e => (found.1, .error e)
      | .ok none => (found.1, .ok [])
      | .ok (some mid) =>
        let first := back_up_traced (fun i => (t.signs_ i).edgeindex) idx (count + 2) mid
        match first.2 with
        | .error e => (found.1 ++ first.1, .error e)
        | .ok mid =>
          let added := GetSigns.add_signs_traced t idx count (count + 2) mid []
          (found.1 ++ first.1 ++ added.1, added.2)

/-- The collecting loop of `GetAccessRestrictions` with the offsets of `access_restrictions_`
it reads: `access_restrictions_[mid]` in the condition
`access_restrictions_[mid].edgeindex() == idx && mid < count`, whose left operand is evaluated
first, and again in the body. -/
def GetAccessRestrictions.collect_traced (t : GraphTile) (idx access count : Nat) :
    Nat → Int → List AccessRestriction → List Int × Except Fault (List AccessRestriction)
  | 0, _, _ => ([], .error .nontermination)
  | fuel + 1, mid, restrictions =>
    if (t.access_restrictions_ mid).edgeindex = idx ∧ to_uint32 mid < count then
      match int32 (mid + 1) with
      | .error e => ([mid, mid], .error e)
      | .ok next =>
        let rest := GetAccessRestrictions.collect_traced t idx access count fuel next
          (if (t.access_restrictions_ mid).modes &&& access ≠ 0 then
            restrictions ++ [t.access_restrictions_ mid]
          else restrictions)
        (mid :: mid :: rest.1, rest.2)
    else
      ([mid], .ok restrictions)

/-- `GraphTile::GetAccessRestrictions` with the offsets of `access_restrictions_` it reads. -/
def GetAccessRestrictions.traced (t : GraphTile) (idx access : Nat) :
    List Int × Except Fault (List AccessRestriction) :=
  match t.header_ with
  | none => ([], .error .undefined_behaviour)
  | some header =>
    let count := header.access_restriction_count
    if count = 0 then ([], .ok [])
    else
      let found := binary_search_traced (fun i => (t.access_restrictions_ i).edgeindex) count idx
      match found.2 with
      | .error e => (found.1, .error e)
      | .ok none => (found.1, .ok [])
      | .ok (some mid) =>
        let first :=
          back_up_traced (fun i => (t.access_restrictions_ i).edgeindex) idx (count + 2) mid
        match first.2 with
        | .error e => (found.1 ++ first.1, .error e)
        | .ok mid =>
          let collected := GetAccessRestrictions.collect_traced t idx access count (count + 2) mid []
          (found.1 ++ first.1 ++ collected.1, collected.2)

/-! ## Maps (`std::unordered_map` as the list of its entries, in the order of insertion) -/

/-- `m.find(k)`: the value stored at key `k`, if any. -/
def map_find {κ ν : Type} [DecidableEq κ] : List (κ × ν) → κ → Option ν
  | [], _ => none
  | e :: rest, k => if e.1 = k then some e.2 else map_find rest k

/-- `m[k] = v`: replaces the value stored at `k`, or adds the entry. -/
def map_assign {κ ν : Type} [DecidableEq κ] : List (κ × ν) → κ → ν → List (κ × ν)
  | [], k, v => [(k, v)]
  | e :: rest, k, v => if e.1 = k then (k, v) :: rest else e :: map_assign rest k v

/-- `m.insert({k, v})`: adds the entry unless the key is present. -/
def map_insert {κ ν : Type} [DecidableEq κ] (m : List (κ × ν)) (k : κ) (v : ν) :
    List (κ × ν) :=
  match map_find m k with
  | some _ => m
  | none => m ++ [(k, v)]

/-- The `find` / `emplace_back` pattern of lines 127-134 and 138-145: a key that is absent gets
the one-element list, a key that is present gets the element appended to its list. -/
def map_push {κ ν : Type} [DecidableEq κ] (m : List (κ × List ν)) (k : κ) (v : ν) :
    List (κ × List ν) :=
  match map_find m k with
  | none => map_assign m k [v]
  | some l => map_assign m k (l ++ [v])

/-! ## The transit departures and the one-stop index (lines 115-147 and 460-470) -/

/-- `GraphTile::GetTransitDepartures`: the map from line id to departure pointer. -/
def GetTransitDepartures (t : GraphTile) : Except Fault (List (Nat × Int)) := do
  let header ← deref t.header_
  return (List.range header.departurecount).foldl
    (fun deps (i : Nat) => map_insert deps (t.departures_ (i : Int)).lineid (i : Int)) []

/-- The loop over the stops of lines 117-121. -/
def GraphTile.index_stops (t : GraphTile) (tileid : Nat) :
    Except Fault (List (List Nat × (Nat × Nat))) := do
  let header ← deref t.header_
  (List.range header.stopcount).foldlM
    (fun stop_one_stops (i : Nat) => do
      let stop ← GetName t (t.transit_stops_ (i : Int)).one_stop_offset
      pure (map_assign stop_one_stops stop (tileid, i)))
    t.stop_one_stops

/-- The body of the loop over the departures of lines 124-146, for the departure at offset
`dep`. -/
def GraphTile.index_line (t : GraphTile) (tileid : Nat)
    (maps : List (List Nat × List (Nat × Nat)) × List (List Nat × List (Nat × Nat)))
    (dep : Int) :
    Except Fault (List (List Nat × List (Nat × Nat)) × List (List Nat × List (Nat × Nat))) := do
  let route ← deref (← GetTransitRoute t (t.departures_ dep).routeid)
  let route_one_stop ← GetName t (t.transit_routes_ route).one_stop_offset
  let route_one_stops := map_push maps.1 route_one_stop (tileid, (t.departures_ dep).lineid)
  let op_one_stop ← GetName t (t.transit_routes_ route).op_by_onestop_id_offset
  let oper_one_stops := map_push maps.2 op_one_stop (tileid, (t.departures_ dep).lineid)
  pure (route_one_stops, oper_one_stops)

/-- Lines 123-146: the loop over the entries of `GetTransitDepartures()`, visited in the order
`iteration_order` in which the `unordered_map` is iterated. -/
def GraphTile.index_lines (iteration_order : List (Nat × Int) → List (Nat × Int))
    (t : GraphTile) (tileid : Nat) :
    Except Fault (List (List Nat × List (Nat × Nat)) × List (List Nat × List (Nat × Nat))) := do
  let deps ← GetTransitDepartures t
  (iteration_order deps).foldlM (fun maps dep => GraphTile.index_line t tileid maps dep.2)
    (t.route_one_stops, t.oper_one_stops)

/-! ## The constructors (lines 15-155) -/

/-- What the constructor takes from declarations and libraries that are not part of these
sources: `sizeof` of each record type, how a record of each type is read from its bytes (the
`reinterpret_cast` of the constructor), the modulus of the unsigned type of the two offsets of
the header (`2^32` for `uint32_t`), the `GraphId` that `Is_Valid` rejects, and the order in
which an `unordered_map<uint32_t, TransitDeparture*>` with given entries is iterated. -/
structure Platform where
  sizeof_GraphTileHeader : Nat
  sizeof_NodeInfo : Nat
  sizeof_DirectedEdge : Nat
  sizeof_AccessRestriction : Nat
  sizeof_TransitDeparture : Nat
  sizeof_TransitStop : Nat
  sizeof_TransitRoute : Nat
  sizeof_TransitSchedule : Nat
  sizeof_Sign : Nat
  sizeof_Admin : Nat
  sizeof_GraphId : Nat
  read_GraphTileHeader : List Nat → GraphTileHeader
  read_NodeInfo : List Nat → NodeInfo
  read_DirectedEdge : List Nat → DirectedEdge
  read_AccessRestriction : List Nat → AccessRestriction
  read_TransitDeparture : List Nat → TransitDeparture
  read_TransitStop : List Nat → TransitStop
  read_TransitRoute : List Nat → TransitRoute
  read_TransitSchedule : List Nat → TransitSchedule
  read_Sign : List Nat → Sign
  read_Admin : List Nat → Admin
  read_GraphId : List Nat → GraphId
  offset_modulus : Nat
  invalid_graphid : GraphId
  iteration_order : List (Nat × Int) → List (Nat × Int)

/-- The modulus of `size_t` arithmetic. -/
def SIZE_MODULUS : Nat := 18446744073709551616

/-- Subtraction `a - b` in an unsigned type with the given modulus. -/
def unsigned_sub (modulus a b : Nat) : Nat := (a % modulus + modulus - b % modulus) % modulus

/-- The typed pointer `reinterpret_cast<T*>(graphtile_.get() + start)` as a section: the record
at offset `i` is read from the `size` bytes of the buffer at `start + i * size`, or from what
is left of the buffer there. -/
def cast_at {α : Type} (read : List Nat → α) (size : Nat) (buffer : List Nat) (start : Nat) :
    Int → α :=
  fun i =>
    if (start : Int) + i * size < 0 then read []
    else read ((buffer.drop ((start : Int) + i * size).toNat).take size)

/-- A level of the hierarchy (`TileHierarchy::TileLevel`); `tiles` stands for
`tiles.TileId(pointll)`, the tile of the level that a location falls in. -/
structure TileLevel (PointLL : Type) where
  level : Nat
  name : String
  tiles : PointLL → Nat

/-- `TileHierarchy`: its levels, a `std::map` held as the list of its entries, and its tile
storage, given by what `ReadTile` does for a graph id: `some` bytes when it returns true. -/
structure TileHierarchy (PointLL : Type) where
  levels : List (Nat × TileLevel PointLL)
  tile_storage : GraphId → Option (List Nat)

/-- Modelled from the spec: `GraphId::Is_Valid`, which is not part of these sources.  The spec
asks for "a well-formed, non-sentinel identifier": an identifier is valid when it is not the
sentinel `invalid_graphid`. -/
def GraphId.Is_Valid (P : Platform) (g : GraphId) : Bool := decide (g ≠ P.invalid_graphid)

/-- Modelled from the spec: `TileHierarchy::GetGraphId`, declared in `tilehierarchy.h` and
defined outside these sources.  Its declaration says "Returns the graphid of the requested tile
based on a lat,lng and a level; if the level is not supported an invalid id will be returned",
and `test/tilehierarchy.cc` expects the level asked for, the tile of the location and the
ordinal 0 for a level of the hierarchy. -/
def TileHierarchy.GetGraphId {PointLL : Type} (P : Platform) (h : TileHierarchy PointLL)
    (pointll : PointLL) (level : Nat) : GraphId :=
  match map_find h.levels level with
  | none => P.invalid_graphid
  | some tile_level => { tileid := tile_level.tiles pointll, level := level, id := 0 }

/-- The values the constructor gives to the pointer members, as byte offsets from
`graphtile_.get()`, and to the two sizes. -/
structure Pointers where
  header_ : Nat
  nodes_ : Nat
  directededges_ : Nat
  access_restrictions_ : Nat
  departures_ : Nat
  transit_stops_ : Nat
  transit_routes_ : Nat
  transit_schedules_ : Nat
  signs_ : Nat
  admins_ : Nat
  edge_bins_ : Nat
  edgeinfo_ : Nat
  edgeinfo_size_ : Nat
  textlist_ : Nat
  textlist_size_ : Nat
  deriving DecidableEq, Repr

/-- Lines 48-109 of the constructor: `ptr` runs over the buffer of `size` bytes. -/
def GraphTile.pointers (P : Platform) (header : GraphTileHeader) (size : Nat) : Pointers :=
  let ptr := 0
  let header_ := ptr
  let ptr := ptr + P.sizeof_GraphTileHeader
  let nodes_ := ptr
  let ptr := ptr + header.nodecount * P.sizeof_NodeInfo
  let directededges_ := ptr
  let ptr := ptr + header.directededgecount * P.sizeof_DirectedEdge
  let access_restrictions_ := ptr
  let ptr := ptr + header.access_restriction_count * P.sizeof_AccessRestriction
  let departures_ := ptr
  let ptr := ptr + header.departurecount * P.sizeof_TransitDeparture
  let transit_stops_ := ptr
  let ptr := ptr + header.stopcount * P.sizeof_TransitStop
  let transit_routes_ := ptr
  let ptr := ptr + header.routecount * P.sizeof_TransitRoute
  let transit_schedules_ := ptr
  let ptr := ptr + header.schedulecount * P.sizeof_TransitSchedule
  let signs_ := ptr
  let ptr := ptr + header.signcount * P.sizeof_Sign
  let admins_ := ptr
  let ptr := ptr + header.admincount * P.sizeof_Admin
  let edge_bins_ := ptr
  let edgeinfo_ := header.edgeinfo_offset
  let edgeinfo_size_ :=
    unsigned_sub P.offset_modulus header.textlist_offset header.edgeinfo_offset
  let textlist_ := header.textlist_offset
  let textlist_size_ := unsigned_sub SIZE_MODULUS size header.textlist_offset
  { header_ := header_, nodes_ := nodes_, directededges_ := directededges_,
    access_restrictions_ := access_restrictions_, departures_ := departures_,
    transit_stops_ := transit_stops_, transit_routes_ := transit_routes_,
    transit_schedules_ := transit_schedules_, signs_ := signs_, admins_ := admins_,
    edge_bins_ := edge_bins_, edgeinfo_ := edgeinfo_, edgeinfo_size_ := edgeinfo_size_,
    textlist_ := textlist_, textlist_size_ := textlist_size_ }

/-- The default constructor `GraphTile::GraphTile()`: size 0, null pointers, empty maps. -/
def GraphTile.default_constructed : GraphTile := {}

/-- The tile whose members point into the buffer `tile_data` as the constructor sets them
(lines 48-109), before the one-stop index is built and `size_` is set. -/
def GraphTile.over (P : Platform) (tile_data : List Nat) : GraphTile :=
  let header := P.read_GraphTileHeader (tile_data.take P.sizeof_GraphTileHeader)
  let p := GraphTile.pointers P header tile_data.length
  { size_ := 0
    header_ := some header
    nodes_ := cast_at P.read_NodeInfo P.sizeof_NodeInfo tile_data p.nodes_
    directededges_ := cast_at P.read_DirectedEdge P.sizeof_DirectedEdge tile_data p.directededges_
    access_restrictions_ :=
      cast_at P.read_AccessRestriction P.sizeof_AccessRestriction tile_data p.access_restrictions_
    departures_ := cast_at P.read_TransitDeparture P.sizeof_TransitDeparture tile_data p.departures_
    transit_stops_ := cast_at P.read_TransitStop P.sizeof_TransitStop tile_data p.transit_stops_
    transit_routes_ := cast_at P.read_TransitRoute P.sizeof_TransitRoute tile_data p.transit_routes_
    transit_schedules_ :=
      cast_at P.read_TransitSchedule P.sizeof_TransitSchedule tile_data p.transit_schedules_
    signs_ := cast_at P.read_Sign P.sizeof_Sign tile_data p.signs_
    admins_ := cast_at P.read_Admin P.sizeof_Admin tile_data p.admins_
    edge_bins_ := cast_at P.read_GraphId P.sizeof_GraphId tile_data p.edge_bins_
    edgeinfo_ := tile_data.drop p.edgeinfo_
    edgeinfo_size_ := p.edgeinfo_size_
    textlist_ := tile_data.drop p.textlist_
    textlist_size_ := p.textlist_size_ }

/-- The constructor `GraphTile::GraphTile(const TileHierarchy&, const GraphId&)`.  It returns
the tile and the graph ids `ReadTile` was called with; an exception that leaves the constructor
is an error.  `uninitialised` holds the indeterminate values of the members that have no
initialiser; `size_` is initialised to 0 and the three maps are empty.  Reading the header of a
buffer that is shorter than the header is a read past the end of the buffer. -/
def GraphTile.construct {PointLL : Type} (P : Platform) (uninitialised : GraphTile)
    (hierarchy : TileHierarchy PointLL) (graphid : GraphId) :
    Except Fault (GraphTile × List GraphId) :=
  let unset : GraphTile :=
    { uninitialised with
      size_ := 0, stop_one_stops := [], route_one_stops := [], oper_one_stops := [] }
  if ¬ GraphId.Is_Valid P graphid then
    .ok (unset, [])
  else
    match hierarchy.tile_storage graphid with
    | some tile_data => do
      if tile_data.length < P.sizeof_GraphTileHeader then
        throw .undefined_behaviour
      let t := GraphTile.over P tile_data
      let t ←
        if graphid.level = 3 then do
          let stops ← GraphTile.index_stops t graphid.tileid
          let lines ← GraphTile.index_lines P.iteration_order t graphid.tileid
          pure { t with
            stop_one_stops := stops, route_one_stops := lines.1, oper_one_stops := lines.2 }
        else
          pure t
      return ({ t with size_ := tile_data.length }, [graphid])
    | none => .ok (unset, [graphid])

/-- `GraphTile::size`. -/
def GraphTile.size (t : GraphTile) : Nat := t.size_

/-! ## The outbound edges of a node (`graphtile.cc`, lines 240-248) -/

/-- `GraphTile::GetDirectedEdges`.  The references `count` and `edge_index` are passed in with
the values they hold at the call; the first component of the result is what they hold when the
function is left, by `return` or by an exception, the second what it returns or throws. -/
def GetDirectedEdges (t : GraphTile) (node_index : Nat) (count edge_index : Nat) :
    (Nat × Nat) × Except Fault Int :=
  match node t node_index with
  | .error e => ((count, edge_index), .error e)
  | .ok nodeinfo =>
    let count := (t.nodes_ nodeinfo).edge_count
    let edge_index := (t.nodes_ nodeinfo).edge_index
    ((count, edge_index), directededge t (t.nodes_ nodeinfo).edge_index)

/-! ## The order of access restrictions (`accessrestriction.cc`, lines 55-58) -/

/-- `AccessRestriction::operator <`. -/
def AccessRestriction.lt (a other : AccessRestriction) : Bool :=
  decide (a.edgeindex < other.edgeindex)

/-! ## The offsets `GetNextDeparture` reads

The loops of `GetNextDeparture` once more, each returning, next to its result, the offsets of
`departures_` at which it reads a record, in the order of the reads (the reads of one record in
one condition or in the test of lines 382-386 are one entry). -/

/-- The backing-up loop of `GetNextDeparture` with the offsets it reads (`departures_[mid-1]`,
when `mid > 0`). -/
def GetNextDeparture.back_up_traced (t : GraphTile) (lineid current_time : Nat) :
    Nat → Int → List Int × Except Fault Int
  | 0, _ => ([], .error .nontermination)
  | fuel + 1, mid =>
    if 0 < mid then
      match int32 (mid - 1) with
      | .error e => ([], .error e)
      | .ok prior =>
        if (t.departures_ prior).lineid = lineid ∧
            (t.departures_ prior).departure_time ≥ current_time then
          let rest := GetNextDeparture.back_up_traced t lineid current_time fuel prior
          (prior :: rest.1, rest.2)
        else
          ([prior], .ok mid)
    else
      ([], .ok mid)

/-- The `while (true)` loop of `GetNextDeparture` with the offsets it reads: `dep` in the test
of lines 382-386, and `dep` again, after `dep++`, in `dep->lineid() != lineid`. -/
def GetNextDeparture.iterate_traced (t : GraphTile) (lineid current_time day dow : Nat)
    (date_before_tile : Bool) (count : Nat) :
    Nat → Int → Int → List Int × Except Fault (Option Int)
  | 0, _, _ => ([], .error .nontermination)
  | fuel + 1, mid, dep =>
    match GetNextDeparture.valid t current_time day dow date_before_tile dep with
    | .error e => ([dep], .error e)
    | .ok true => ([dep], .ok (some dep))
    | .ok false =>
      let at_end := decide (to_uint32 mid = count)
      match int32 (mid + 1) with
      | .error e => ([dep], .error e)
      | .ok mid =>
        if at_end then
          ([dep], .ok none)
        else
          let next := dep + 1
          if (t.departures_ next).lineid ≠ lineid then
            ([dep, next], .ok none)
          else
            let rest := GetNextDeparture.iterate_traced t lineid current_time day dow
              date_before_tile count fuel mid next
            (dep :: next :: rest.1, rest.2)

/-- `GraphTile::GetNextDeparture` with the offsets of `departures_` it reads, the part read by
the `while (true)` loop apart: the offsets read by the search and the backing up, the offsets
read by the loop, and the result. -/
def GetNextDeparture.traced (t : GraphTile) (lineid current_time day dow : Nat)
    (date_before_tile : Bool) : List Int × List Int × Except Fault (Option Int) :=
  match t.header_ with
  | none => ([], [], .error .undefined_behaviour)
  | some header =>
    let count := header.departurecount
    if count = 0 then ([], [], .ok none)
    else
      let found := binary_search_traced (fun i => (t.departures_ i).lineid) count lineid
      match found.2 with
      | .error e => (found.1, [], .error e)
      | .ok none => (found.1, [], .ok none)
      | .ok (some mid) =>
        let first := GetNextDeparture.back_up_traced t lineid current_time (count + 2) mid
        match first.2 with
        | .error e => (found.1 ++ first.1, [], .error e)
        | .ok mid =>
          let scanned := GetNextDeparture.iterate_traced t lineid current_time day dow
            date_before_tile count (count + 2) mid mid
          (found.1 ++ first.1, scanned.1, scanned.2)

/-! ## Vocabulary of the statements -/

/-- The records at offsets `s .. s + len - 1` of a section. -/
def slice {α : Type} (p : Int → α) (s len : Nat) : List α :=
  (List.range' s len).map (fun (i : Nat) => p (i : Int))

/-- The text pool: the first `textlist_size_` bytes at `textlist_`. -/
def pool (t : GraphTile) : List Nat := t.textlist_.take t.textlist_size_

/-- The bytes of the pool from `offset` up to, not including, the first NUL at or after it. -/
def text_at (t : GraphTile) (offset : Nat) : List Nat :=
  ((pool t).drop offset).takeWhile (fun b => decide (b ≠ 0))

/-- The body of the adding loop of `GetSigns` (lines 320-325) as a function of the sign it is
run on: its `SignInfo`, or the exception of line 324.  Used to state what the loop computes. -/
def GetSigns.info (t : GraphTile) (s : Sign) : Except Fault SignInfo :=
  if s.text_offset < t.textlist_size_ then
    match c_str (t.textlist_.drop s.text_offset) with
    | .ok text => .ok ⟨s.type, text⟩
    | .error e => .error e
  else .error (.runtime_error "GetSigns: offset exceeds size of text list")

/-- The body of the adding loop run over a list of signs, first to last, stopping at the first
failure. -/
def GetSigns.infos (t : GraphTile) : List Sign → Except Fault (List SignInfo)
  | [] => .ok []
  | s :: ss =>
    match GetSigns.info t s with
    | .error e => .error e
    | .ok i =>
      match GetSigns.infos t ss with
      | .error e => .error e
      | .ok l => .ok (i :: l)

/-- The order of the departure array: by `lineid`, and within a line by `departure_time`. -/
def departure_le (a b : TransitDeparture) : Prop :=
  a.lineid < b.lineid ∨ (a.lineid = b.lineid ∧ a.departure_time ≤ b.departure_time)

instance : DecidableRel departure_le := fun a b => by
  unfold departure_le
  infer_instance

/-- A departure of line `lineid` that does not leave before `current_time` and whose schedule is
valid for the day. -/
def is_next_departure (t : GraphTile) (lineid current_time day dow : Nat)
    (date_before_tile : Bool) (d : TransitDeparture) : Prop :=
  d.lineid = lineid ∧ current_time ≤ d.departure_time ∧
    (t.transit_schedules_ (d.schedule_index : Int)).IsValid day dow date_before_tile = true

instance (t : GraphTile) (lineid current_time day dow : Nat) (date_before_tile : Bool)
    (d : TransitDeparture) :
    Decidable (is_next_departure t lineid current_time day dow date_before_tile d) := by
  unfold is_next_departure
  infer_instance

/-- The fixed sections that follow the header, in the order of the spec (nodes, directed edges,
access restrictions, departures, stops, routes, schedules, signs, admins), each with its count
and the size of one record; the edge bins are the section after them. -/
def fixed_sections (P : Platform) (header : GraphTileHeader) : List (Nat × Nat) :=
  [(header.nodecount, P.sizeof_NodeInfo),
   (header.directededgecount, P.sizeof_DirectedEdge),
   (header.access_restriction_count, P.sizeof_AccessRestriction),
   (header.departurecount, P.sizeof_TransitDeparture),
   (header.stopcount, P.sizeof_TransitStop),
   (header.routecount, P.sizeof_TransitRoute),
   (header.schedulecount, P.sizeof_TransitSchedule),
   (header.signcount, P.sizeof_Sign),
   (header.admincount, P.sizeof_Admin)]

/-- The reference layout of the spec: section number `k` (0 for the nodes, 9 for the edge bins)
starts at the size of the header plus `count × record size` of the sections before it. -/
def reference_start (P : Platform) (header : GraphTileHeader) (k : Nat) : Nat :=
  P.sizeof_GraphTileHeader +
    (((fixed_sections P header).take k).map (fun section_ => section_.1 * section_.2)).sum

/-- The bytes of the header and of the fixed sections, nodes to edge bins, when the edge bins
hold `bins` graph ids. -/
def fixed_bytes (P : Platform) (header : GraphTileHeader) (bins : Nat) : Nat :=
  P.sizeof_GraphTileHeader +
    ((fixed_sections P header).map (fun section_ => section_.1 * section_.2)).sum +
    bins * P.sizeof_GraphId

/-- The one-stop id of the stop at offset `i`, as the loop of lines 118-121 reads it. -/
def stop_one_stop (t : GraphTile) (i : Int) : Except Fault (List Nat) :=
  GetName t (t.transit_stops_ i).one_stop_offset

/-- The one-stop id of the route of the departure at offset `dep`, as the loop of lines 124-146
reads it. -/
def route_one_stop (t : GraphTile) (dep : Int) : Except Fault (List Nat) := do
  let route ← deref (← GetTransitRoute t (t.departures_ dep).routeid)
  GetName t (t.transit_routes_ route).one_stop_offset

/-- The one-stop id of the operator of the route of the departure at offset `dep`. -/
def operator_one_stop (t : GraphTile) (dep : Int) : Except Fault (List Nat) := do
  let route ← deref (← GetTransitRoute t (t.departures_ dep).routeid)
  GetName t (t.transit_routes_ route).op_by_onestop_id_offset

/-- The value that the find / emplace_back pattern leaves at a key to which the elements of
`pushed` were pushed in turn, `before` being the value it had. -/
def pushed_value {ν : Type} (before : Option (List ν)) : List ν → Option (List ν)
  | [] => before
  | v :: pushed => some (before.getD [] ++ v :: pushed)

/-- The (tile id, line id) pairs of the entries `deps` of the departure map whose route has the
one-stop id `r`, in the order of `deps`. -/
def route_pairs (t : GraphTile) (tileid : Nat) (deps : List (Nat × Int)) (r : List Nat) :
    List (Nat × Nat) :=
  (deps.filter (fun d => decide (route_one_stop t d.2 = .ok r))).map
    (fun d => (tileid, (t.departures_ d.2).lineid))

/-- The (tile id, line id) pairs of the entries `deps` of the departure map whose operator has
the one-stop id `o`, in the order of `deps`. -/
def operator_pairs (t : GraphTile) (tileid : Nat) (deps : List (Nat × Int)) (o : List Nat) :
    List (Nat × Nat) :=
  (deps.filter (fun d => decide (operator_one_stop t d.2 = .ok o))).map
    (fun d => (tileid, (t.departures_ d.2).lineid))

/-! ## Concrete tiles -/

/-- A tile with four access restrictions for the edges 1, 2, 2, 3; the bytes after the section
decode to a restriction of edge 2. -/
def example_restrictions : GraphTile :=
  { header_ := some { access_restriction_count := 4 }
    access_restrictions_ := section_of
      [{ edgeindex := 1, modes := 1 }, { edgeindex := 2, modes := 2 },
       { edgeindex := 2, modes := 4 }, { edgeindex := 3, modes := 3 }]
      { edgeindex := 2, modes := 7 } }

/-- A tile with four signs for the edges 1, 2, 2, 4 over the text pool `"A\0BC\0"`; the sign of
edge 4 has a text offset beyond the pool. -/
def example_signs : GraphTile :=
  { header_ := some { signcount := 4 }
    signs_ := section_of
      [{ edgeindex := 1, type := 1, text_offset := 0 },
       { edgeindex := 2, type := 2, text_offset := 2 },
       { edgeindex := 2, type := 3, text_offset := 0 },
       { edgeindex := 4, type := 1, text_offset := 9 }]
      { edgeindex := 4 }
    textlist_ := [65, 0, 66, 67, 0]
    textlist_size_ := 5 }

/-- The departures of line 7 at the times 100, 200, 200, 300 (trips 1 to 4), all with a valid
schedule, followed in the array by one departure of line 9. -/
def example_departures : GraphTile :=
  { header_ := some { departurecount := 5, schedulecount := 1 }
    departures_ := section_of
      [{ lineid := 7, departure_time := 100, tripid := 1 },
       { lineid := 7, departure_time := 200, tripid := 2 },
       { lineid := 7, departure_time := 200, tripid := 3 },
       { lineid := 7, departure_time := 300, tripid := 4 },
       { lineid := 9, departure_time := 50, tripid := 5 }]
      default
    transit_schedules_ := fun _ => { IsValid := fun _ _ _ => true } }

/-- One departure of line 7 at time 400 whose schedule index 5 is out of range, followed by a
departure of line 9; the only schedule is never valid. -/
def example_bad_schedule : GraphTile :=
  { header_ := some { departurecount := 2, schedulecount := 1 }
    departures_ := section_of
      [{ lineid := 7, departure_time := 400, schedule_index := 5 },
       { lineid := 9, departure_time := 100 }]
      default }

/-- The departures of line 7 at the times 100, 200, 200, 300 are the whole array; the bytes
after it decode to a departure of line 7 at time 400, trip 9. -/
def example_last_run : GraphTile :=
  { header_ := some { departurecount := 4, schedulecount := 1 }
    departures_ := section_of
      [{ lineid := 7, departure_time := 100, tripid := 1 },
       { lineid := 7, departure_time := 200, tripid := 2 },
       { lineid := 7, departure_time := 200, tripid := 3 },
       { lineid := 7, departure_time := 300, tripid := 4 }]
      { lineid := 7, departure_time := 400, tripid := 9 }
    transit_schedules_ := fun _ => { IsValid := fun _ _ _ => true } }

/-- One departure of line 1 with trip 10 and one of line 2 with trip 20. -/
def example_two_lines : GraphTile :=
  { header_ := some { departurecount := 2 }
    departures_ := section_of
      [{ lineid := 1, tripid := 10 }, { lineid := 2, tripid := 20 }] default }

/-- A tile (tile id 1, level 0) with three nodes, four directed edges, two admins and no
transit records. -/
def example_nodes : GraphTile :=
  { header_ := some
      { graphid := { tileid := 1, level := 0, id := 0 }
        nodecount := 3, directededgecount := 4, admincount := 2 } }

/-- The tile of `example_nodes` with node records: node 1 has its edges from ordinal 10 on. -/
def example_edges : GraphTile :=
  { header_ := some
      { graphid := { tileid := 1, level := 0, id := 0 }
        nodecount := 3, directededgecount := 4 }
    nodes_ := section_of
      [{ edge_index := 0, edge_count := 10 }, { edge_index := 10, edge_count := 2 },
       { edge_index := 12, edge_count := 1 }] default }

/-- Three signs for the edges 1, 2, 2 over the text pool `"A\\0"`: the run of edge 2 is the last
of the array; the bytes after the section decode to a sign of edge 7. -/
def example_signs_last : GraphTile :=
  { header_ := some { signcount := 3 }
    signs_ := section_of
      [{ edgeindex := 1, type := 1, text_offset := 0 },
       { edgeindex := 2, type := 2, text_offset := 0 },
       { edgeindex := 2, type := 3, text_offset := 0 }]
      { edgeindex := 7 }
    textlist_ := [65, 0]
    textlist_size_ := 2 }

/-- A small platform: a header of 11 one-byte fields (the nine counts, then the two offsets),
records of one to four one-byte fields, 32-bit offsets, and maps iterated in the order of
insertion. -/
def example_platform : Platform :=
  { sizeof_GraphTileHeader := 11
    sizeof_NodeInfo := 2
    sizeof_DirectedEdge := 4
    sizeof_AccessRestriction := 2
    sizeof_TransitDeparture := 4
    sizeof_TransitStop := 1
    sizeof_TransitRoute := 2
    sizeof_TransitSchedule := 1
    sizeof_Sign := 3
    sizeof_Admin := 2
    sizeof_GraphId := 3
    read_GraphTileHeader := fun b =>
      { nodecount := b.getD 0 0, directededgecount := b.getD 1 0,
        access_restriction_count := b.getD 2 0, departurecount := b.getD 3 0,
        stopcount := b.getD 4 0, routecount := b.getD 5 0, schedulecount := b.getD 6 0,
        signcount := b.getD 7 0, admincount := b.getD 8 0, edgeinfo_offset := b.getD 9 0,
        textlist_offset := b.getD 10 0 }
    read_NodeInfo := fun b => { edge_index := b.getD 0 0, edge_count := b.getD 1 0 }
    read_DirectedEdge := fun b =>
      { endnode := { tileid := b.getD 0 0, level := b.getD 1 0, id := b.getD 2 0 },
        opp_index := b.getD 3 0 }
    read_AccessRestriction := fun b => { edgeindex := b.getD 0 0, modes := b.getD 1 0 }
    read_TransitDeparture := fun b =>
      { lineid := b.getD 0 0, tripid := b.getD 1 0, routeid := b.getD 2 0,
        departure_time := b.getD 3 0 }
    read_TransitStop := fun b => { one_stop_offset := b.getD 0 0 }
    read_TransitRoute := fun b =>
      { one_stop_offset := b.getD 0 0, op_by_onestop_id_offset := b.getD 1 0 }
    read_TransitSchedule := fun b => { IsValid := fun _ _ _ => decide (b.getD 0 0 ≠ 0) }
    read_Sign := fun b =>
      { edgeindex := b.getD 0 0, type := b.getD 1 0, text_offset := b.getD 2 0 }
    read_Admin := fun b => { country_offset := b.getD 0 0, state_offset := b.getD 1 0 }
    read_GraphId := fun b => { tileid := b.getD 0 0, level := b.getD 1 0, id := b.getD 2 0 }
    offset_modulus := 4294967296
    invalid_graphid := { tileid := 4194303, level := 7, id := 2097151 }
    iteration_order := fun deps => deps }

/-- A transit tile of 33 bytes for `example_platform`: two departures, of the lines 5 and 6 and
the routes 0 and 1, two stops, two routes, and the text list `"S\\0R\\0O\\0P\\0"`.  Both stops
are named `"S"`; both routes have the one-stop id `"R"`, route 0 has the operator `"O"` and
route 1 the operator `"P"`. -/
def example_transit_data : List Nat :=
  [0, 0, 0, 2, 2, 2, 0, 0, 0, 25, 25,
   5, 1, 0, 100, 6, 2, 1, 200,
   0, 0,
   2, 4, 2, 6,
   83, 0, 82, 0, 79, 0, 80, 0]

/-- The same tile with both departures on line 5 and route 0. -/
def example_transit_data_one_line : List Nat :=
  [0, 0, 0, 2, 2, 2, 0, 0, 0, 25, 25,
   5, 1, 0, 100, 5, 2, 0, 200,
   0, 0,
   2, 4, 2, 6,
   83, 0, 82, 0, 79, 0, 80, 0]

/-- The same tile with a first stop whose one-stop offset, 9, is beyond the text list. -/
def example_transit_data_bad_stop : List Nat :=
  [0, 0, 0, 2, 2, 2, 0, 0, 0, 25, 25,
   5, 1, 0, 100, 6, 2, 1, 200,
   9, 0,
   2, 4, 2, 6,
   83, 0, 82, 0, 79, 0, 80, 0]

/-- A tile that is a header of zeros: no records, and both offsets 0. -/
def example_zero_header : List Nat := [0, 0, 0, 0, 0, 0, 0, 0, 0, 0, 0]

/-- A hierarchy with the levels 0, 1 and 2 whose storage holds the tiles above under the ids
`(9, 3, 0)`, `(8, 3, 0)`, `(7, 3, 0)` and `(6, 0, 0)` and no other tile. -/
def example_hierarchy : TileHierarchy (Int × Int) :=
  { levels :=
      [(0, { level := 0, name := "highway", tiles := fun _ => 0 }),
       (1, { level := 1, name := "arterial", tiles := fun _ => 0 }),
       (2, { level := 2, name := "local", tiles := fun _ => 0 })]
    tile_storage := fun g =>
      if g = { tileid := 9, level := 3, id := 0 } then some example_transit_data
      else if g = { tileid := 8, level := 3, id := 0 } then some example_transit_data_one_line
      else if g = { tileid := 7, level := 3, id := 0 } then some example_transit_data_bad_stop
      else if g = { tileid := 6, level := 0, id := 0 } then some example_zero_header
      else none }

/-- The tile of `example_last_run` in a buffer where the bytes after the departure array decode
to a departure of line 0: the four departures of line 7 are the whole array. -/
def example_last_run_then_other : GraphTile :=
  { header_ := some { departurecount := 4, schedulecount := 1 }
    departures_ := section_of
      [{ lineid := 7, departure_time := 100, tripid := 1 },
       { lineid := 7, departure_time := 200, tripid := 2 },
       { lineid := 7, departure_time := 200, tripid := 3 },
       { lineid := 7, departure_time := 300, tripid := 4 }]
      default
    transit_schedules_ := fun _ => { IsValid := fun _ _ _ => true } }

/-- A tile (tile id 1, level 0) with three nodes and four directed edges: node 0 has the edges
0 and 1, node 1 the edges 2 and 3, and node 2, the last, has no edge and the edge index 4. -/
def example_slices : GraphTile :=
  { header_ := some
      { graphid := { tileid := 1, level := 0, id := 0 }
        nodecount := 3, directededgecount := 4 }
    nodes_ := section_of
      [{ edge_index := 0, edge_count := 2 }, { edge_index := 2, edge_count := 2 },
       { edge_index := 4, edge_count := 0 }] default }

/-- Five departures of the lines 5, 5, 6, 8, 6, in this order (not sorted by line). -/
def example_lines : GraphTile :=
  { header_ := some { departurecount := 5 }
    departures_ := section_of
      [{ lineid := 5, tripid := 1 }, { lineid := 5, tripid := 2 }, { lineid := 6, tripid := 3 },
       { lineid := 8, tripid := 4 }, { lineid := 6, tripid := 5 }] default }

/-! # Theorems -/

/-! ## Machine integers -/

theorem int32_of_bounds {x : Int} (h₁ : -2147483648 ≤ x) (h₂ : x ≤ 2147483647) :
    int32 x = .ok x := by
  simp [int32, INT32_MIN, INT32_MAX, h₁, h₂]

theorem to_int32_of_lt {n : Nat} (h : n < 2147483648) : to_int32 n = (n : Int) := by
  have h' : n % 4294967296 = n := Nat.mod_eq_of_lt (by omega)
  simp [to_int32, h', h]

theorem to_uint32_of_nat {n : Nat} (h : n < 4294967296) : to_uint32 (n : Int) = n := by
  unfold to_uint32
  omega

theorem tdiv_two_eq {x : Int} (h : 0 ≤ x) : x.tdiv 2 = x / 2 :=
  Int.tdiv_eq_ediv h (by decide)

/-! ## The binary search -/

/-- What the binary search loop returns on `[low, high]`: it always returns, a `mid` it returns
lies in the interval and carries the target key, and over a sorted section `none` means that no
record of the interval carries it. -/
theorem binary_search_loop_spec (key : Int → Nat) (target : Nat) (n : Nat)
    (hn : n ≤ 1073741824) :
    ∀ (fuel : Nat) (low high : Int), 0 ≤ low → high < n → high - low + 2 ≤ fuel → 1 ≤ fuel →
      ∃ r, binary_search_loop key target fuel low high = .ok r ∧
        (∀ mid, r = some mid → low ≤ mid ∧ mid ≤ high ∧ key mid = target) ∧
        ((∀ i j : Int, 0 ≤ i → i ≤ j → j < n → key i ≤ key j) → r = none →
          ∀ i, low ≤ i → i ≤ high → key i ≠ target) := by
  intro fuel
  induction fuel with
  | zero => intro low high _ _ _ h; omega
  | succ fuel ih =>
    intro low high hlow hhigh hfuel _
    unfold binary_search_loop
    by_cases hle : low ≤ high
    · have hsum : int32 (low + high) = .ok (low + high) := int32_of_bounds (by omega) (by omega)
      have hmid : (low + high).tdiv 2 = (low + high) / 2 := tdiv_two_eq (by omega)
      simp only [hle, if_true, hsum, hmid, bind, Except.bind, pure, Except.pure]
      by_cases hkey : key ((low + high) / 2) = target
      · refine ⟨some ((low + high) / 2), by simp [hkey], ?_, by simp⟩
        intro mid hm
        cases hm
        exact ⟨by omega, by omega, hkey⟩
      · by_cases hlt : target < key ((low + high) / 2)
        · have hh : int32 ((low + high) / 2 - 1) = .ok ((low + high) / 2 - 1) :=
            int32_of_bounds (by omega) (by omega)
          simp only [hkey, hlt, if_true, if_false, hh]
          obtain ⟨r, hr, hfound, hnone⟩ :=
            ih low ((low + high) / 2 - 1) hlow (by omega) (by omega) (by omega)
          refine ⟨r, hr, ?_, ?_⟩
          · intro mid hm
            obtain ⟨h1, h2, h3⟩ := hfound mid hm
            exact ⟨h1, by omega, h3⟩
          · intro hs hrn i hi1 hi2
            by_cases hi : i ≤ (low + high) / 2 - 1
            · exact hnone hs hrn i hi1 hi
            · have := hs ((low + high) / 2) i (by omega) (by omega) (by omega)
              omega
        · have hh : int32 ((low + high) / 2 + 1) = .ok ((low + high) / 2 + 1) :=
            int32_of_bounds (by omega) (by omega)
          simp only [hkey, hlt, if_false, hh]
          obtain ⟨r, hr, hfound, hnone⟩ :=
            ih ((low + high) / 2 + 1) high (by omega) hhigh (by omega) (by omega)
          refine ⟨r, hr, ?_, ?_⟩
          · intro mid hm
            obtain ⟨h1, h2, h3⟩ := hfound mid hm
            exact ⟨by omega, h2, h3⟩
          · intro hs hrn i hi1 hi2
            by_cases hi : (low + high) / 2 + 1 ≤ i
            · exact hnone hs hrn i hi hi2
            · have := hs i ((low + high) / 2) (by omega) (by omega) (by omega)
              omega
    · refine ⟨none, by simp [hle, pure, Except.pure], by simp, ?_⟩
      intro _ _ i h1 h2
      omega

/-- The search over a whole section of `count` records, `0 < count ≤ 2^30`. -/
theorem binary_search_spec (key : Int → Nat) (target : Nat) (count : Nat)
    (h0 : 0 < count) (hn : count ≤ 1073741824) :
    ∃ r, binary_search key count target = .ok r ∧
      (∀ mid, r = some mid → 0 ≤ mid ∧ mid < count ∧ key mid = target) ∧
      ((∀ i j : Int, 0 ≤ i → i ≤ j → j < count → key i ≤ key j) → r = none →
        ∀ i : Int, 0 ≤ i → i < count → key i ≠ target) := by
  have hhigh : to_int32 (count - 1) = ((count - 1 : Nat) : Int) := to_int32_of_lt (by omega)
  obtain ⟨r, hr, hfound, hnone⟩ :=
    binary_search_loop_spec key target count hn (count + 2) 0 ((count - 1 : Nat) : Int)
      (le_refl 0) (by omega) (by omega) (by omega)
  refine ⟨r, by rw [binary_search, hhigh]; exact hr, ?_, ?_⟩
  · intro mid hm
    obtain ⟨h1, h2, h3⟩ := hfound mid hm
    exact ⟨h1, by omega, h3⟩
  · intro hs hrn i hi1 hi2
    exact hnone hs hrn i hi1 (by omega)

/-- The backward walk from a position `mid` of the run ends on a position `s` such that all of
`s .. mid` carry the target key and the record before `s`, if any, does not. -/
theorem back_up_spec (key : Int → Nat) (target : Nat) :
    ∀ (fuel : Nat) (mid : Int), 0 ≤ mid → mid < fuel → mid ≤ 1073741824 →
      ∃ s, back_up key target fuel mid = .ok s ∧ 0 ≤ s ∧ s ≤ mid ∧
        (∀ i, s ≤ i → i < mid → key i = target) ∧ (0 < s → key (s - 1) ≠ target) := by
  intro fuel
  induction fuel with
  | zero => intro mid h0 h1; omega
  | succ fuel ih =>
    intro mid h0 hfuel hmid
    unfold back_up
    by_cases hpos : 0 < mid
    · have hp : int32 (mid - 1) = .ok (mid - 1) := int32_of_bounds (by omega) (by omega)
      simp only [hpos, if_true, hp, bind, Except.bind, pure, Except.pure]
      by_cases hkey : key (mid - 1) = target
      · simp only [hkey, if_true]
        obtain ⟨s, hs, hs0, hsm, hrun, hstop⟩ := ih (mid - 1) (by omega) (by omega) (by omega)
        refine ⟨s, hs, hs0, by omega, ?_, hstop⟩
        intro i hi1 hi2
        by_cases hi : i < mid - 1
        · exact hrun i hi1 hi
        · have : i = mid - 1 := by omega
          rw [this]; exact hkey
      · simp only [hkey, if_false]
        exact ⟨mid, rfl, h0, le_refl _, by intro i h1 h2; omega, fun _ => hkey⟩
    · simp only [hpos, if_false, pure, Except.pure]
      exact ⟨mid, rfl, h0, le_refl _, by intro i h1 h2; omega, by intro h; omega⟩

/-! ## Sections as lists -/

theorem records_eq_slice {α : Type} (p : Int → α) (n : Nat) : records p n = slice p 0 n := by
  simp [records, slice, List.range_eq_range']

theorem slice_zero {α : Type} (p : Int → α) (s : Nat) : slice p s 0 = [] := rfl

theorem slice_succ {α : Type} (p : Int → α) (s len : Nat) :
    slice p s (len + 1) = p (s : Int) :: slice p (s + 1) len := by
  simp [slice, List.range'_succ]

theorem slice_append {α : Type} (p : Int → α) (s a b : Nat) :
    slice p s (a + b) = slice p s a ++ slice p (s + a) b := by
  unfold slice
  rw [← List.map_append, List.range'_append_1, Nat.add_comm b a]

theorem records_split {α : Type} (p : Int → α) (n s : Nat) (h : s ≤ n) :
    records p n = slice p 0 s ++ slice p s (n - s) := by
  rw [records_eq_slice]
  have := slice_append p 0 s (n - s)
  rw [Nat.zero_add] at this
  rw [← this]
  congr 1
  omega

theorem mem_slice {α : Type} (p : Int → α) (s len : Nat) (x : α) :
    x ∈ slice p s len ↔ ∃ i : Nat, s ≤ i ∧ i < s + len ∧ p (i : Int) = x := by
  simp only [slice, List.mem_map, List.mem_range'_1]
  constructor
  · rintro ⟨i, ⟨h1, h2⟩, h3⟩; exact ⟨i, h1, h2, h3⟩
  · rintro ⟨i, h1, h2, h3⟩; exact ⟨i, ⟨h1, h2⟩, h3⟩

theorem mem_records {α : Type} (p : Int → α) (n : Nat) (x : α) :
    x ∈ records p n ↔ ∃ i : Nat, i < n ∧ p (i : Int) = x := by
  rw [records_eq_slice, mem_slice]
  constructor
  · rintro ⟨i, _, h2, h3⟩; exact ⟨i, by omega, h3⟩
  · rintro ⟨i, h2, h3⟩; exact ⟨i, by omega, by omega, h3⟩

/-- A relation that holds pairwise along the records holds between any two offsets in order. -/
theorem pairwise_records {α : Type} (p : Int → α) (n : Nat) (R : α → α → Prop)
    (h : (records p n).Pairwise R) (i j : Nat) (hij : i < j) (hj : j < n) :
    R (p (i : Int)) (p (j : Int)) := by
  have hlen : (records p n).length = n := by simp [records]
  have := List.pairwise_iff_getElem.mp h i j (by omega) (by omega) hij
  simpa [records] using this

/-- In a list sorted by `key` whose keys are all at least `idx`, the records with key `idx`
are the leading run of such records. -/
theorem filter_eq_takeWhile_of_sorted {α : Type} (key : α → Nat) (idx : Nat) :
    ∀ l : List α, l.Pairwise (fun a b => key a ≤ key b) → (∀ x ∈ l, idx ≤ key x) →
      l.filter (fun r => decide (key r = idx)) = l.takeWhile (fun r => decide (key r = idx)) := by
  intro l
  induction l with
  | nil => intro _ _; rfl
  | cons x xs ih =>
    intro hp hge
    rw [List.pairwise_cons] at hp
    by_cases hx : key x = idx
    · simp only [List.filter_cons, List.takeWhile_cons, hx, decide_True, if_true]
      rw [ih hp.2 (fun y hy => hge y (List.mem_cons_of_mem _ hy))]
    · have hlt : idx < key x := lt_of_le_of_ne (hge x (List.mem_cons_self _ _)) (Ne.symm hx)
      rw [List.filter_cons_of_neg (by simpa using hx),
        List.takeWhile_cons_of_neg (by simpa using hx), List.filter_eq_nil_iff]
      intro y hy
      have := hp.1 y hy
      simp only [decide_eq_true_eq]
      omega

/-- Over a section sorted by `key`, when `s` starts the run of `idx` (the record before `s`, if
any, has another key and the record at `s` has key `idx`), the records with key `idx` are the
leading run of the records from `s` on. -/
theorem records_filter_eq_run {α : Type} (p : Int → α) (key : α → Nat) (idx n s : Nat)
    (hsorted : (records p n).Pairwise (fun a b => key a ≤ key b))
    (hs : s < n) (hkey : key (p (s : Int)) = idx)
    (hstop : 0 < s → key (p ((s : Int) - 1)) ≠ idx) :
    (records p n).filter (fun r => decide (key r = idx)) =
      (slice p s (n - s)).takeWhile (fun r => decide (key r = idx)) := by
  have hsplit := records_split p n s (le_of_lt hs)
  have hidx : ∀ i j : Nat, i < j → j < n → key (p (i : Int)) ≤ key (p (j : Int)) :=
    fun i j hij hj => pairwise_records p n _ hsorted i j hij hj
  have hleft : (slice p 0 s).filter (fun r => decide (key r = idx)) = [] := by
    rw [List.filter_eq_nil_iff]
    intro x hx
    obtain ⟨i, _, hi, rfl⟩ := (mem_slice p 0 s x).mp hx
    have hs0 : 0 < s := by omega
    have hprev := hstop hs0
    have hcast : ((s : Int) - 1) = ((s - 1 : Nat) : Int) := by omega
    rw [hcast] at hprev
    have h1 : key (p ((s - 1 : Nat) : Int)) ≤ key (p (s : Int)) := hidx (s - 1) s (by omega) hs
    have h2 : key (p (i : Int)) ≤ key (p ((s - 1 : Nat) : Int)) := by
      by_cases hi' : i = s - 1
      · rw [hi']
      · exact hidx i (s - 1) (by omega) (by omega)
    simp only [decide_eq_true_eq]
    omega
  have hright : (slice p s (n - s)).filter (fun r => decide (key r = idx)) =
      (slice p s (n - s)).takeWhile (fun r => decide (key r = idx)) := by
    apply filter_eq_takeWhile_of_sorted
    · apply List.Pairwise.sublist _ hsorted
      rw [hsplit]
      exact List.sublist_append_right _ _
    · intro x hx
      obtain ⟨j, hj1, hj2, rfl⟩ := (mem_slice p s (n - s) x).mp hx
      by_cases hj : j = s
      · rw [hj, hkey]
      · have := hidx s j (by omega) (by omega)
        omega
  rw [hsplit, List.filter_append, hleft, hright, List.nil_append]

/-! ## `GetAccessRestrictions` -/

/-- The collecting loop started at offset `m` returns the restrictions of the leading run of
`idx` among the records from `m` on whose modes meet `access`, added to what it was given. -/
theorem GetAccessRestrictions_collect_spec (t : GraphTile) (idx access count : Nat)
    (hn : count ≤ 1073741824) :
    ∀ (len m fuel : Nat) (acc : List AccessRestriction), m + len = count → len < fuel →
      GetAccessRestrictions.collect t idx access count fuel (m : Int) acc =
        .ok (acc ++ ((slice t.access_restrictions_ m len).takeWhile
          (fun r => decide (r.edgeindex = idx))).filter
            (fun r => decide (r.modes &&& access ≠ 0))) := by
  intro len
  induction len with
  | zero =>
    intro m fuel acc hm hfuel
    obtain ⟨fuel, rfl⟩ : ∃ k, fuel = k + 1 := ⟨fuel - 1, by omega⟩
    have hu : to_uint32 (m : Int) = m := to_uint32_of_nat (by omega)
    unfold GetAccessRestrictions.collect
    rw [if_neg (by rw [hu]; omega), slice_zero]
    simp only [List.takeWhile_nil, List.filter_nil, List.append_nil]
    rfl
  | succ len ih =>
    intro m fuel acc hm hfuel
    obtain ⟨fuel, rfl⟩ : ∃ k, fuel = k + 1 := ⟨fuel - 1, by omega⟩
    have hu : to_uint32 (m : Int) = m := to_uint32_of_nat (by omega)
    have hlt : m < count := by omega
    have hnext : int32 ((m : Int) + 1) = .ok (((m + 1 : Nat) : Int)) := by
      rw [int32_of_bounds (by omega) (by omega)]; rfl
    unfold GetAccessRestrictions.collect
    rw [slice_succ]
    by_cases hkey : (t.access_restrictions_ (m : Int)).edgeindex = idx
    · rw [if_pos ⟨hkey, by rw [hu]; exact hlt⟩]
      simp only []
      rw [hnext]
      simp only [bind, Except.bind]
      rw [ih (m + 1) fuel _ (by omega) (by omega),
        List.takeWhile_cons_of_pos (by simpa using hkey)]
      by_cases hq : (t.access_restrictions_ (m : Int)).modes &&& access ≠ 0
      · rw [if_pos hq, List.filter_cons_of_pos (by simpa using hq)]
        simp
      · rw [if_neg hq, List.filter_cons_of_neg (by simpa using hq)]
    · rw [if_neg (fun h => hkey h.1), List.takeWhile_cons_of_neg (by simpa using hkey)]
      simp only [List.filter_nil, List.append_nil]
      rfl

/-- **C1.** Over an access-restriction array sorted non-decreasingly by `edgeindex` (of at most
2^30 records, the range in which the `int32_t` index arithmetic of the search is exact),
`GetAccessRestrictions(idx, access)` returns exactly the records with `edgeindex = idx` whose
`modes` meet `access`, each once and in array order: the array filtered by that predicate. -/
theorem GetAccessRestrictions_eq_filter (t : GraphTile) (header : GraphTileHeader)
    (idx access : Nat) (hheader : t.header_ = some header)
    (hcount : header.access_restriction_count ≤ 1073741824)
    (hsorted : (records t.access_restrictions_ header.access_restriction_count).Pairwise
      (fun a b => a.edgeindex ≤ b.edgeindex)) :
    GetAccessRestrictions t idx access =
      .ok ((records t.access_restrictions_ header.access_restriction_count).filter
        (fun r => decide (r.edgeindex = idx ∧ r.modes &&& access ≠ 0))) := by
  have hfilter : ∀ l : List AccessRestriction,
      l.filter (fun r => decide (r.edgeindex = idx ∧ r.modes &&& access ≠ 0)) =
        (l.filter (fun r => decide (r.edgeindex = idx))).filter
          (fun r => decide (r.modes &&& access ≠ 0)) := by
    intro l
    rw [List.filter_filter]
    congr 1
    funext r
    simp [Bool.and_comm]
  unfold GetAccessRestrictions
  simp only [hheader, deref, bind, Except.bind]
  by_cases h0 : header.access_restriction_count = 0
  · simp [h0, records, pure, Except.pure]
  · simp only [h0, if_false]
    obtain ⟨r, hr, hfound, hnone⟩ :=
      binary_search_spec (fun i => (t.access_restrictions_ i).edgeindex) idx
        header.access_restriction_count (by omega) hcount
    have hsidx : ∀ i j : Int, 0 ≤ i → i ≤ j → j < header.access_restriction_count →
        (t.access_restrictions_ i).edgeindex ≤ (t.access_restrictions_ j).edgeindex := by
      intro i j hi hij hj
      obtain ⟨a, rfl⟩ := Int.eq_ofNat_of_zero_le hi
      obtain ⟨b, rfl⟩ := Int.eq_ofNat_of_zero_le (le_trans hi hij)
      by_cases hab : a = b
      · rw [hab]
      · exact pairwise_records _ _ _ hsorted a b (by omega) (by omega)
    rw [hr]
    cases r with
    | none =>
      simp only [pure, Except.pure]
      congr 1
      symm
      rw [List.filter_eq_nil_iff]
      intro x hx
      obtain ⟨i, hi, rfl⟩ := (mem_records _ _ x).mp hx
      have := hnone hsidx rfl (i : Int) (by omega) (by omega)
      simp [this]
    | some mid =>
      obtain ⟨hm0, hmn, hmkey⟩ := hfound mid rfl
      obtain ⟨s, hs, hs0, hsm, hrun, hstop⟩ :=
        back_up_spec (fun i => (t.access_restrictions_ i).edgeindex) idx
          (header.access_restriction_count + 2) mid hm0 (by omega) (by omega)
      obtain ⟨k, rfl⟩ := Int.eq_ofNat_of_zero_le hs0
      have hskey : (t.access_restrictions_ (k : Int)).edgeindex = idx := by
        by_cases hk : (k : Int) = mid
        · rw [hk]; exact hmkey
        · exact hrun k (le_refl _) (by omega)
      simp only [hs]
      rw [GetAccessRestrictions_collect_spec t idx access _ hcount
        (header.access_restriction_count - k) k _ [] (by omega) (by omega)]
      rw [hfilter, records_filter_eq_run t.access_restrictions_ (fun r => r.edgeindex) idx
        header.access_restriction_count k hsorted (by omega) hskey (fun h => hstop (by omega))]
      simp [pure, Except.pure]

/-! ## Text of the pool -/

theorem c_str_append (a b : List Nat) (h : 0 ∈ a) :
    c_str (a ++ b) = .ok (a.takeWhile (fun x => decide (x ≠ 0))) := by
  induction a with
  | nil => simp at h
  | cons x xs ih =>
    by_cases hx : x = 0
    · simp [c_str, hx]
    · have hmem : 0 ∈ xs := by
        rcases List.mem_cons.mp h with h | h
        · exact absurd h.symm hx
        · exact h
      simp [c_str, hx, ih hmem, Except.map]

/-- Reading a string at an offset of the pool that has a NUL after it inside the pool. -/
theorem c_str_pool (t : GraphTile) (offset : Nat) (h : 0 ∈ (pool t).drop offset) :
    c_str (t.textlist_.drop offset) = .ok (text_at t offset) := by
  have hlen : offset < (pool t).length := by
    by_contra hge
    rw [List.drop_eq_nil_of_le (by omega)] at h
    simp at h
  have hsplit : t.textlist_.drop offset =
      (pool t).drop offset ++ t.textlist_.drop t.textlist_size_ := by
    have h1 : t.textlist_ = pool t ++ t.textlist_.drop t.textlist_size_ :=
      (List.take_append_drop _ _).symm
    conv_lhs => rw [h1]
    exact List.drop_append_of_le_length (le_of_lt hlen)
  rw [hsplit, c_str_append _ _ h]
  rfl

/-! ## `GetSigns` -/

/-- The adding loop started at offset `m` runs its body over the leading run of `idx` among
the records from `m` on. -/
theorem GetSigns_add_signs_spec (t : GraphTile) (idx count : Nat) (hn : count ≤ 1073741824) :
    ∀ (len m fuel : Nat) (acc : List SignInfo), m + len = count → len < fuel →
      GetSigns.add_signs t idx count fuel (m : Int) acc =
        match GetSigns.infos t ((slice t.signs_ m len).takeWhile
            (fun r => decide (r.edgeindex = idx))) with
        | .error e => .error e
        | .ok l => .ok (acc ++ l) := by
  intro len
  induction len with
  | zero =>
    intro m fuel acc hm hfuel
    obtain ⟨fuel, rfl⟩ : ∃ k, fuel = k + 1 := ⟨fuel - 1, by omega⟩
    have hu : to_uint32 (m : Int) = m := to_uint32_of_nat (by omega)
    unfold GetSigns.add_signs
    rw [if_neg (by rw [hu]; omega), slice_zero]
    simp only [List.takeWhile_nil, GetSigns.infos, List.append_nil]
    rfl
  | succ len ih =>
    intro m fuel acc hm hfuel
    obtain ⟨fuel, rfl⟩ : ∃ k, fuel = k + 1 := ⟨fuel - 1, by omega⟩
    have hu : to_uint32 (m : Int) = m := to_uint32_of_nat (by omega)
    have hlt : m < count := by omega
    have hnext : int32 ((m : Int) + 1) = .ok (((m + 1 : Nat) : Int)) := by
      rw [int32_of_bounds (by omega) (by omega)]; rfl
    unfold GetSigns.add_signs
    rw [slice_succ]
    by_cases hkey : (t.signs_ (m : Int)).edgeindex = idx
    · rw [if_pos ⟨hkey, by rw [hu]; exact hlt⟩,
        List.takeWhile_cons_of_pos (by simpa using hkey)]
      by_cases hoff : (t.signs_ (m : Int)).text_offset < t.textlist_size_
      · rw [if_pos hoff]
        simp only [GetSigns.infos, GetSigns.info, if_pos hoff]
        cases hc : c_str (t.textlist_.drop (t.signs_ (m : Int)).text_offset) with
        | error e => rfl
        | ok text =>
          simp only []
          rw [hnext]
          simp only [bind, Except.bind]
          rw [ih (m + 1) fuel _ (by omega) (by omega)]
          cases GetSigns.infos t ((slice t.signs_ (m + 1) len).takeWhile
            (fun r => decide (r.edgeindex = idx))) with
          | error e => rfl
          | ok l => simp
      · rw [if_neg hoff]
        simp only [GetSigns.infos, GetSigns.info, if_neg hoff]
        rfl
    · rw [if_neg (fun h => hkey h.1), List.takeWhile_cons_of_neg (by simpa using hkey)]
      simp only [GetSigns.infos, List.append_nil]
      rfl

/-- Over a sorted sign array of at most 2^30 records, `GetSigns(idx)` runs the body of its
adding loop over the signs with `edgeindex = idx`, in array order. -/
theorem GetSigns_eq_infos (t : GraphTile) (header : GraphTileHeader) (idx : Nat)
    (hheader : t.header_ = some header) (hcount : header.signcount ≤ 1073741824)
    (hsorted : (records t.signs_ header.signcount).Pairwise
      (fun a b => a.edgeindex ≤ b.edgeindex)) :
    GetSigns t idx = GetSigns.infos t
      ((records t.signs_ header.signcount).filter (fun r => decide (r.edgeindex = idx))) := by
  unfold GetSigns
  simp only [hheader, deref, bind, Except.bind]
  by_cases h0 : header.signcount = 0
  · simp [h0, records, pure, Except.pure, GetSigns.infos]
  · simp only [h0, if_false]
    obtain ⟨r, hr, hfound, hnone⟩ :=
      binary_search_spec (fun i => (t.signs_ i).edgeindex) idx header.signcount
        (by omega) hcount
    have hsidx : ∀ i j : Int, 0 ≤ i → i ≤ j → j < header.signcount →
        (t.signs_ i).edgeindex ≤ (t.signs_ j).edgeindex := by
      intro i j hi hij hj
      obtain ⟨a, rfl⟩ := Int.eq_ofNat_of_zero_le hi
      obtain ⟨b, rfl⟩ := Int.eq_ofNat_of_zero_le (le_trans hi hij)
      by_cases hab : a = b
      · rw [hab]
      · exact pairwise_records _ _ _ hsorted a b (by omega) (by omega)
    rw [hr]
    cases r with
    | none =>
      have hnil : (records t.signs_ header.signcount).filter
          (fun r => decide (r.edgeindex = idx)) = [] := by
        rw [List.filter_eq_nil_iff]
        intro x hx
        obtain ⟨i, hi, rfl⟩ := (mem_records _ _ x).mp hx
        have := hnone hsidx rfl (i : Int) (by omega) (by omega)
        simp [this]
      rw [hnil]
      rfl
    | some mid =>
      obtain ⟨hm0, hmn, hmkey⟩ := hfound mid rfl
      obtain ⟨s, hs, hs0, hsm, hrun, hstop⟩ :=
        back_up_spec (fun i => (t.signs_ i).edgeindex) idx
          (header.signcount + 2) mid hm0 (by omega) (by omega)
      obtain ⟨k, rfl⟩ := Int.eq_ofNat_of_zero_le hs0
      have hskey : (t.signs_ (k : Int)).edgeindex = idx := by
        by_cases hk : (k : Int) = mid
        · rw [hk]; exact hmkey
        · exact hrun k (le_refl _) (by omega)
      simp only [hs]
      rw [GetSigns_add_signs_spec t idx _ hcount (header.signcount - k) k _ []
        (by omega) (by omega)]
      rw [records_filter_eq_run t.signs_ (fun r => r.edgeindex) idx
        header.signcount k hsorted (by omega) hskey (fun h => hstop (by omega))]
      cases GetSigns.infos t ((slice t.signs_ k (header.signcount - k)).takeWhile
        (fun r => decide (r.edgeindex = idx))) with
      | error e => rfl
      | ok l => simp [pure, Except.pure]

theorem GetSigns_infos_ok (t : GraphTile) :
    ∀ run : List Sign,
      (∀ s ∈ run, s.text_offset < t.textlist_size_ ∧ 0 ∈ (pool t).drop s.text_offset) →
      GetSigns.infos t run =
        .ok (run.map (fun s => (⟨s.type, text_at t s.text_offset⟩ : SignInfo))) := by
  intro run
  induction run with
  | nil => intro _; rfl
  | cons s ss ih =>
    intro h
    obtain ⟨h1, h2⟩ := h s (List.mem_cons_self _ _)
    simp only [GetSigns.infos, GetSigns.info, if_pos h1, c_str_pool t _ h2,
      ih (fun x hx => h x (List.mem_cons_of_mem _ hx)), List.map_cons]

theorem GetSigns_infos_error (t : GraphTile) :
    ∀ run : List Sign,
      (∀ s ∈ run, s.text_offset < t.textlist_size_ → 0 ∈ (pool t).drop s.text_offset) →
      (∃ s ∈ run, t.textlist_size_ ≤ s.text_offset) →
      GetSigns.infos t run =
        .error (.runtime_error "GetSigns: offset exceeds size of text list") := by
  intro run
  induction run with
  | nil => rintro _ ⟨s, hs, _⟩; simp at hs
  | cons s ss ih =>
    intro hnul hbad
    by_cases h1 : s.text_offset < t.textlist_size_
    · have hrest : ∃ x ∈ ss, t.textlist_size_ ≤ x.text_offset := by
        obtain ⟨x, hx, hxo⟩ := hbad
        rcases List.mem_cons.mp hx with rfl | hx
        · omega
        · exact ⟨x, hx, hxo⟩
      simp only [GetSigns.infos, GetSigns.info, if_pos h1,
        c_str_pool t _ (hnul s (List.mem_cons_self _ _) h1),
        ih (fun x hx => hnul x (List.mem_cons_of_mem _ hx)) hrest]
    · simp only [GetSigns.infos, GetSigns.info, if_neg h1]

/-- **C2.** Over a sign array sorted non-decreasingly by `edgeindex` (of at most 2^30 records),
where the text offsets of the signs of `idx` that lie inside the text pool are followed by a
NUL inside the pool: if every sign with `edgeindex = idx` has `text_offset` below the pool
size, `GetSigns(idx)` returns one `SignInfo`, the sign's type and the pool text at its offset,
for each such sign in array order and nothing else; if some sign with `edgeindex = idx` has
`text_offset` at or beyond the pool size, it throws the text-range error (and so returns no
list at all). -/
theorem GetSigns_contract (t : GraphTile) (header : GraphTileHeader) (idx : Nat)
    (hheader : t.header_ = some header) (hcount : header.signcount ≤ 1073741824)
    (hsorted : (records t.signs_ header.signcount).Pairwise
      (fun a b => a.edgeindex ≤ b.edgeindex))
    (hnul : ∀ s ∈ records t.signs_ header.signcount, s.edgeindex = idx →
      s.text_offset < t.textlist_size_ → 0 ∈ (pool t).drop s.text_offset) :
    ((∀ s ∈ records t.signs_ header.signcount, s.edgeindex = idx →
        s.text_offset < t.textlist_size_) →
      GetSigns t idx = .ok
        (((records t.signs_ header.signcount).filter (fun s => decide (s.edgeindex = idx))).map
          (fun s => (⟨s.type, text_at t s.text_offset⟩ : SignInfo)))) ∧
    ((∃ s ∈ records t.signs_ header.signcount, s.edgeindex = idx ∧
        t.textlist_size_ ≤ s.text_offset) →
      GetSigns t idx = .error (.runtime_error "GetSigns: offset exceeds size of text list")) := by
  rw [GetSigns_eq_infos t header idx hheader hcount hsorted]
  constructor
  · intro hall
    apply GetSigns_infos_ok
    intro s hs
    rw [List.mem_filter] at hs
    have hk : s.edgeindex = idx := by simpa using hs.2
    exact ⟨hall s hs.1 hk, hnul s hs.1 hk (hall s hs.1 hk)⟩
  · rintro ⟨s, hs, hk, hbad⟩
    apply GetSigns_infos_error
    · intro x hx hoff
      rw [List.mem_filter] at hx
      exact hnul x hx.1 (by simpa using hx.2) hoff
    · exact ⟨s, List.mem_filter.mpr ⟨hs, by simpa using hk⟩, hbad⟩

/-! ## `GetNextDeparture` -/

theorem GetNextDeparture_iterate_found (t : GraphTile) (lineid current_time day dow : Nat)
    (date_before_tile : Bool) (count fuel : Nat) (mid dep : Int)
    (h : GetNextDeparture.valid t current_time day dow date_before_tile dep = .ok true) :
    GetNextDeparture.iterate t lineid current_time day dow date_before_tile count (fuel + 1)
      mid dep = .ok (some dep) := by
  unfold GetNextDeparture.iterate
  rw [h]
  rfl

theorem GetNextDeparture_iterate_step (t : GraphTile) (lineid current_time day dow : Nat)
    (date_before_tile : Bool) (count fuel : Nat) (mid dep mid1 : Int)
    (h : GetNextDeparture.valid t current_time day dow date_before_tile dep = .ok false)
    (hend : to_uint32 mid ≠ count) (hmid : int32 (mid + 1) = .ok mid1)
    (hline : (t.departures_ (dep + 1)).lineid = lineid) :
    GetNextDeparture.iterate t lineid current_time day dow date_before_tile count (fuel + 1)
      mid dep =
    GetNextDeparture.iterate t lineid current_time day dow date_before_tile count fuel
      mid1 (dep + 1) := by
  conv_lhs => unfold GetNextDeparture.iterate
  rw [h, hmid]
  simp [bind, Except.bind, hend, hline, pure, Except.pure]

/-- The validity test on a departure whose schedule index is in range. -/
theorem GetNextDeparture_valid_eq (t : GraphTile) (header : GraphTileHeader)
    (current_time day dow : Nat) (date_before_tile : Bool) (dep : Int)
    (hheader : t.header_ = some header)
    (hsched : (t.departures_ dep).schedule_index < header.schedulecount) :
    GetNextDeparture.valid t current_time day dow date_before_tile dep =
      .ok (decide (current_time ≤ (t.departures_ dep).departure_time) &&
        (t.transit_schedules_ ((t.departures_ dep).schedule_index : Int)).IsValid
          day dow date_before_tile) := by
  unfold GetNextDeparture.valid GetTransitSchedule
  have h0 : header.schedulecount ≠ 0 := by omega
  by_cases ht : current_time ≤ (t.departures_ dep).departure_time
  · simp [ht, hheader, deref, bind, Except.bind, pure, Except.pure, h0, hsched]
  · simp [ht, pure, Except.pure]

theorem GetNextDeparture_back_up_spec (t : GraphTile) (lineid current_time : Nat) :
    ∀ (fuel : Nat) (mid : Int), 0 ≤ mid → mid < fuel → mid ≤ 1073741824 →
      ∃ s, GetNextDeparture.back_up t lineid current_time fuel mid = .ok s ∧ 0 ≤ s ∧ s ≤ mid ∧
        (∀ i, s ≤ i → i < mid → (t.departures_ i).lineid = lineid) ∧
        (0 < s → ¬ ((t.departures_ (s - 1)).lineid = lineid ∧
          current_time ≤ (t.departures_ (s - 1)).departure_time)) := by
  intro fuel
  induction fuel with
  | zero => intro mid h0 h1; omega
  | succ fuel ih =>
    intro mid h0 hfuel hmid
    unfold GetNextDeparture.back_up
    by_cases hpos : 0 < mid
    · have hp : int32 (mid - 1) = .ok (mid - 1) := int32_of_bounds (by omega) (by omega)
      rw [if_pos hpos, hp]
      simp only [bind, Except.bind]
      by_cases hkey : (t.departures_ (mid - 1)).lineid = lineid ∧
          (t.departures_ (mid - 1)).departure_time ≥ current_time
      · rw [if_pos hkey]
        obtain ⟨s, hs, hs0, hsm, hrun, hstop⟩ := ih (mid - 1) (by omega) (by omega) (by omega)
        refine ⟨s, hs, hs0, by omega, ?_, hstop⟩
        intro i hi1 hi2
        by_cases hi : i < mid - 1
        · exact hrun i hi1 hi
        · have : i = mid - 1 := by omega
          rw [this]; exact hkey.1
      · rw [if_neg hkey]
        exact ⟨mid, rfl, h0, le_refl _, by intro i h1 h2; omega, fun _ => hkey⟩
    · rw [if_neg hpos]
      exact ⟨mid, rfl, h0, le_refl _, by intro i h1 h2; omega, by intro h; omega⟩

/-- The scan started at offset `m` reaches the first offset `j` that passes the validity test,
when the records up to `j` belong to the line. -/
theorem GetNextDeparture_iterate_reaches (t : GraphTile) (lineid current_time day dow : Nat)
    (date_before_tile : Bool) (count j : Nat) (hj : j < count) (hn : count ≤ 1073741824)
    (hvalid : GetNextDeparture.valid t current_time day dow date_before_tile (j : Int) = .ok true) :
    ∀ (d m fuel : Nat), m + d = j → d < fuel →
      (∀ i : Nat, m ≤ i → i < j →
        GetNextDeparture.valid t current_time day dow date_before_tile (i : Int) = .ok false) →
      (∀ i : Nat, m < i → i ≤ j → (t.departures_ (i : Int)).lineid = lineid) →
      GetNextDeparture.iterate t lineid current_time day dow date_before_tile count fuel
        (m : Int) (m : Int) = .ok (some (j : Int)) := by
  intro d
  induction d with
  | zero =>
    intro m fuel hm hfuel _ _
    obtain ⟨fuel, rfl⟩ : ∃ k, fuel = k + 1 := ⟨fuel - 1, by omega⟩
    have : m = j := by omega
    subst this
    exact GetNextDeparture_iterate_found _ _ _ _ _ _ _ _ _ _ hvalid
  | succ d ih =>
    intro m fuel hm hfuel hskip hline
    obtain ⟨fuel, rfl⟩ : ∃ k, fuel = k + 1 := ⟨fuel - 1, by omega⟩
    have hu : to_uint32 (m : Int) = m := to_uint32_of_nat (by omega)
    have hnext : int32 ((m : Int) + 1) = .ok (((m + 1 : Nat) : Int)) := by
      rw [int32_of_bounds (by omega) (by omega)]; rfl
    have hcast : (m : Int) + 1 = ((m + 1 : Nat) : Int) := by push_cast; rfl
    rw [GetNextDeparture_iterate_step t lineid current_time day dow date_before_tile count fuel
      (m : Int) (m : Int) ((m + 1 : Nat) : Int) (hskip m (le_refl _) (by omega))
      (by rw [hu]; omega) hnext (by rw [hcast]; exact hline (m + 1) (by omega) (by omega)),
      hcast]
    exact ih (m + 1) fuel (by omega) (by omega)
      (fun i h1 h2 => hskip i (by omega) h2) (fun i h1 h2 => hline i (by omega) h2)

/-- **C3.** Over a departure array sorted by `lineid` and, within a line, by `departure_time`
(of at most 2^30 records), in which every `schedule_index` is below `schedulecount`: when the
departure at offset `j` has line `lineid`, does not leave before `current_time` and has a valid
schedule, and no departure before it in the array does, `GetNextDeparture` returns the
departure at offset `j`, the lowest-index such departure. -/
theorem GetNextDeparture_first (t : GraphTile) (header : GraphTileHeader)
    (lineid current_time day dow : Nat) (date_before_tile : Bool) (j : Nat)
    (hheader : t.header_ = some header) (hcount : header.departurecount ≤ 1073741824)
    (hsorted : (records t.departures_ header.departurecount).Pairwise departure_le)
    (hsched : ∀ d ∈ records t.departures_ header.departurecount,
      d.schedule_index < header.schedulecount)
    (hj : j < header.departurecount)
    (hnext : is_next_departure t lineid current_time day dow date_before_tile
      (t.departures_ (j : Int)))
    (hfirst : ∀ i : Nat, i < j →
      ¬ is_next_departure t lineid current_time day dow date_before_tile
        (t.departures_ (i : Int))) :
    GetNextDeparture t lineid current_time day dow date_before_tile = .ok (some (j : Int)) := by
  have hlex : ∀ a b : Nat, a < b → b < header.departurecount →
      departure_le (t.departures_ (a : Int)) (t.departures_ (b : Int)) :=
    fun a b hab hb => pairwise_records _ _ _ hsorted a b hab hb
  have hmono : ∀ a b : Nat, a ≤ b → b < header.departurecount →
      (t.departures_ (a : Int)).lineid ≤ (t.departures_ (b : Int)).lineid := by
    intro a b hab hb
    by_cases h : a = b
    · rw [h]
    · rcases hlex a b (by omega) hb with h1 | h1
      · omega
      · omega
  have htime : ∀ a b : Nat, a ≤ b → b < header.departurecount →
      (t.departures_ (a : Int)).lineid = (t.departures_ (b : Int)).lineid →
      (t.departures_ (a : Int)).departure_time ≤ (t.departures_ (b : Int)).departure_time := by
    intro a b hab hb hl
    by_cases h : a = b
    · rw [h]
    · rcases hlex a b (by omega) hb with h1 | h1
      · omega
      · exact h1.2
  have hsch : ∀ i : Nat, i < header.departurecount →
      (t.departures_ (i : Int)).schedule_index < header.schedulecount :=
    fun i hi => hsched _ ((mem_records _ _ _).mpr ⟨i, hi, rfl⟩)
  obtain ⟨hjl, hjt, hjv⟩ := hnext
  unfold GetNextDeparture
  simp only [hheader, deref, bind, Except.bind]
  have h0 : header.departurecount ≠ 0 := by omega
  simp only [h0, if_false]
  obtain ⟨r, hr, hfound, hnone⟩ :=
    binary_search_spec (fun i => (t.departures_ i).lineid) lineid header.departurecount
      (by omega) hcount
  have hsidx : ∀ a b : Int, 0 ≤ a → a ≤ b → b < header.departurecount →
      (t.departures_ a).lineid ≤ (t.departures_ b).lineid := by
    intro a b ha hab hb
    obtain ⟨a, rfl⟩ := Int.eq_ofNat_of_zero_le ha
    obtain ⟨b, rfl⟩ := Int.eq_ofNat_of_zero_le (le_trans ha hab)
    exact hmono a b (by omega) (by omega)
  rw [hr]
  cases r with
  | none => exact absurd hjl (hnone hsidx rfl (j : Int) (by omega) (by omega))
  | some mid =>
    obtain ⟨hm0, hmn, hmkey⟩ := hfound mid rfl
    obtain ⟨s, hs, hs0, hsm, hrun, hstop⟩ :=
      GetNextDeparture_back_up_spec t lineid current_time
        (header.departurecount + 2) mid hm0 (by omega) (by omega)
    obtain ⟨k, rfl⟩ := Int.eq_ofNat_of_zero_le hs0
    obtain ⟨q, rfl⟩ := Int.eq_ofNat_of_zero_le hm0
    have hkq : k ≤ q := by omega
    have hq : q < header.departurecount := by omega
    have hkj : k ≤ j := by
      by_contra hlt
      have hk0 : 0 < k := by omega
      have hcast : ((k : Int) - 1) = ((k - 1 : Nat) : Int) := by omega
      apply hstop (by omega)
      rw [hcast]
      have h1 := hmono j (k - 1) (by omega) (by omega)
      have h2 := hmono (k - 1) q (by omega) hq
      have hl : (t.departures_ ((k - 1 : Nat) : Int)).lineid = lineid := by
        have hmkey' : (t.departures_ (q : Int)).lineid = lineid := hmkey
        omega
      have h3 := htime j (k - 1) (by omega) (by omega) (by rw [hjl, hl])
      exact ⟨hl, by omega⟩
    have hline : ∀ i : Nat, k ≤ i → i ≤ j → (t.departures_ (i : Int)).lineid = lineid := by
      intro i hi1 hi2
      have hkl : (t.departures_ (k : Int)).lineid = lineid := by
        by_cases hk : k = q
        · rw [hk]; exact hmkey
        · exact hrun k (le_refl _) (by omega)
      have h1 := hmono k i hi1 (by omega)
      have h2 := hmono i j hi2 hj
      omega
    have hvj : GetNextDeparture.valid t current_time day dow date_before_tile (j : Int) =
        .ok true := by
      rw [GetNextDeparture_valid_eq t header _ _ _ _ _ hheader (hsch j hj)]
      simp [hjt, hjv]
    have hskip : ∀ i : Nat, k ≤ i → i < j →
        GetNextDeparture.valid t current_time day dow date_before_tile (i : Int) =
          .ok false := by
      intro i hi1 hi2
      rw [GetNextDeparture_valid_eq t header _ _ _ _ _ hheader (hsch i (by omega))]
      have hnot := hfirst i hi2
      have hl := hline i hi1 (by omega)
      unfold is_next_departure at hnot
      by_cases ht : current_time ≤ (t.departures_ (i : Int)).departure_time
      · have hv : (t.transit_schedules_
            ((t.departures_ (i : Int)).schedule_index : Int)).IsValid
              day dow date_before_tile = false := by
          cases hv : (t.transit_schedules_
            ((t.departures_ (i : Int)).schedule_index : Int)).IsValid day dow date_before_tile
          · rfl
          · exact absurd ⟨hl, ht, hv⟩ hnot
        simp [hv]
      · simp [ht]
    simp only [hs]
    exact GetNextDeparture_iterate_reaches t lineid current_time day dow date_before_tile
      header.departurecount j hj hcount hvj (j - k) k _ (by omega) (by omega) hskip
      (fun i h1 h2 => hline i (by omega) h2)

/-- The scan started at offset `m` inside the run of the line ends with "not found" at the
first record `e` of another line, when no record before `e` passes the validity test. -/
theorem GetNextDeparture_iterate_none (t : GraphTile) (lineid current_time day dow : Nat)
    (date_before_tile : Bool) (count e : Nat) (he : e < count) (hn : count ≤ 1073741824)
    (hother : (t.departures_ (e : Int)).lineid ≠ lineid) :
    ∀ (d m fuel : Nat), m + d + 1 = e → d < fuel →
      (∀ i : Nat, m ≤ i → i < e →
        GetNextDeparture.valid t current_time day dow date_before_tile (i : Int) = .ok false) →
      (∀ i : Nat, m < i → i < e → (t.departures_ (i : Int)).lineid = lineid) →
      GetNextDeparture.iterate t lineid current_time day dow date_before_tile count fuel
        (m : Int) (m : Int) = .ok none := by
  intro d
  induction d with
  | zero =>
    intro m fuel hm hfuel hskip _
    obtain ⟨fuel, rfl⟩ : ∃ k, fuel = k + 1 := ⟨fuel - 1, by omega⟩
    have hu : to_uint32 (m : Int) = m := to_uint32_of_nat (by omega)
    have hnext : int32 ((m : Int) + 1) = .ok (((m + 1 : Nat) : Int)) := by
      rw [int32_of_bounds (by omega) (by omega)]; rfl
    have hcast : (m : Int) + 1 = ((e : Nat) : Int) := by omega
    unfold GetNextDeparture.iterate
    rw [hskip m (le_refl _) (by omega), hnext, hcast]
    have hend : ¬ to_uint32 (m : Int) = count := by rw [hu]; omega
    simp [bind, Except.bind, hend, hother, pure, Except.pure]
  | succ d ih =>
    intro m fuel hm hfuel hskip hline
    obtain ⟨fuel, rfl⟩ : ∃ k, fuel = k + 1 := ⟨fuel - 1, by omega⟩
    have hu : to_uint32 (m : Int) = m := to_uint32_of_nat (by omega)
    have hnext : int32 ((m : Int) + 1) = .ok (((m + 1 : Nat) : Int)) := by
      rw [int32_of_bounds (by omega) (by omega)]; rfl
    have hcast : (m : Int) + 1 = ((m + 1 : Nat) : Int) := by push_cast; rfl
    rw [GetNextDeparture_iterate_step t lineid current_time day dow date_before_tile count fuel
      (m : Int) (m : Int) ((m + 1 : Nat) : Int) (hskip m (le_refl _) (by omega))
      (by rw [hu]; omega) hnext (by rw [hcast]; exact hline (m + 1) (by omega) (by omega)),
      hcast]
    exact ih (m + 1) fuel (by omega) (by omega)
      (fun i h1 h2 => hskip i (by omega) h2) (fun i h1 h2 => hline i (by omega) h2)

/-- **C4, as amended.** Over a departure array sorted by `lineid` (of at most 2^30 records) in
which every `schedule_index` is below `schedulecount`, for a line whose departures are
followed in the array by a record of a later line: if no departure of the line
both leaves at or after `current_time` and has a valid schedule, `GetNextDeparture` returns
"not found" (a null pointer) and raises no error; in particular it returns no departure that
leaves before `current_time`. -/
theorem GetNextDeparture_not_found (t : GraphTile) (header : GraphTileHeader)
    (lineid current_time day dow : Nat) (date_before_tile : Bool)
    (hheader : t.header_ = some header) (hcount : header.departurecount ≤ 1073741824)
    (hsorted : (records t.departures_ header.departurecount).Pairwise
      (fun a b => a.lineid ≤ b.lineid))
    (hsched : ∀ d ∈ records t.departures_ header.departurecount,
      d.schedule_index < header.schedulecount)
    (hafter : ∃ d ∈ records t.departures_ header.departurecount, lineid < d.lineid)
    (hnone : ∀ d ∈ records t.departures_ header.departurecount,
      ¬ is_next_departure t lineid current_time day dow date_before_tile d) :
    GetNextDeparture t lineid current_time day dow date_before_tile = .ok none := by
  have hmono : ∀ a b : Nat, a ≤ b → b < header.departurecount →
      (t.departures_ (a : Int)).lineid ≤ (t.departures_ (b : Int)).lineid := by
    intro a b hab hb
    by_cases h : a = b
    · rw [h]
    · exact pairwise_records _ _ _ hsorted a b (by omega) hb
  unfold GetNextDeparture
  simp only [hheader, deref, bind, Except.bind]
  by_cases h0 : header.departurecount = 0
  · simp [h0, pure, Except.pure]
  simp only [h0, if_false]
  obtain ⟨r, hr, hfound, -⟩ :=
    binary_search_spec (fun i => (t.departures_ i).lineid) lineid header.departurecount
      (by omega) hcount
  rw [hr]
  cases r with
  | none => rfl
  | some mid =>
    obtain ⟨hm0, hmn, hmkey⟩ := hfound mid rfl
    obtain ⟨s, hs, hs0, hsm, hrun, -⟩ :=
      GetNextDeparture_back_up_spec t lineid current_time
        (header.departurecount + 2) mid hm0 (by omega) (by omega)
    obtain ⟨k, rfl⟩ := Int.eq_ofNat_of_zero_le hs0
    obtain ⟨q, rfl⟩ := Int.eq_ofNat_of_zero_le hm0
    have hmkey' : (t.departures_ (q : Int)).lineid = lineid := hmkey
    have hq : q < header.departurecount := by omega
    have hkl : (t.departures_ (k : Int)).lineid = lineid := by
      by_cases hk : k = q
      · rw [hk]; exact hmkey'
      · exact hrun k (le_refl _) (by omega)
    -- the first record after `k` that belongs to another line
    have hex : ∃ e : Nat, k < e ∧ e < header.departurecount ∧
        (t.departures_ (e : Int)).lineid ≠ lineid := by
      obtain ⟨d, hd, hdl⟩ := hafter
      obtain ⟨e, he, rfl⟩ := (mem_records _ _ d).mp hd
      refine ⟨e, ?_, he, by omega⟩
      by_contra hle
      have := hmono e k (by omega) (by omega)
      omega
    classical
    let e := Nat.find hex
    obtain ⟨hke, hen, hel⟩ : k < e ∧ e < header.departurecount ∧
        (t.departures_ (e : Int)).lineid ≠ lineid := Nat.find_spec hex
    have hmin : ∀ i : Nat, k < i → i < e → (t.departures_ (i : Int)).lineid = lineid := by
      intro i h1 h2
      by_contra hne
      exact Nat.find_min hex h2 ⟨h1, by omega, hne⟩
    have hskip : ∀ i : Nat, k ≤ i → i < e →
        GetNextDeparture.valid t current_time day dow date_before_tile (i : Int) =
          .ok false := by
      intro i hi1 hi2
      have hin : t.departures_ (i : Int) ∈ records t.departures_ header.departurecount :=
        (mem_records _ _ _).mpr ⟨i, by omega, rfl⟩
      rw [GetNextDeparture_valid_eq t header _ _ _ _ _ hheader (hsched _ hin)]
      have hnot := hnone _ hin
      have hl : (t.departures_ (i : Int)).lineid = lineid := by
        by_cases hik : i = k
        · rw [hik]; exact hkl
        · exact hmin i (by omega) hi2
      unfold is_next_departure at hnot
      by_cases ht : current_time ≤ (t.departures_ (i : Int)).departure_time
      · have hv : (t.transit_schedules_
            ((t.departures_ (i : Int)).schedule_index : Int)).IsValid
              day dow date_before_tile = false := by
          cases hv : (t.transit_schedules_
            ((t.departures_ (i : Int)).schedule_index : Int)).IsValid day dow date_before_tile
          · rfl
          · exact absurd ⟨hl, ht, hv⟩ hnot
        simp [hv]
      · simp [ht]
    simp only [hs]
    exact GetNextDeparture_iterate_none t lineid current_time day dow date_before_tile
      header.departurecount e hen hcount hel (e - k - 1) k _ (by omega) (by omega) hskip hmin

/-! ## `GetTransitDeparture` -/

theorem GetTransitDeparture_back_up_spec (t : GraphTile) (lineid tripid : Nat) :
    ∀ (fuel : Nat) (mid : Int), 0 ≤ mid → mid < fuel → mid ≤ 1073741824 →
      (t.departures_ mid).lineid = lineid →
      ∃ r, GetTransitDeparture.back_up t lineid tripid fuel mid = .ok r ∧
        ((∃ k, r = .inl k ∧ 0 ≤ k ∧ k ≤ mid ∧ (t.departures_ k).lineid = lineid ∧
            (t.departures_ k).tripid = tripid) ∨
         (∃ s, r = .inr s ∧ 0 ≤ s ∧ s ≤ mid ∧ (t.departures_ s).lineid = lineid ∧
            (0 < s → (t.departures_ (s - 1)).lineid ≠ lineid))) := by
  intro fuel
  induction fuel with
  | zero => intro mid h0 h1; omega
  | succ fuel ih =>
    intro mid h0 hfuel hmid hline
    unfold GetTransitDeparture.back_up
    by_cases hpos : 0 < mid
    · have hp : int32 (mid - 1) = .ok (mid - 1) := int32_of_bounds (by omega) (by omega)
      rw [if_pos hpos, hp]
      simp only [bind, Except.bind]
      by_cases hkey : (t.departures_ (mid - 1)).lineid = lineid
      · rw [if_pos hkey]
        by_cases htrip : (t.departures_ mid).tripid = tripid
        · rw [if_pos htrip]
          exact ⟨.inl mid, rfl, Or.inl ⟨mid, rfl, h0, le_refl _, hline, htrip⟩⟩
        · rw [if_neg htrip]
          obtain ⟨r, hr, hcase⟩ := ih (mid - 1) (by omega) (by omega) (by omega) hkey
          refine ⟨r, by simpa [pure, Except.pure] using hr, ?_⟩
          rcases hcase with ⟨k, rfl, hk0, hkm, hkl, hkt⟩ | ⟨s, rfl, hs0, hsm, hsl, hstop⟩
          · exact Or.inl ⟨k, rfl, hk0, by omega, hkl, hkt⟩
          · exact Or.inr ⟨s, rfl, hs0, by omega, hsl, hstop⟩
      · rw [if_neg hkey]
        exact ⟨.inr mid, rfl, Or.inr ⟨mid, rfl, h0, le_refl _, hline, fun _ => hkey⟩⟩
    · rw [if_neg hpos]
      exact ⟨.inr mid, rfl, Or.inr ⟨mid, rfl, h0, le_refl _, hline, by intro h; omega⟩⟩

/-- The forward loop started at `m` stops on the first offset from `m` on that carries the
trip id, when there is one in the array. -/
theorem GetTransitDeparture_advance_spec (t : GraphTile) (tripid count j : Nat)
    (hj : j < count) (hn : count ≤ 1073741824)
    (htrip : (t.departures_ (j : Int)).tripid = tripid) :
    ∀ (d m fuel : Nat), m + d = j → d < fuel →
      ∃ k : Nat, GetTransitDeparture.advance t tripid count fuel (m : Int) = .ok (k : Int) ∧
        m ≤ k ∧ k ≤ j ∧ (t.departures_ (k : Int)).tripid = tripid := by
  intro d
  induction d with
  | zero =>
    intro m fuel hm hfuel
    obtain ⟨fuel, rfl⟩ : ∃ k, fuel = k + 1 := ⟨fuel - 1, by omega⟩
    have : m = j := by omega
    subst this
    unfold GetTransitDeparture.advance
    rw [if_neg (fun h => h.1 htrip)]
    exact ⟨m, rfl, le_refl _, le_refl _, htrip⟩
  | succ d ih =>
    intro m fuel hm hfuel
    obtain ⟨fuel, rfl⟩ : ∃ k, fuel = k + 1 := ⟨fuel - 1, by omega⟩
    have hu : to_uint32 (m : Int) = m := to_uint32_of_nat (by omega)
    have hnext : int32 ((m : Int) + 1) = .ok (((m + 1 : Nat) : Int)) := by
      rw [int32_of_bounds (by omega) (by omega)]; rfl
    unfold GetTransitDeparture.advance
    by_cases hm' : (t.departures_ (m : Int)).tripid = tripid
    · rw [if_neg (fun h => h.1 hm')]
      exact ⟨m, rfl, le_refl _, by omega, hm'⟩
    · rw [if_pos ⟨hm', by rw [hu]; omega⟩, hnext]
      simp only [bind, Except.bind]
      obtain ⟨k, hk, hk1, hk2, hk3⟩ := ih (m + 1) fuel (by omega) (by omega)
      exact ⟨k, hk, by omega, hk2, hk3⟩

/-- **C5.** Over a departure array sorted by `lineid` (of at most 2^30 records), when the
departure at offset `j` has line `lineid` and trip `tripid`, `GetTransitDeparture` returns a
departure of the array whose line is `lineid` and whose trip is `tripid`; it is the one at `j`
when that is the only such departure. -/
theorem GetTransitDeparture_found (t : GraphTile) (header : GraphTileHeader)
    (lineid tripid : Nat) (j : Nat)
    (hheader : t.header_ = some header) (hcount : header.departurecount ≤ 1073741824)
    (hsorted : (records t.departures_ header.departurecount).Pairwise
      (fun a b => a.lineid ≤ b.lineid))
    (hj : j < header.departurecount)
    (hjline : (t.departures_ (j : Int)).lineid = lineid)
    (hjtrip : (t.departures_ (j : Int)).tripid = tripid) :
    ∃ k : Nat, k < header.departurecount ∧
      GetTransitDeparture t lineid tripid = .ok (some (k : Int)) ∧
      (t.departures_ (k : Int)).lineid = lineid ∧ (t.departures_ (k : Int)).tripid = tripid ∧
      ((∀ i : Nat, i < header.departurecount → (t.departures_ (i : Int)).lineid = lineid →
          (t.departures_ (i : Int)).tripid = tripid → i = j) → k = j) := by
  have hmono : ∀ a b : Nat, a ≤ b → b < header.departurecount →
      (t.departures_ (a : Int)).lineid ≤ (t.departures_ (b : Int)).lineid := by
    intro a b hab hb
    by_cases h : a = b
    · rw [h]
    · exact pairwise_records _ _ _ hsorted a b (by omega) hb
  have hsidx : ∀ a b : Int, 0 ≤ a → a ≤ b → b < header.departurecount →
      (t.departures_ a).lineid ≤ (t.departures_ b).lineid := by
    intro a b ha hab hb
    obtain ⟨a, rfl⟩ := Int.eq_ofNat_of_zero_le ha
    obtain ⟨b, rfl⟩ := Int.eq_ofNat_of_zero_le (le_trans ha hab)
    exact hmono a b (by omega) (by omega)
  have h0 : header.departurecount ≠ 0 := by omega
  obtain ⟨r, hr, hfound, hnone⟩ :=
    binary_search_spec (fun i => (t.departures_ i).lineid) lineid header.departurecount
      (by omega) hcount
  cases r with
  | none => exact absurd hjline (hnone hsidx rfl (j : Int) (by omega) (by omega))
  | some mid =>
    obtain ⟨hm0, hmn, hmkey⟩ := hfound mid rfl
    obtain ⟨b, hb, hcase⟩ := GetTransitDeparture_back_up_spec t lineid tripid
      (header.departurecount + 2) mid hm0 (by omega) (by omega) hmkey
    rcases hcase with ⟨k, rfl, hk0, hkm, hkl, hkt⟩ | ⟨s, rfl, hs0, hsm, hsl, hstop⟩
    · obtain ⟨k, rfl⟩ := Int.eq_ofNat_of_zero_le hk0
      refine ⟨k, by omega, ?_, hkl, hkt, fun huniq => huniq k (by omega) hkl hkt⟩
      unfold GetTransitDeparture
      simp only [hheader, deref, bind, Except.bind, h0, if_false, hr, hb]
      rfl
    · obtain ⟨s, rfl⟩ := Int.eq_ofNat_of_zero_le hs0
      have hsj : s ≤ j := by
        by_contra hlt
        have hcast : ((s : Int) - 1) = ((s - 1 : Nat) : Int) := by omega
        apply hstop (by omega)
        rw [hcast]
        have h1 := hmono j (s - 1) (by omega) (by omega)
        have h2 := hmono (s - 1) s (by omega) (by omega)
        omega
      obtain ⟨k, hk, hk1, hk2, hk3⟩ := GetTransitDeparture_advance_spec t tripid
        header.departurecount j hj hcount hjtrip (j - s) s (header.departurecount + 2)
        (by omega) (by omega)
      have hkl : (t.departures_ (k : Int)).lineid = lineid := by
        have h1 := hmono s k hk1 (by omega)
        have h2 := hmono k j hk2 hj
        omega
      refine ⟨k, by omega, ?_, hkl, hk3, fun huniq => huniq k (by omega) hkl hk3⟩
      unfold GetTransitDeparture
      simp only [hheader, deref, bind, Except.bind, h0, if_false, hr, hb, hk, hk3, if_true]
      rfl

/-! ## Keys that do not occur -/

/-- The search over a section none of whose records carries the target returns `none`, whatever
the order of the records. -/
theorem binary_search_absent (key : Int → Nat) (target : Nat) (count : Nat)
    (h0 : 0 < count) (hn : count ≤ 1073741824)
    (habsent : ∀ i : Nat, i < count → key (i : Int) ≠ target) :
    binary_search key count target = .ok none := by
  obtain ⟨r, hr, hfound, -⟩ := binary_search_spec key target count h0 hn
  cases r with
  | none => exact hr
  | some mid =>
    obtain ⟨hm0, hmn, hmkey⟩ := hfound mid rfl
    obtain ⟨q, rfl⟩ := Int.eq_ofNat_of_zero_le hm0
    exact absurd hmkey (habsent q (by omega))

/-- **C7.** On a tile whose sign, access-restriction and departure sections have at most 2^30
records each, sorted or not and empty or not: if no sign has `edgeindex = idx`, `GetSigns(idx)`
returns the empty list; if no access restriction has `edgeindex = idx`,
`GetAccessRestrictions(idx, access)` returns the empty list; if no departure has
`lineid = lineid`, `GetNextDeparture` and `GetTransitDeparture` return "not found".  None of
them raises an error. -/
theorem absent_key_empty (t : GraphTile) (header : GraphTileHeader)
    (hheader : t.header_ = some header)
    (hsigns : header.signcount ≤ 1073741824)
    (hrestrictions : header.access_restriction_count ≤ 1073741824)
    (hdepartures : header.departurecount ≤ 1073741824) :
    (∀ idx, (∀ s ∈ records t.signs_ header.signcount, s.edgeindex ≠ idx) →
      GetSigns t idx = .ok []) ∧
    (∀ idx access,
      (∀ r ∈ records t.access_restrictions_ header.access_restriction_count,
        r.edgeindex ≠ idx) →
      GetAccessRestrictions t idx access = .ok []) ∧
    (∀ lineid, (∀ d ∈ records t.departures_ header.departurecount, d.lineid ≠ lineid) →
      (∀ current_time day dow date_before_tile,
        GetNextDeparture t lineid current_time day dow date_before_tile = .ok none) ∧
      (∀ tripid, GetTransitDeparture t lineid tripid = .ok none)) := by
  refine ⟨?_, ?_, ?_⟩
  · intro idx habsent
    unfold GetSigns
    simp only [hheader, deref, bind, Except.bind]
    by_cases h0 : header.signcount = 0
    · simp [h0, pure, Except.pure]
    · rw [if_neg h0, binary_search_absent _ _ _ (by omega) hsigns
        (fun i hi => habsent _ ((mem_records _ _ _).mpr ⟨i, hi, rfl⟩))]
      rfl
  · intro idx access habsent
    unfold GetAccessRestrictions
    simp only [hheader, deref, bind, Except.bind]
    by_cases h0 : header.access_restriction_count = 0
    · simp [h0, pure, Except.pure]
    · rw [if_neg h0, binary_search_absent _ _ _ (by omega) hrestrictions
        (fun i hi => habsent _ ((mem_records _ _ _).mpr ⟨i, hi, rfl⟩))]
      rfl
  · intro lineid habsent
    constructor
    · intro current_time day dow date_before_tile
      unfold GetNextDeparture
      simp only [hheader, deref, bind, Except.bind]
      by_cases h0 : header.departurecount = 0
      · simp [h0, pure, Except.pure]
      · rw [if_neg h0, binary_search_absent _ _ _ (by omega) hdepartures
          (fun i hi => habsent _ ((mem_records _ _ _).mpr ⟨i, hi, rfl⟩))]
        rfl
    · intro tripid
      unfold GetTransitDeparture
      simp only [hheader, deref, bind, Except.bind]
      by_cases h0 : header.departurecount = 0
      · simp [h0, pure, Except.pure]
      · rw [if_neg h0, binary_search_absent _ _ _ (by omega) hdepartures
          (fun i hi => habsent _ ((mem_records _ _ _).mpr ⟨i, hi, rfl⟩))]
        rfl

/-! ## Accessors by index -/

/-- **C8, as amended.** On a loaded tile: `node(idx)` returns a pointer to the node record at
offset `idx` when `idx < nodecount` and throws the NodeInfo out-of-range error otherwise;
`directededge(idx)` and `admin(idx)` do the same against `directededgecount` and `admincount`;
`directededge(g)` equals `directededge(g.id())` for every `g`; `node(g)` makes the check of
`node(g.id())` and agrees with it when `g.id() < nodecount` or when the tile and level of `g`
are the tile's own, and when it fails its message names the tile and level of `g`. -/
theorem accessors_by_index (t : GraphTile) (header : GraphTileHeader)
    (hheader : t.header_ = some header) :
    (∀ idx, node t idx =
      if idx < header.nodecount then .ok (idx : Int)
      else .error (.runtime_error ("GraphTile NodeInfo index out of bounds: " ++
        toString header.graphid.tileid ++ "," ++ toString header.graphid.level ++ "," ++
        toString idx ++ " nodecount= " ++ toString header.nodecount))) ∧
    (∀ idx, directededge t idx =
      if idx < header.directededgecount then .ok (idx : Int)
      else .error (.runtime_error ("GraphTile DirectedEdge index out of bounds: " ++
        toString header.graphid.tileid ++ "," ++ toString header.graphid.level ++ "," ++
        toString idx ++ " directededgecount= " ++ toString header.directededgecount))) ∧
    (∀ idx, admin t idx =
      if idx < header.admincount then .ok (idx : Int)
      else .error (.runtime_error "GraphTile Admin index out of bounds")) ∧
    (∀ g : GraphId, directededge_id t g = directededge t g.id) ∧
    (∀ g : GraphId, g.id < header.nodecount → node_id t g = node t g.id) ∧
    (∀ g : GraphId, g.tileid = header.graphid.tileid → g.level = header.graphid.level →
      node_id t g = node t g.id) ∧
    (∀ g : GraphId, header.nodecount ≤ g.id → node_id t g =
      .error (.runtime_error ("GraphTile NodeInfo index out of bounds: " ++
        toString g.tileid ++ "," ++ toString g.level ++ "," ++
        toString g.id ++ " nodecount= " ++ toString header.nodecount))) := by
  refine ⟨?_, ?_, ?_, ?_, ?_, ?_, ?_⟩
  · intro idx
    unfold node
    simp only [hheader, deref, bind, Except.bind]
    split <;> rfl
  · intro idx
    unfold directededge
    simp only [hheader, deref, bind, Except.bind]
    split <;> rfl
  · intro idx
    unfold admin
    simp only [hheader, deref, bind, Except.bind]
    split <;> rfl
  · intro g
    unfold directededge_id directededge
    rfl
  · intro g hg
    unfold node_id node
    simp only [hheader, deref, bind, Except.bind, if_pos hg]
  · intro g h1 h2
    unfold node_id node
    simp only [hheader, deref, bind, Except.bind, h1, h2]
  · intro g hg
    unfold node_id
    simp only [hheader, deref, bind, Except.bind, if_neg (not_lt.mpr hg)]
    rfl

/-! ## Transit accessors -/

/-- **C9, as amended.** On a loaded tile, `GetTransitStop(i)` returns a null pointer when
`stopcount` is 0, whatever `i` is; when `stopcount` is not 0 it returns a pointer to the record
at offset `i` for `i < stopcount` and throws its out-of-range error for `i ≥ stopcount`.
`GetTransitRoute` does the same against `routecount` and `GetTransitSchedule` against
`schedulecount`. -/
theorem transit_accessors (t : GraphTile) (header : GraphTileHeader)
    (hheader : t.header_ = some header) (i : Nat) :
    GetTransitStop t i =
      (if header.stopcount = 0 then .ok none
       else if i < header.stopcount then .ok (some (i : Int))
       else .error (.runtime_error "GraphTile Transit Stop index out of bounds")) ∧
    GetTransitRoute t i =
      (if header.routecount = 0 then .ok none
       else if i < header.routecount then .ok (some (i : Int))
       else .error (.runtime_error "GraphTile GetTransitRoute index out of bounds")) ∧
    GetTransitSchedule t i =
      (if header.schedulecount = 0 then .ok none
       else if i < header.schedulecount then .ok (some (i : Int))
       else .error (.runtime_error "GraphTile GetTransitSchedule index out of bounds")) := by
  refine ⟨?_, ?_, ?_⟩
  · unfold GetTransitStop
    simp only [hheader, deref, bind, Except.bind]
    by_cases h0 : header.stopcount = 0
    · rw [if_pos h0, if_pos h0]; rfl
    · rw [if_neg h0, if_neg h0]
      by_cases hi : i < header.stopcount
      · rw [if_pos hi]; simp [pure, Except.pure, hi]
      · rw [if_neg hi]; simp [pure, Except.pure, hi, throw, throwThe, MonadExceptOf.throw]
  · unfold GetTransitRoute
    simp only [hheader, deref, bind, Except.bind]
    by_cases h0 : header.routecount = 0
    · rw [if_pos h0, if_pos h0]; rfl
    · rw [if_neg h0, if_neg h0]
      by_cases hi : i < header.routecount
      · rw [if_pos hi]; simp [pure, Except.pure, hi]
      · rw [if_neg hi]; simp [pure, Except.pure, hi, throw, throwThe, MonadExceptOf.throw]
  · unfold GetTransitSchedule
    simp only [hheader, deref, bind, Except.bind]
    by_cases h0 : header.schedulecount = 0
    · rw [if_pos h0, if_pos h0]; rfl
    · rw [if_neg h0, if_neg h0]
      by_cases hi : i < header.schedulecount
      · rw [if_pos hi]; simp [pure, Except.pure, hi]
      · rw [if_neg hi]; simp [pure, Except.pure, hi, throw, throwThe, MonadExceptOf.throw]

/-! ## `GetName` -/

/-- **C10.** For an offset whose string, when the offset lies inside the text pool, ends with
a NUL inside the pool: `GetName(offset)` succeeds if and only if `offset` is below the pool
size; it then returns the bytes of the pool from `offset` up to, not including, the first NUL
at or after `offset`; for `offset` at or beyond the pool size it throws the text-range
error. -/
theorem GetName_contract (t : GraphTile) (offset : Nat)
    (hnul : offset < t.textlist_size_ → 0 ∈ (pool t).drop offset) :
    ((∃ name, GetName t offset = .ok name) ↔ offset < t.textlist_size_) ∧
    (offset < t.textlist_size_ → GetName t offset = .ok (text_at t offset)) ∧
    (t.textlist_size_ ≤ offset →
      GetName t offset = .error (.runtime_error "GetName: offset exceeds size of text list")) := by
  have hok : offset < t.textlist_size_ → GetName t offset = .ok (text_at t offset) := by
    intro h
    unfold GetName
    rw [if_pos h, c_str_pool t offset (hnul h)]
  have herr : t.textlist_size_ ≤ offset →
      GetName t offset = .error (.runtime_error "GetName: offset exceeds size of text list") := by
    intro h
    unfold GetName
    rw [if_neg (not_lt.mpr h)]
    rfl
  refine ⟨⟨?_, fun h => ⟨_, hok h⟩⟩, hok, herr⟩
  rintro ⟨name, hname⟩
  by_contra h
  rw [herr (not_lt.mp h)] at hname
  cases hname

/-- Witness of C1: the restrictions of edge 2 that meet the modes 6. -/
theorem GetAccessRestrictions_eq_filter_witness :
    GetAccessRestrictions example_restrictions 2 6 =
      .ok [{ edgeindex := 2, modes := 2 }, { edgeindex := 2, modes := 4 }] ∧
    GetAccessRestrictions example_restrictions 2 4 = .ok [{ edgeindex := 2, modes := 4 }] ∧
    GetAccessRestrictions example_restrictions 3 4 = .ok [] :=
  ⟨(GetAccessRestrictions_eq_filter example_restrictions _ 2 6 rfl (by decide)
      (by decide)).trans (by decide),
   (GetAccessRestrictions_eq_filter example_restrictions _ 2 4 rfl (by decide)
      (by decide)).trans (by decide),
   (GetAccessRestrictions_eq_filter example_restrictions _ 3 4 rfl (by decide)
      (by decide)).trans (by decide)⟩

/-- Witness of C2: the signs of edge 2, and the sign of edge 4 whose text offset is out of
range. -/
theorem GetSigns_contract_witness :
    GetSigns example_signs 2 = .ok [⟨2, [66, 67]⟩, ⟨3, [65]⟩] ∧
    GetSigns example_signs 4 =
      .error (.runtime_error "GetSigns: offset exceeds size of text list") :=
  ⟨((GetSigns_contract example_signs _ 2 rfl (by decide) (by decide) (by decide)).1
      (by decide)).trans (by decide),
   (GetSigns_contract example_signs _ 4 rfl (by decide) (by decide) (by decide)).2
      (by decide)⟩

/-- Witness of C3: for the times 100, 200, 200, 300 and the current time 150 the departure at
offset 1 is returned. -/
theorem GetNextDeparture_first_witness :
    GetNextDeparture example_departures 7 150 0 0 false = .ok (some 1) :=
  GetNextDeparture_first example_departures _ 7 150 0 0 false 1 rfl (by decide) (by decide)
    (by decide) (by decide) (by decide) (by decide)

/-- Counterexample to C4 as stated: the array is sorted, line 7 has a departure and no departure
of it has a valid schedule, yet `GetNextDeparture` raises the out-of-range error of
`GetTransitSchedule`. -/
theorem GetNextDeparture_raises :
    (records example_bad_schedule.departures_ 2).Pairwise departure_le ∧
    (∃ d ∈ records example_bad_schedule.departures_ 2, d.lineid = 7) ∧
    (∀ d ∈ records example_bad_schedule.departures_ 2,
      ¬ is_next_departure example_bad_schedule 7 350 0 0 false d) ∧
    GetNextDeparture example_bad_schedule 7 350 0 0 false =
      .error (.runtime_error "GraphTile GetTransitSchedule index out of bounds") := by
  decide

/-- Witness of C4 as amended: for the times 100, 200, 200, 300 of line 7, followed by a
departure of line 9, and the current time 350 nothing is found. -/
theorem GetNextDeparture_not_found_witness :
    GetNextDeparture example_departures 7 350 0 0 false = .ok none :=
  GetNextDeparture_not_found example_departures _ 7 350 0 0 false rfl (by decide) (by decide)
    (by decide) (by decide) (by decide)

/-- When the run of line 7 is the last of the array and the bytes after the array decode to a
later departure of line 7, `GetNextDeparture` returns the offset `departurecount`, which is not
a record of the array. -/
theorem GetNextDeparture_past_the_end :
    GetNextDeparture example_last_run 7 350 0 0 false = .ok (some 4) := by
  decide

/-- Witness of C5: the departure of line 7 with trip 3. -/
theorem GetTransitDeparture_found_witness :
    ∃ k : Nat, k < 5 ∧
      GetTransitDeparture example_departures 7 3 = .ok (some (k : Int)) ∧
      (example_departures.departures_ (k : Int)).lineid = 7 ∧
      (example_departures.departures_ (k : Int)).tripid = 3 ∧
      ((∀ i : Nat, i < 5 → (example_departures.departures_ (i : Int)).lineid = 7 →
          (example_departures.departures_ (i : Int)).tripid = 3 → i = 2) → k = 2) :=
  GetTransitDeparture_found example_departures _ 7 3 2 rfl (by decide) (by decide)
    (by decide) rfl rfl

/-- **C6, the failing input.** No departure of line 1 has trip 20, and `GetTransitDeparture(1,
20)` returns the departure at offset 1, which belongs to line 2. -/
theorem GetTransitDeparture_other_line :
    (records example_two_lines.departures_ 2).Pairwise (fun a b => a.lineid ≤ b.lineid) ∧
    (∀ d ∈ records example_two_lines.departures_ 2, ¬ (d.lineid = 1 ∧ d.tripid = 20)) ∧
    GetTransitDeparture example_two_lines 1 20 = .ok (some 1) ∧
    (example_two_lines.departures_ 1).lineid = 2 := by
  decide

/-- Witness of C7: keys that no record carries. -/
theorem absent_key_empty_witness :
    GetSigns example_signs 3 = .ok [] ∧
    GetAccessRestrictions example_restrictions 5 7 = .ok [] ∧
    GetNextDeparture example_departures 8 0 0 0 false = .ok none ∧
    GetTransitDeparture example_departures 8 1 = .ok none :=
  ⟨(absent_key_empty example_signs _ rfl (by decide) (by decide) (by decide)).1 3 (by decide),
   (absent_key_empty example_restrictions _ rfl (by decide) (by decide) (by decide)).2.1 5 7
      (by decide),
   ((absent_key_empty example_departures _ rfl (by decide) (by decide) (by decide)).2.2 8
      (by decide)).1 0 0 0 false,
   ((absent_key_empty example_departures _ rfl (by decide) (by decide) (by decide)).2.2 8
      (by decide)).2 1⟩

/-- Counterexample to C8 as stated: for a graph id of another tile whose ordinal is out of
range, `node(g)` and `node(g.id())` throw different errors. -/
theorem node_id_ne_node :
    node_id example_nodes { tileid := 7, level := 2, id := 5 } =
      .error (.runtime_error "GraphTile NodeInfo index out of bounds: 7,2,5 nodecount= 3") ∧
    node example_nodes 5 =
      .error (.runtime_error "GraphTile NodeInfo index out of bounds: 1,0,5 nodecount= 3") ∧
    node_id example_nodes { tileid := 7, level := 2, id := 5 } ≠ node example_nodes 5 := by
  decide

/-- Witness of C8 as amended. -/
theorem accessors_by_index_witness :
    node example_nodes 2 = .ok 2 ∧ directededge example_nodes 3 = .ok 3 ∧
    admin example_nodes 2 = .error (.runtime_error "GraphTile Admin index out of bounds") ∧
    node_id example_nodes { tileid := 7, level := 2, id := 1 } = node example_nodes 1 :=
  ⟨((accessors_by_index example_nodes _ rfl).1 2).trans (by decide),
   ((accessors_by_index example_nodes _ rfl).2.1 3).trans (by decide),
   ((accessors_by_index example_nodes _ rfl).2.2.1 2).trans (by decide),
   (accessors_by_index example_nodes _ rfl).2.2.2.2.1 _ (by decide)⟩

/-- Counterexample to C9 as stated: with no stops, routes or schedules in the tile, index 0 is
not below the count and the three accessors return a null pointer instead of failing. -/
theorem transit_accessors_null :
    GetTransitStop example_nodes 0 = .ok none ∧ GetTransitRoute example_nodes 0 = .ok none ∧
    GetTransitSchedule example_nodes 0 = .ok none := by
  decide

/-- Witness of C9 as amended. -/
theorem transit_accessors_witness :
    GetTransitSchedule example_departures 0 = .ok (some 0) ∧
    GetTransitSchedule example_departures 1 =
      .error (.runtime_error "GraphTile GetTransitSchedule index out of bounds") ∧
    GetTransitStop example_departures 1 = .ok none :=
  ⟨((transit_accessors example_departures _ rfl 0).2.2).trans (by decide),
   ((transit_accessors example_departures _ rfl 1).2.2).trans (by decide),
   ((transit_accessors example_departures _ rfl 1).1).trans (by decide)⟩

/-- Witness of C10: the names at the offsets 2 and 5 of the pool `"A\0BC\0"`. -/
theorem GetName_contract_witness :
    GetName example_signs 2 = .ok [66, 67] ∧
    GetName example_signs 5 =
      .error (.runtime_error "GetName: offset exceeds size of text list") :=
  ⟨((GetName_contract example_signs 2 (by decide)).2.1 (by decide)).trans (by decide),
   (GetName_contract example_signs 5 (by decide)).2.2 (by decide)⟩

/-! ## `GetOpposingEdgeId` -/

/-- **C17.** On a loaded tile, for a directed edge `e` with end node `n`: when
`n.id < nodecount`, `GetOpposingEdgeId(e)` returns the graph id
`(n.tileid, n.level, node(n.id).edge_index + e.opp_index)`; when `n.id ≥ nodecount` it throws
the node out-of-range error of `node(n.id)` and returns no id. -/
theorem GetOpposingEdgeId_spec (t : GraphTile) (header : GraphTileHeader) (edge : DirectedEdge)
    (hheader : t.header_ = some header) :
    (edge.endnode.id < header.nodecount →
      GetOpposingEdgeId t edge = .ok
        { tileid := edge.endnode.tileid, level := edge.endnode.level,
          id := (t.nodes_ (edge.endnode.id : Int)).edge_index + edge.opp_index }) ∧
    (header.nodecount ≤ edge.endnode.id →
      GetOpposingEdgeId t edge = .error (.runtime_error
        ("GraphTile NodeInfo index out of bounds: " ++
          toString header.graphid.tileid ++ "," ++ toString header.graphid.level ++ "," ++
          toString edge.endnode.id ++ " nodecount= " ++ toString header.nodecount))) := by
  constructor
  · intro h
    unfold GetOpposingEdgeId node
    simp only [hheader, deref, bind, Except.bind, if_pos h]
    rfl
  · intro h
    unfold GetOpposingEdgeId node
    simp only [hheader, deref, bind, Except.bind, if_neg (not_lt.mpr h)]
    rfl

/-- Witness of C17: the edge whose end node is node 1 of the tile and whose opposing index is
1, and an edge whose end node has ordinal 3. -/
theorem GetOpposingEdgeId_spec_witness :
    GetOpposingEdgeId example_edges
        { endnode := { tileid := 1, level := 0, id := 1 }, opp_index := 1 } =
      .ok { tileid := 1, level := 0, id := 11 } ∧
    GetOpposingEdgeId example_edges
        { endnode := { tileid := 1, level := 0, id := 3 }, opp_index := 1 } =
      .error (.runtime_error "GraphTile NodeInfo index out of bounds: 1,0,3 nodecount= 3") :=
  ⟨((GetOpposingEdgeId_spec example_edges _ _ rfl).1 (by decide)).trans (by decide),
   ((GetOpposingEdgeId_spec example_edges _ _ rfl).2 (by decide)).trans (by decide)⟩

/-! ## What `GetNextDeparture` returns -/

/-- **C19, the failing input.** The four departures of line 7 are the whole array, so the run
of the line is its last; the bytes after the array decode to a departure of line 7 at time 400
with a valid schedule.  `GetNextDeparture(7, 350, ...)` returns the pointer at offset 4, which
is `departurecount`: what it returns is not a record of the array. -/
theorem GetNextDeparture_returns_outside_array :
    example_last_run.header_ = some { departurecount := 4, schedulecount := 1 } ∧
    GetNextDeparture example_last_run 7 350 0 0 false = .ok (some 4) ∧
    example_last_run.departures_ 4 ∉ records example_last_run.departures_ 4 := by
  decide

/-! ## The offsets the searches read -/

theorem binary_search_loop_traced_snd (key : Int → Nat) (target : Nat) :
    ∀ (fuel : Nat) (low high : Int),
      (binary_search_loop_traced key target fuel low high).2 =
        binary_search_loop key target fuel low high := by
  intro fuel
  induction fuel with
  | zero => intro low high; rfl
  | succ fuel ih =>
    intro low high
    unfold binary_search_loop_traced binary_search_loop
    by_cases hle : low ≤ high
    · rw [if_pos hle, if_pos hle]
      cases hsum : int32 (low + high) with
      | error e => rfl
      | ok sum =>
        simp only [bind, Except.bind]
        by_cases hkey : key (sum.tdiv 2) = target
        · simp [hkey, pure, Except.pure]
        · by_cases hlt : target < key (sum.tdiv 2)
          · cases hh : int32 (sum.tdiv 2 - 1) with
            | error e => simp [hkey, hlt, hh, pure, Except.pure]
            | ok h => simp [hkey, hlt, hh, pure, Except.pure, ih]
          · cases hh : int32 (sum.tdiv 2 + 1) with
            | error e => simp [hkey, hlt, hh, pure, Except.pure]
            | ok h => simp [hkey, hlt, hh, pure, Except.pure, ih]
    · rw [if_neg hle, if_neg hle]
      rfl

theorem binary_search_traced_snd (key : Int → Nat) (count target : Nat) :
    (binary_search_traced key count target).2 = binary_search key count target :=
  binary_search_loop_traced_snd key target _ _ _

theorem back_up_traced_snd (key : Int → Nat) (target : Nat) :
    ∀ (fuel : Nat) (mid : Int),
      (back_up_traced key target fuel mid).2 = back_up key target fuel mid := by
  intro fuel
  induction fuel with
  | zero => intro mid; rfl
  | succ fuel ih =>
    intro mid
    unfold back_up_traced back_up
    by_cases hpos : 0 < mid
    · rw [if_pos hpos, if_pos hpos]
      cases hp : int32 (mid - 1) with
      | error e => rfl
      | ok prior =>
        simp only [bind, Except.bind]
        by_cases hkey : key prior = target
        · simp [hkey, ih]
        · simp [hkey, pure, Except.pure]
    · rw [if_neg hpos, if_neg hpos]
      rfl

theorem collect_traced_snd (t : GraphTile) (idx access count : Nat) :
    ∀ (fuel : Nat) (mid : Int) (acc : List AccessRestriction),
      (GetAccessRestrictions.collect_traced t idx access count fuel mid acc).2 =
        GetAccessRestrictions.collect t idx access count fuel mid acc := by
  intro fuel
  induction fuel with
  | zero => intro mid acc; rfl
  | succ fuel ih =>
    intro mid acc
    unfold GetAccessRestrictions.collect_traced GetAccessRestrictions.collect
    by_cases hc : (t.access_restrictions_ mid).edgeindex = idx ∧ to_uint32 mid < count
    · rw [if_pos hc, if_pos hc]
      cases hn : int32 (mid + 1) with
      | error e => rfl
      | ok next =>
        simp only [bind, Except.bind]
        exact ih _ _
    · rw [if_neg hc, if_neg hc]
      rfl

theorem add_signs_traced_snd (t : GraphTile) (idx count : Nat) :
    ∀ (fuel : Nat) (mid : Int) (acc : List SignInfo),
      (GetSigns.add_signs_traced t idx count fuel mid acc).2 =
        GetSigns.add_signs t idx count fuel mid acc := by
  intro fuel
  induction fuel with
  | zero => intro mid acc; rfl
  | succ fuel ih =>
    intro mid acc
    unfold GetSigns.add_signs_traced GetSigns.add_signs
    by_cases hc : (t.signs_ mid).edgeindex = idx ∧ to_uint32 mid < count
    · rw [if_pos hc, if_pos hc]
      by_cases ho : (t.signs_ mid).text_offset < t.textlist_size_
      · rw [if_pos ho, if_pos ho]
        cases hs : c_str (t.textlist_.drop (t.signs_ mid).text_offset) with
        | error e => rfl
        | ok text =>
          simp only [bind, Except.bind]
          cases hn : int32 (mid + 1) with
          | error e => rfl
          | ok next =>
            simp only []
            exact ih _ _
      · rw [if_neg ho, if_neg ho]
        rfl
    · rw [if_neg hc, if_neg hc]
      rfl

/-- The traced `GetAccessRestrictions` returns what `GetAccessRestrictions` returns. -/
theorem GetAccessRestrictions_traced_snd (t : GraphTile) (idx access : Nat) :
    (GetAccessRestrictions.traced t idx access).2 = GetAccessRestrictions t idx access := by
  unfold GetAccessRestrictions.traced GetAccessRestrictions
  cases hh : t.header_ with
  | none => rfl
  | some header =>
    simp only [deref, bind, Except.bind]
    by_cases h0 : header.access_restriction_count = 0
    · simp [h0, pure, Except.pure]
    · simp only [h0, if_false]
      rw [← binary_search_traced_snd]
      cases hb : (binary_search_traced (fun i => (t.access_restrictions_ i).edgeindex)
          header.access_restriction_count idx).2 with
      | error e => rfl
      | ok r =>
        cases r with
        | none => rfl
        | some mid =>
          simp only [pure, Except.pure]
          rw [← back_up_traced_snd]
          cases hf : (back_up_traced (fun i => (t.access_restrictions_ i).edgeindex) idx
              (header.access_restriction_count + 2) mid).2 with
          | error e => rfl
          | ok first => exact collect_traced_snd _ _ _ _ _ _ _

/-- The traced `GetSigns` returns what `GetSigns` returns. -/
theorem GetSigns_traced_snd (t : GraphTile) (idx : Nat) :
    (GetSigns.traced t idx).2 = GetSigns t idx := by
  unfold GetSigns.traced GetSigns
  cases hh : t.header_ with
  | none => rfl
  | some header =>
    simp only [deref, bind, Except.bind]
    by_cases h0 : header.signcount = 0
    · simp [h0, pure, Except.pure]
    · simp only [h0, if_false]
      rw [← binary_search_traced_snd]
      cases hb : (binary_search_traced (fun i => (t.signs_ i).edgeindex)
          header.signcount idx).2 with
      | error e => rfl
      | ok r =>
        cases r with
        | none => rfl
        | some mid =>
          simp only [pure, Except.pure]
          rw [← back_up_traced_snd]
          cases hf : (back_up_traced (fun i => (t.signs_ i).edgeindex) idx
              (header.signcount + 2) mid).2 with
          | error e => rfl
          | ok first => exact add_signs_traced_snd _ _ _ _ _ _

/-- **C20, the failing inputs.** Both arrays are sorted and the run of the queried edge is the
last of the array.  `GetAccessRestrictions(3, 4)` on an array of 4 records reads the offsets
1, 2, 3 and then 4; `GetSigns(2)` on an array of 3 records reads the offsets 1, 0, 1, 2 and then
3: the forward walk reads the record at offset `count` before it tests `mid < count`. -/
theorem forward_walk_reads_past_the_end :
    (records example_restrictions.access_restrictions_ 4).Pairwise
      (fun a b => a.edgeindex ≤ b.edgeindex) ∧
    GetAccessRestrictions.traced example_restrictions 3 4 =
      ([1, 2, 3, 2, 3, 3, 4], .ok []) ∧
    (records example_signs_last.signs_ 3).Pairwise (fun a b => a.edgeindex ≤ b.edgeindex) ∧
    GetSigns.traced example_signs_last 2 =
      ([1, 0, 1, 1, 2, 2, 3], .ok [⟨2, [65]⟩, ⟨3, [65]⟩]) := by
  decide

/-! ## The constructors -/

theorem map_find_eq_none {κ ν : Type} [DecidableEq κ] (m : List (κ × ν)) (k : κ)
    (h : ∀ e ∈ m, e.1 ≠ k) : map_find m k = none := by
  induction m with
  | nil => rfl
  | cons e rest ih =>
    unfold map_find
    rw [if_neg (h e (List.mem_cons_self _ _))]
    exact ih (fun x hx => h x (List.mem_cons_of_mem _ hx))

/-- The constructor on an id that is not valid: nothing is read. -/
theorem construct_invalid {PointLL : Type} (P : Platform) (uninitialised : GraphTile)
    (hierarchy : TileHierarchy PointLL) (graphid : GraphId)
    (hvalid : GraphId.Is_Valid P graphid = false) :
    GraphTile.construct P uninitialised hierarchy graphid =
      .ok ({ uninitialised with
        size_ := 0, stop_one_stops := [], route_one_stops := [], oper_one_stops := [] }, []) := by
  unfold GraphTile.construct
  simp [hvalid]

/-- The constructor on a valid id whose tile the storage does not find. -/
theorem construct_not_found {PointLL : Type} (P : Platform) (uninitialised : GraphTile)
    (hierarchy : TileHierarchy PointLL) (graphid : GraphId)
    (hvalid : GraphId.Is_Valid P graphid = true)
    (hread : hierarchy.tile_storage graphid = none) :
    GraphTile.construct P uninitialised hierarchy graphid =
      .ok ({ uninitialised with
        size_ := 0, stop_one_stops := [], route_one_stops := [], oper_one_stops := [] },
        [graphid]) := by
  unfold GraphTile.construct
  simp [hvalid, hread]

/-- The constructor on a valid id whose tile the storage returns, spelled out. -/
theorem construct_read {PointLL : Type} (P : Platform) (uninitialised : GraphTile)
    (hierarchy : TileHierarchy PointLL) (graphid : GraphId) (tile_data : List Nat)
    (hvalid : GraphId.Is_Valid P graphid = true)
    (hread : hierarchy.tile_storage graphid = some tile_data) :
    GraphTile.construct P uninitialised hierarchy graphid =
      if tile_data.length < P.sizeof_GraphTileHeader then .error .undefined_behaviour
      else if graphid.level = 3 then
        match GraphTile.index_stops (GraphTile.over P tile_data) graphid.tileid with
        | .error e => .error e
        | .ok stops =>
          match GraphTile.index_lines P.iteration_order (GraphTile.over P tile_data)
              graphid.tileid with
          | .error e => .error e
          | .ok lines =>
            .ok ({ GraphTile.over P tile_data with
              stop_one_stops := stops, route_one_stops := lines.1, oper_one_stops := lines.2,
              size_ := tile_data.length }, [graphid])
      else
        .ok ({ GraphTile.over P tile_data with size_ := tile_data.length }, [graphid]) := by
  unfold GraphTile.construct
  simp only [hvalid, hread, Bool.not_true, Bool.false_eq_true, if_false, not_true_eq_false]
  by_cases hshort : tile_data.length < P.sizeof_GraphTileHeader
  · simp only [hshort, if_true]
    rfl
  · simp only [hshort, if_false]
    by_cases hlevel : graphid.level = 3
    · simp only [hlevel, if_true, bind, Except.bind, pure, Except.pure]
      cases GraphTile.index_stops (GraphTile.over P tile_data) graphid.tileid with
      | error e => rfl
      | ok stops =>
        cases GraphTile.index_lines P.iteration_order (GraphTile.over P tile_data)
            graphid.tileid with
        | error e => rfl
        | ok lines => rfl
    · simp only [hlevel, if_false, bind, Except.bind, pure, Except.pure]

/-- **C11.** For every graph id and every storage outcome (`sizeof(GraphTileHeader)` being at
least 1, as `sizeof` is): with an id that is not valid the constructor makes a tile of size 0
and calls the storage not at all; with a valid id that the storage does not find it makes a
tile of size 0; with a valid id for which the storage returns a buffer, every tile it makes has
the length of the buffer as its size, and it does make one when the buffer holds a header and
either the level is not the transit level or the one-stop index can be built.  So the size of
a constructed tile is 0 exactly when the id was not valid or the read failed. -/
theorem construct_size {PointLL : Type} (P : Platform) (uninitialised : GraphTile)
    (hierarchy : TileHierarchy PointLL) (graphid : GraphId)
    (hsizeof : 0 < P.sizeof_GraphTileHeader) :
    (GraphId.Is_Valid P graphid = false →
      ∃ t, GraphTile.construct P uninitialised hierarchy graphid = .ok (t, []) ∧ t.size = 0) ∧
    (GraphId.Is_Valid P graphid = true → hierarchy.tile_storage graphid = none →
      ∃ t, GraphTile.construct P uninitialised hierarchy graphid = .ok (t, [graphid]) ∧
        t.size = 0) ∧
    (∀ tile_data, GraphId.Is_Valid P graphid = true →
      hierarchy.tile_storage graphid = some tile_data →
      (∀ t reads, GraphTile.construct P uninitialised hierarchy graphid = .ok (t, reads) →
        t.size = tile_data.length ∧ reads = [graphid]) ∧
      (P.sizeof_GraphTileHeader ≤ tile_data.length → graphid.level ≠ 3 →
        ∃ t, GraphTile.construct P uninitialised hierarchy graphid = .ok (t, [graphid])) ∧
      (P.sizeof_GraphTileHeader ≤ tile_data.length →
        (∃ stops, GraphTile.index_stops (GraphTile.over P tile_data) graphid.tileid =
          .ok stops) →
        (∃ lines, GraphTile.index_lines P.iteration_order (GraphTile.over P tile_data)
          graphid.tileid = .ok lines) →
        ∃ t, GraphTile.construct P uninitialised hierarchy graphid = .ok (t, [graphid]))) ∧
    (∀ t reads, GraphTile.construct P uninitialised hierarchy graphid = .ok (t, reads) →
      (t.size = 0 ↔
        (GraphId.Is_Valid P graphid = false ∨ hierarchy.tile_storage graphid = none))) := by
  have hloaded : ∀ tile_data, GraphId.Is_Valid P graphid = true →
      hierarchy.tile_storage graphid = some tile_data →
      ∀ t reads, GraphTile.construct P uninitialised hierarchy graphid = .ok (t, reads) →
        t.size = tile_data.length ∧ reads = [graphid] ∧
          P.sizeof_GraphTileHeader ≤ tile_data.length := by
    intro tile_data hvalid hread t reads h
    rw [construct_read P uninitialised hierarchy graphid tile_data hvalid hread] at h
    by_cases hshort : tile_data.length < P.sizeof_GraphTileHeader
    · rw [if_pos hshort] at h
      cases h
    · rw [if_neg hshort] at h
      by_cases hlevel : graphid.level = 3
      · rw [if_pos hlevel] at h
        cases hs : GraphTile.index_stops (GraphTile.over P tile_data) graphid.tileid with
        | error e => rw [hs] at h; cases h
        | ok stops =>
          rw [hs] at h
          cases hl : GraphTile.index_lines P.iteration_order (GraphTile.over P tile_data)
              graphid.tileid with
          | error e => rw [hl] at h; cases h
          | ok lines =>
            rw [hl] at h
            simp only [Except.ok.injEq, Prod.mk.injEq] at h
            obtain ⟨rfl, rfl⟩ := h
            exact ⟨rfl, rfl, not_lt.mp hshort⟩
      · rw [if_neg hlevel] at h
        simp only [Except.ok.injEq, Prod.mk.injEq] at h
        obtain ⟨rfl, rfl⟩ := h
        exact ⟨rfl, rfl, not_lt.mp hshort⟩
  refine ⟨?_, ?_, ?_, ?_⟩
  · intro hvalid
    exact ⟨_, construct_invalid P uninitialised hierarchy graphid hvalid, rfl⟩
  · intro hvalid hread
    exact ⟨_, construct_not_found P uninitialised hierarchy graphid hvalid hread, rfl⟩
  · intro tile_data hvalid hread
    refine ⟨fun t reads h => ⟨(hloaded tile_data hvalid hread t reads h).1,
      (hloaded tile_data hvalid hread t reads h).2.1⟩, ?_, ?_⟩
    · intro hlen hlevel
      rw [construct_read P uninitialised hierarchy graphid tile_data hvalid hread,
        if_neg (not_lt.mpr hlen), if_neg hlevel]
      exact ⟨_, rfl⟩
    · rintro hlen ⟨stops, hs⟩ ⟨lines, hl⟩
      rw [construct_read P uninitialised hierarchy graphid tile_data hvalid hread,
        if_neg (not_lt.mpr hlen)]
      by_cases hlevel : graphid.level = 3
      · rw [if_pos hlevel, hs, hl]
        exact ⟨_, rfl⟩
      · rw [if_neg hlevel]
        exact ⟨_, rfl⟩
  · intro t reads h
    cases hvalid : GraphId.Is_Valid P graphid with
    | false =>
      rw [construct_invalid P uninitialised hierarchy graphid hvalid] at h
      simp only [Except.ok.injEq, Prod.mk.injEq] at h
      obtain ⟨rfl, rfl⟩ := h
      simp [GraphTile.size]
    | true =>
      cases hread : hierarchy.tile_storage graphid with
      | none =>
        rw [construct_not_found P uninitialised hierarchy graphid hvalid hread] at h
        simp only [Except.ok.injEq, Prod.mk.injEq] at h
        obtain ⟨rfl, rfl⟩ := h
        simp [GraphTile.size]
      | some tile_data =>
        obtain ⟨hsize, -, hlen⟩ := hloaded tile_data hvalid hread t reads h
        simp only [Bool.true_eq_false, false_or, reduceCtorEq, iff_false]
        omega

/-- Witness of C11: an id that is not valid, a tile that the storage does not hold, and the
transit tile of 33 bytes. -/
theorem construct_size_witness :
    (GraphTile.construct example_platform GraphTile.default_constructed example_hierarchy
        example_platform.invalid_graphid).map (fun r => (r.1.size, r.2)) = .ok (0, []) ∧
    (GraphTile.construct example_platform GraphTile.default_constructed example_hierarchy
        { tileid := 1, level := 2, id := 0 }).map (fun r => (r.1.size, r.2)) =
      .ok (0, [{ tileid := 1, level := 2, id := 0 }]) ∧
    (∃ t, GraphTile.construct example_platform GraphTile.default_constructed example_hierarchy
        { tileid := 9, level := 3, id := 0 } = .ok (t, [{ tileid := 9, level := 3, id := 0 }]) ∧
      t.size = 33) := by
  have h := construct_size example_platform GraphTile.default_constructed example_hierarchy
    { tileid := 9, level := 3, id := 0 } (by decide)
  refine ⟨by decide, by decide, ?_⟩
  obtain ⟨t, ht⟩ := (h.2.2.1 example_transit_data (by decide) (by decide)).2.2 (by decide)
    ⟨[([83], 9, 1)], by decide⟩
    ⟨([([82], [(9, 5), (9, 6)])], [([79], [(9, 5)]), ([80], [(9, 6)])]), by rfl⟩
  exact ⟨t, ht, ((h.2.2.1 example_transit_data (by decide) (by decide)).1 t _ ht).1⟩

/-- **C18.** For every location and every level number that is not one of the levels of the
hierarchy, `GetGraphId` returns an id for which `Is_Valid` is false, and the constructor makes
of that id the tile of size 0 with empty maps, without a call of the storage. -/
theorem GetGraphId_unknown_level {PointLL : Type} (P : Platform) (uninitialised : GraphTile)
    (hierarchy : TileHierarchy PointLL) (pointll : PointLL) (level : Nat)
    (hlevel : ∀ e ∈ hierarchy.levels, e.1 ≠ level) :
    GraphId.Is_Valid P (hierarchy.GetGraphId P pointll level) = false ∧
    GraphTile.construct P uninitialised hierarchy (hierarchy.GetGraphId P pointll level) =
      .ok ({ uninitialised with
        size_ := 0, stop_one_stops := [], route_one_stops := [], oper_one_stops := [] }, []) := by
  have hid : hierarchy.GetGraphId P pointll level = P.invalid_graphid := by
    unfold TileHierarchy.GetGraphId
    rw [map_find_eq_none _ _ hlevel]
  have hvalid : GraphId.Is_Valid P (hierarchy.GetGraphId P pointll level) = false := by
    rw [hid]
    simp [GraphId.Is_Valid]
  exact ⟨hvalid, construct_invalid P uninitialised hierarchy _ hvalid⟩

/-- Witness of C18: level 34 of a hierarchy with the levels 0, 1 and 2, as in
`test/tilehierarchy.cc`. -/
theorem GetGraphId_unknown_level_witness :
    GraphId.Is_Valid example_platform
      (example_hierarchy.GetGraphId example_platform (0, 0) 34) = false ∧
    GraphTile.construct example_platform GraphTile.default_constructed example_hierarchy
        (example_hierarchy.GetGraphId example_platform (0, 0) 34) =
      .ok ({ GraphTile.default_constructed with
        size_ := 0, stop_one_stops := [], route_one_stops := [], oper_one_stops := [] }, []) :=
  GetGraphId_unknown_level example_platform GraphTile.default_constructed example_hierarchy
    (0, 0) 34 (by decide)

/-! ## The empty tile -/

/-- Counterexample to C14 as stated: on the default-constructed tile `node(0)`, `GetSigns(0)`,
`GetTransitStop(0)` and `GetNextDeparture(0, ...)` do not report out-of-range or not-found: they
read a count through the null header pointer. -/
theorem empty_tile_reads_header :
    GraphTile.default_constructed.size = 0 ∧
    GraphTile.default_constructed.header_ = none ∧
    node GraphTile.default_constructed 0 = .error .undefined_behaviour ∧
    GetSigns GraphTile.default_constructed 0 = .error .undefined_behaviour ∧
    GetTransitStop GraphTile.default_constructed 0 = .error .undefined_behaviour ∧
    GetNextDeparture GraphTile.default_constructed 0 0 0 0 false =
      .error .undefined_behaviour := by
  decide

/-- **C14, as amended.** A tile in the empty state reports size 0: the default-constructed
tile, and the tile the other constructor makes of an id that is not valid or of a read that
fails; that constructor leaves the header pointer as it was, unset.  On the default-constructed
tile `GetName` throws the text-range error for every offset.  Every other accessor first reads
a count through the header pointer: on a tile whose header pointer is null, as the
default-constructed one, it has undefined behaviour. -/
theorem empty_tile {PointLL : Type} (t : GraphTile) (hheader : t.header_ = none) :
    GraphTile.default_constructed.size = 0 ∧
    GraphTile.default_constructed.header_ = none ∧
    (∀ (P : Platform) (uninitialised : GraphTile) (hierarchy : TileHierarchy PointLL)
      (graphid : GraphId),
      GraphId.Is_Valid P graphid = false ∨ hierarchy.tile_storage graphid = none →
      ∃ made reads, GraphTile.construct P uninitialised hierarchy graphid = .ok (made, reads) ∧
        made.size = 0 ∧ made.header_ = uninitialised.header_) ∧
    (∀ offset, GetName GraphTile.default_constructed offset =
      .error (.runtime_error "GetName: offset exceeds size of text list")) ∧
    (∀ idx, node t idx = .error .undefined_behaviour) ∧
    (∀ g, node_id t g = .error .undefined_behaviour) ∧
    (∀ idx, directededge t idx = .error .undefined_behaviour) ∧
    (∀ g, directededge_id t g = .error .undefined_behaviour) ∧
    (∀ idx, admin t idx = .error .undefined_behaviour) ∧
    (∀ idx, GetSigns t idx = .error .undefined_behaviour) ∧
    (∀ idx access, GetAccessRestrictions t idx access = .error .undefined_behaviour) ∧
    (∀ lineid current_time day dow date_before_tile,
      GetNextDeparture t lineid current_time day dow date_before_tile =
        .error .undefined_behaviour) ∧
    (∀ lineid tripid, GetTransitDeparture t lineid tripid = .error .undefined_behaviour) ∧
    (∀ idx, GetTransitStop t idx = .error .undefined_behaviour) ∧
    (∀ idx, GetTransitRoute t idx = .error .undefined_behaviour) ∧
    (∀ idx, GetTransitSchedule t idx = .error .undefined_behaviour) := by
  refine ⟨rfl, rfl, ?_, ?_, ?_, ?_, ?_, ?_, ?_, ?_, ?_, ?_, ?_, ?_, ?_, ?_⟩
  · intro P uninitialised hierarchy graphid h
    cases hvalid : GraphId.Is_Valid P graphid with
    | false => exact ⟨_, _, construct_invalid P uninitialised hierarchy graphid hvalid, rfl, rfl⟩
    | true =>
      rcases h with h | h
      · rw [hvalid] at h; cases h
      · exact ⟨_, _, construct_not_found P uninitialised hierarchy graphid hvalid h, rfl, rfl⟩
  · intro offset
    rfl
  · intro idx; unfold node; rw [hheader]; rfl
  · intro g; unfold node_id; rw [hheader]; rfl
  · intro idx; unfold directededge; rw [hheader]; rfl
  · intro g; unfold directededge_id; rw [hheader]; rfl
  · intro idx; unfold admin; rw [hheader]; rfl
  · intro idx; unfold GetSigns; rw [hheader]; rfl
  · intro idx access; unfold GetAccessRestrictions; rw [hheader]; rfl
  · intro lineid current_time day dow date_before_tile
    unfold GetNextDeparture; rw [hheader]; rfl
  · intro lineid tripid; unfold GetTransitDeparture; rw [hheader]; rfl
  · intro idx; unfold GetTransitStop; rw [hheader]; rfl
  · intro idx; unfold GetTransitRoute; rw [hheader]; rfl
  · intro idx; unfold GetTransitSchedule; rw [hheader]; rfl

/-- Witness of C14 as amended: the default-constructed tile. -/
theorem empty_tile_witness :
    GetName GraphTile.default_constructed 0 =
      .error (.runtime_error "GetName: offset exceeds size of text list") ∧
    admin GraphTile.default_constructed 0 = .error .undefined_behaviour ∧
    GetTransitDeparture GraphTile.default_constructed 1 2 = .error .undefined_behaviour :=
  ⟨(@empty_tile Unit GraphTile.default_constructed rfl).2.2.2.1 0,
   (@empty_tile Unit GraphTile.default_constructed rfl).2.2.2.2.2.2.2.2.1 0,
   (@empty_tile Unit GraphTile.default_constructed rfl).2.2.2.2.2.2.2.2.2.2.2.2.1 1 2⟩

/-! ## The layout of a loaded tile -/

theorem unsigned_sub_of_le (modulus a b : Nat) (hle : b ≤ a) (hlt : a < modulus) :
    unsigned_sub modulus a b = a - b := by
  unfold unsigned_sub
  rw [Nat.mod_eq_of_lt hlt, Nat.mod_eq_of_lt (lt_of_le_of_lt hle hlt)]
  have h : a + modulus - b = (a - b) + modulus := by omega
  rw [h, Nat.add_mod_right, Nat.mod_eq_of_lt (by omega)]

/-- A tile that the constructor makes of a buffer is the tile over the buffer with the one-stop
index and the size set. -/
theorem construct_read_ok {PointLL : Type} (P : Platform) (uninitialised : GraphTile)
    (hierarchy : TileHierarchy PointLL) (graphid : GraphId) (tile_data : List Nat)
    (t : GraphTile) (reads : List GraphId)
    (hvalid : GraphId.Is_Valid P graphid = true)
    (hread : hierarchy.tile_storage graphid = some tile_data)
    (h : GraphTile.construct P uninitialised hierarchy graphid = .ok (t, reads)) :
    ∃ stops routes opers,
      t = { GraphTile.over P tile_data with
        stop_one_stops := stops, route_one_stops := routes, oper_one_stops := opers,
        size_ := tile_data.length } ∧
      (graphid.level = 3 →
        GraphTile.index_stops (GraphTile.over P tile_data) graphid.tileid = .ok stops ∧
        GraphTile.index_lines P.iteration_order (GraphTile.over P tile_data) graphid.tileid =
          .ok (routes, opers)) := by
  rw [construct_read P uninitialised hierarchy graphid tile_data hvalid hread] at h
  by_cases hshort : tile_data.length < P.sizeof_GraphTileHeader
  · rw [if_pos hshort] at h
    cases h
  · rw [if_neg hshort] at h
    by_cases hlevel : graphid.level = 3
    · rw [if_pos hlevel] at h
      cases hs : GraphTile.index_stops (GraphTile.over P tile_data) graphid.tileid with
      | error e => rw [hs] at h; cases h
      | ok stops =>
        rw [hs] at h
        cases hl : GraphTile.index_lines P.iteration_order (GraphTile.over P tile_data)
            graphid.tileid with
        | error e => rw [hl] at h; cases h
        | ok lines =>
          rw [hl] at h
          simp only [Except.ok.injEq, Prod.mk.injEq] at h
          exact ⟨stops, lines.1, lines.2, h.1.symm, fun _ => ⟨rfl, rfl⟩⟩
    · rw [if_neg hlevel] at h
      simp only [Except.ok.injEq, Prod.mk.injEq] at h
      exact ⟨[], [], [], h.1.symm, fun h3 => absurd h3 hlevel⟩

/-- **C12.** For every buffer of which the constructor makes a tile, with `header` the header
read at the start of the buffer: the section views are those of the reference layout, the nodes
being read from `sizeof(GraphTileHeader)` on and each following section (directed edges, access
restrictions, departures, stops, routes, schedules, signs, admins, edge bins) from the start of
the section before it plus its count times its record size; the edge information is read from
`header.edgeinfo_offset` on and its size is `textlist_offset - edgeinfo_offset`, the text list
is read from `header.textlist_offset` on and its size is the buffer length minus
`textlist_offset`, both differences being taken in the unsigned type (they are the plain
differences when the offsets are in order). -/
theorem construct_layout {PointLL : Type} (P : Platform) (uninitialised : GraphTile)
    (hierarchy : TileHierarchy PointLL) (graphid : GraphId) (tile_data : List Nat)
    (t : GraphTile) (reads : List GraphId) (header : GraphTileHeader)
    (hvalid : GraphId.Is_Valid P graphid = true)
    (hread : hierarchy.tile_storage graphid = some tile_data)
    (h : GraphTile.construct P uninitialised hierarchy graphid = .ok (t, reads))
    (hheader : header = P.read_GraphTileHeader (tile_data.take P.sizeof_GraphTileHeader)) :
    t.header_ = some header ∧
    t.nodes_ = cast_at P.read_NodeInfo P.sizeof_NodeInfo tile_data
      (reference_start P header 0) ∧
    t.directededges_ = cast_at P.read_DirectedEdge P.sizeof_DirectedEdge tile_data
      (reference_start P header 1) ∧
    t.access_restrictions_ = cast_at P.read_AccessRestriction P.sizeof_AccessRestriction
      tile_data (reference_start P header 2) ∧
    t.departures_ = cast_at P.read_TransitDeparture P.sizeof_TransitDeparture tile_data
      (reference_start P header 3) ∧
    t.transit_stops_ = cast_at P.read_TransitStop P.sizeof_TransitStop tile_data
      (reference_start P header 4) ∧
    t.transit_routes_ = cast_at P.read_TransitRoute P.sizeof_TransitRoute tile_data
      (reference_start P header 5) ∧
    t.transit_schedules_ = cast_at P.read_TransitSchedule P.sizeof_TransitSchedule tile_data
      (reference_start P header 6) ∧
    t.signs_ = cast_at P.read_Sign P.sizeof_Sign tile_data (reference_start P header 7) ∧
    t.admins_ = cast_at P.read_Admin P.sizeof_Admin tile_data (reference_start P header 8) ∧
    t.edge_bins_ = cast_at P.read_GraphId P.sizeof_GraphId tile_data
      (reference_start P header 9) ∧
    t.edgeinfo_ = tile_data.drop header.edgeinfo_offset ∧
    t.edgeinfo_size_ =
      unsigned_sub P.offset_modulus header.textlist_offset header.edgeinfo_offset ∧
    (header.edgeinfo_offset ≤ header.textlist_offset →
      header.textlist_offset < P.offset_modulus →
      t.edgeinfo_size_ = header.textlist_offset - header.edgeinfo_offset) ∧
    t.textlist_ = tile_data.drop header.textlist_offset ∧
    t.textlist_size_ = unsigned_sub SIZE_MODULUS tile_data.length header.textlist_offset ∧
    (header.textlist_offset ≤ tile_data.length → tile_data.length < SIZE_MODULUS →
      t.textlist_size_ = tile_data.length - header.textlist_offset) := by
  obtain ⟨stops, routes, opers, rfl, -⟩ :=
    construct_read_ok P uninitialised hierarchy graphid tile_data t reads hvalid hread h
  subst hheader
  refine ⟨rfl, ?_, ?_, ?_, ?_, ?_, ?_, ?_, ?_, ?_, ?_, rfl, rfl, ?_, rfl, rfl, ?_⟩
  · simp [GraphTile.over, GraphTile.pointers, reference_start, fixed_sections]
  · simp [GraphTile.over, GraphTile.pointers, reference_start, fixed_sections]
  · simp [GraphTile.over, GraphTile.pointers, reference_start, fixed_sections, Nat.add_assoc]
  · simp [GraphTile.over, GraphTile.pointers, reference_start, fixed_sections, Nat.add_assoc]
  · simp [GraphTile.over, GraphTile.pointers, reference_start, fixed_sections, Nat.add_assoc]
  · simp [GraphTile.over, GraphTile.pointers, reference_start, fixed_sections, Nat.add_assoc]
  · simp [GraphTile.over, GraphTile.pointers, reference_start, fixed_sections, Nat.add_assoc]
  · simp [GraphTile.over, GraphTile.pointers, reference_start, fixed_sections, Nat.add_assoc]
  · simp [GraphTile.over, GraphTile.pointers, reference_start, fixed_sections, Nat.add_assoc]
  · simp [GraphTile.over, GraphTile.pointers, reference_start, fixed_sections, Nat.add_assoc]
  · intro hle hlt
    exact unsigned_sub_of_le _ _ _ hle hlt
  · intro hle hlt
    exact unsigned_sub_of_le _ _ _ hle hlt

/-- Witness of C12: the transit tile of 33 bytes; its departures are read from byte 11, its
stops from byte 19, its routes from byte 21, and its text list is the last 8 bytes. -/
theorem construct_layout_witness :
    ∃ t, GraphTile.construct example_platform GraphTile.default_constructed example_hierarchy
        { tileid := 9, level := 3, id := 0 } = .ok (t, [{ tileid := 9, level := 3, id := 0 }]) ∧
      t.departures_ = cast_at example_platform.read_TransitDeparture 4 example_transit_data 11 ∧
      t.transit_stops_ = cast_at example_platform.read_TransitStop 1 example_transit_data 19 ∧
      t.transit_routes_ = cast_at example_platform.read_TransitRoute 2 example_transit_data 21 ∧
      t.edgeinfo_size_ = 0 ∧
      t.textlist_ = [83, 0, 82, 0, 79, 0, 80, 0] ∧ t.textlist_size_ = 8 := by
  have h : GraphTile.construct example_platform GraphTile.default_constructed example_hierarchy
      { tileid := 9, level := 3, id := 0 } =
      .ok ({ GraphTile.over example_platform example_transit_data with
        stop_one_stops := [([83], 9, 1)]
        route_one_stops := [([82], [(9, 5), (9, 6)])]
        oper_one_stops := [([79], [(9, 5)]), ([80], [(9, 6)])]
        size_ := 33 }, [{ tileid := 9, level := 3, id := 0 }]) := by rfl
  have L := construct_layout example_platform GraphTile.default_constructed example_hierarchy
    { tileid := 9, level := 3, id := 0 } example_transit_data _ _ _ (by decide) (by decide) h rfl
  have h3 : reference_start example_platform
      (example_platform.read_GraphTileHeader (example_transit_data.take 11)) 3 = 11 := by decide
  have h4 : reference_start example_platform
      (example_platform.read_GraphTileHeader (example_transit_data.take 11)) 4 = 19 := by decide
  have h5 : reference_start example_platform
      (example_platform.read_GraphTileHeader (example_transit_data.take 11)) 5 = 21 := by decide
  refine ⟨_, h, ?_, ?_, ?_, ?_, ?_, ?_⟩
  · exact L.2.2.2.2.1.trans (by rw [← h3]; rfl)
  · exact L.2.2.2.2.2.1.trans (by rw [← h4]; rfl)
  · exact L.2.2.2.2.2.2.1.trans (by rw [← h5]; rfl)
  · exact L.2.2.2.2.2.2.2.2.2.2.2.2.1.trans (by decide)
  · exact L.2.2.2.2.2.2.2.2.2.2.2.2.2.2.1.trans (by decide)
  · exact L.2.2.2.2.2.2.2.2.2.2.2.2.2.2.2.1.trans (by decide)

/-- Counterexample to C13 as stated: the constructor makes a tile of the 11 bytes of a header
of zeros; its edge information has size 0 and its text list size 11, so that with the 11 bytes
of the header the sum is at least 22, whatever the number of edge bins. -/
theorem construct_accounts_twice :
    (GraphTile.construct example_platform GraphTile.default_constructed example_hierarchy
        { tileid := 6, level := 0, id := 0 }).map
      (fun r => (r.1.size, r.1.edgeinfo_size_, r.1.textlist_size_)) = .ok (11, 0, 11) ∧
    (∀ bins, fixed_bytes example_platform
        (example_platform.read_GraphTileHeader (example_zero_header.take 11)) bins
          + 0 + 11 ≠ 11) := by
  refine ⟨by decide, ?_⟩
  intro bins
  simp [fixed_bytes, fixed_sections, example_platform, example_zero_header]

/-- **C13, as amended.** For a tile that the constructor makes of a buffer whose header has
its offsets in order, `edgeinfo_offset ≤ textlist_offset ≤` buffer length, and has
`edgeinfo_offset` at the end of the fixed sections (the header, the nine counted sections and
the edge bins): the bytes of the header and of the fixed sections plus the size of the edge
information plus the size of the text list are the buffer length.  The constructor does not
check either condition. -/
theorem construct_accounts {PointLL : Type} (P : Platform) (uninitialised : GraphTile)
    (hierarchy : TileHierarchy PointLL) (graphid : GraphId) (tile_data : List Nat)
    (t : GraphTile) (reads : List GraphId) (header : GraphTileHeader) (bins : Nat)
    (hvalid : GraphId.Is_Valid P graphid = true)
    (hread : hierarchy.tile_storage graphid = some tile_data)
    (h : GraphTile.construct P uninitialised hierarchy graphid = .ok (t, reads))
    (hheader : header = P.read_GraphTileHeader (tile_data.take P.sizeof_GraphTileHeader))
    (hend : header.edgeinfo_offset = fixed_bytes P header bins)
    (hedge : header.edgeinfo_offset ≤ header.textlist_offset)
    (htext : header.textlist_offset ≤ tile_data.length)
    (hoffset : header.textlist_offset < P.offset_modulus)
    (hlength : tile_data.length < SIZE_MODULUS) :
    fixed_bytes P header bins + t.edgeinfo_size_ + t.textlist_size_ = tile_data.length := by
  obtain ⟨stops, routes, opers, rfl, -⟩ :=
    construct_read_ok P uninitialised hierarchy graphid tile_data t reads hvalid hread h
  subst hheader
  have h1 : (GraphTile.over P tile_data).edgeinfo_size_ =
      (P.read_GraphTileHeader (tile_data.take P.sizeof_GraphTileHeader)).textlist_offset -
        (P.read_GraphTileHeader (tile_data.take P.sizeof_GraphTileHeader)).edgeinfo_offset :=
    unsigned_sub_of_le _ _ _ hedge hoffset
  have h2 : (GraphTile.over P tile_data).textlist_size_ = tile_data.length -
      (P.read_GraphTileHeader (tile_data.take P.sizeof_GraphTileHeader)).textlist_offset :=
    unsigned_sub_of_le _ _ _ htext hlength
  show fixed_bytes P _ bins + (GraphTile.over P tile_data).edgeinfo_size_ +
    (GraphTile.over P tile_data).textlist_size_ = tile_data.length
  rw [h1, h2]
  omega

/-- Witness of C13 as amended: the transit tile of 33 bytes, which has no edge bins. -/
theorem construct_accounts_witness :
    ∃ t, GraphTile.construct example_platform GraphTile.default_constructed example_hierarchy
        { tileid := 9, level := 3, id := 0 } = .ok (t, [{ tileid := 9, level := 3, id := 0 }]) ∧
      25 + t.edgeinfo_size_ + t.textlist_size_ = 33 := by
  have h : GraphTile.construct example_platform GraphTile.default_constructed example_hierarchy
      { tileid := 9, level := 3, id := 0 } =
      .ok ({ GraphTile.over example_platform example_transit_data with
        stop_one_stops := [([83], 9, 1)]
        route_one_stops := [([82], [(9, 5), (9, 6)])]
        oper_one_stops := [([79], [(9, 5)]), ([80], [(9, 6)])]
        size_ := 33 }, [{ tileid := 9, level := 3, id := 0 }]) := by rfl
  exact ⟨_, h, construct_accounts example_platform GraphTile.default_constructed
    example_hierarchy { tileid := 9, level := 3, id := 0 } example_transit_data _ _ _ 0
    (by decide) (by decide) h rfl (by decide) (by decide) (by decide) (by decide) (by decide)⟩

/-! ## Maps -/

theorem map_find_assign {κ ν : Type} [DecidableEq κ] (m : List (κ × ν)) (k : κ) (v : ν)
    (k' : κ) :
    map_find (map_assign m k v) k' = if k = k' then some v else map_find m k' := by
  induction m with
  | nil => simp [map_assign, map_find]
  | cons e rest ih =>
    unfold map_assign
    by_cases he : e.1 = k
    · rw [if_pos he]
      by_cases hk : k = k'
      · simp [map_find, hk]
      · have : ¬ e.1 = k' := by rw [he]; exact hk
        simp [map_find, hk, this]
    · rw [if_neg he]
      by_cases hk : k = k'
      · subst hk
        rw [if_pos rfl] at ih
        simp [map_find, he, ih]
      · by_cases hek : e.1 = k'
        · simp [map_find, hk, hek]
        · simp [map_find, hk, hek, ih]

theorem map_find_push {κ ν : Type} [DecidableEq κ] (m : List (κ × List ν)) (k : κ) (v : ν)
    (k' : κ) :
    map_find (map_push m k v) k' =
      if k = k' then some ((map_find m k).getD [] ++ [v]) else map_find m k' := by
  unfold map_push
  cases h : map_find m k with
  | none => simp [map_find_assign]
  | some l => simp [map_find_assign]

theorem map_find_insert {κ ν : Type} [DecidableEq κ] (m : List (κ × ν)) (k : κ) (v : ν)
    (k' : κ) :
    map_find (map_insert m k v) k' =
      match map_find m k' with
      | some x => some x
      | none => if k = k' then some v else none := by
  unfold map_insert
  cases h : map_find m k with
  | some x => cases h' : map_find m k' with
    | some y => rfl
    | none =>
      by_cases hk : k = k'
      · rw [hk, h'] at h; cases h
      · simp [hk, h']
  | none =>
    simp only []
    induction m with
    | nil => simp [map_find]
    | cons e rest ih =>
      have hek : ¬ e.1 = k := by
        intro he
        simp [map_find, he] at h
      have hrest : map_find rest k = none := by
        simpa [map_find, hek] using h
      by_cases hek' : e.1 = k'
      · simp [map_find, hek']
      · simpa [map_find, hek'] using ih hrest

/-! ## The one-stop indexes -/

theorem index_stops_range (t : GraphTile) (tileid : Nat) :
    ∀ (n : Nat) (m : List (List Nat × (Nat × Nat))),
      (List.range n).foldlM
          (fun stop_one_stops (i : Nat) => do
            let stop ← GetName t (t.transit_stops_ (i : Int)).one_stop_offset
            pure (map_assign stop_one_stops stop (tileid, i)))
          ([] : List (List Nat × (Nat × Nat))) = Except.ok m →
      (∀ i : Nat, i < n → ∃ s, stop_one_stop t i = .ok s) ∧
      (∀ s, (map_find m s).isSome ↔ ∃ i : Nat, i < n ∧ stop_one_stop t i = .ok s) ∧
      (∀ s v, map_find m s = some v ↔
        ∃ j : Nat, v = (tileid, j) ∧ j < n ∧ stop_one_stop t j = .ok s ∧
          ∀ i : Nat, j < i → i < n → stop_one_stop t i ≠ .ok s) := by
  intro n
  induction n with
  | zero =>
    intro m h
    simp only [List.range_zero, List.foldlM_nil, pure, Except.pure] at h
    cases h
    refine ⟨fun i hi => absurd hi (Nat.not_lt_zero i), fun s => ?_, fun s v => ?_⟩
    · simp [map_find]
    · simp [map_find]
  | succ n ih =>
    intro m h
    rw [List.range_succ, List.foldlM_append] at h
    cases hfold : (List.range n).foldlM
          (fun stop_one_stops (i : Nat) => do
            let stop ← GetName t (t.transit_stops_ (i : Int)).one_stop_offset
            pure (map_assign stop_one_stops stop (tileid, i)))
          ([] : List (List Nat × (Nat × Nat))) with
    | error e => rw [hfold] at h; cases h
    | ok m' =>
      rw [hfold] at h
      obtain ⟨hall, hkeys, hvals⟩ := ih m' hfold
      have hname : ∃ nm, stop_one_stop t n = .ok nm ∧ m = map_assign m' nm (tileid, n) := by
        unfold stop_one_stop
        cases hn : GetName t (t.transit_stops_ (n : Int)).one_stop_offset with
        | error e =>
          simp only [bind, Except.bind, List.foldlM_cons, List.foldlM_nil, hn] at h
          cases h
        | ok nm =>
          simp only [bind, Except.bind, List.foldlM_cons, List.foldlM_nil, hn, pure,
            Except.pure] at h
          cases h
          exact ⟨nm, rfl, rfl⟩
      obtain ⟨nm, hnm, hm⟩ := hname
      subst hm
      refine ⟨?_, ?_, ?_⟩
      · intro i hi
        rcases Nat.lt_succ_iff_lt_or_eq.mp hi with hlt | heq
        · exact hall i hlt
        · subst heq; exact ⟨nm, hnm⟩
      · intro s
        rw [map_find_assign]
        by_cases hs : nm = s
        · subst hs
          simp only [if_true, Option.isSome_some, true_iff]
          exact ⟨n, Nat.lt_succ_self n, hnm⟩
        · rw [if_neg hs, hkeys s]
          constructor
          · rintro ⟨i, hi, hname⟩
            exact ⟨i, Nat.lt_succ_of_lt hi, hname⟩
          · rintro ⟨i, hi, hname⟩
            rcases Nat.lt_succ_iff_lt_or_eq.mp hi with hlt | heq
            · exact ⟨i, hlt, hname⟩
            · subst heq
              rw [hnm] at hname
              exact absurd (Except.ok.inj hname) hs
      · intro s v
        rw [map_find_assign]
        by_cases hs : nm = s
        · subst hs
          rw [if_pos rfl]
          constructor
          · intro hv
            cases hv
            exact ⟨n, rfl, Nat.lt_succ_self n, hnm, fun i hji hi => by omega⟩
          · rintro ⟨j, hv, hj, _, hlater⟩
            rcases Nat.lt_succ_iff_lt_or_eq.mp hj with hlt | heq
            · exact absurd hnm (hlater n hlt (Nat.lt_succ_self n))
            · subst heq; rw [hv]
        · rw [if_neg hs, hvals s v]
          constructor
          · rintro ⟨j, hv, hj, hname, hlater⟩
            refine ⟨j, hv, Nat.lt_succ_of_lt hj, hname, fun i hji hi => ?_⟩
            rcases Nat.lt_succ_iff_lt_or_eq.mp hi with hlt | heq
            · exact hlater i hji hlt
            · subst heq
              rw [hnm]
              intro hc
              exact hs (Except.ok.inj hc)
          · rintro ⟨j, hv, hj, hname, hlater⟩
            rcases Nat.lt_succ_iff_lt_or_eq.mp hj with hlt | heq
            · exact ⟨j, hv, hlt, hname, fun i hji hi => hlater i hji (Nat.lt_succ_of_lt hi)⟩
            · subst heq
              rw [hnm] at hname
              exact absurd (Except.ok.inj hname) hs

theorem index_stops_spec (t : GraphTile) (tileid : Nat) (header : GraphTileHeader)
    (stops : List (List Nat × (Nat × Nat)))
    (hheader : t.header_ = some header) (hempty : t.stop_one_stops = [])
    (h : GraphTile.index_stops t tileid = .ok stops) :
    (∀ i : Nat, i < header.stopcount → ∃ s, stop_one_stop t i = .ok s) ∧
    (∀ s, (map_find stops s).isSome ↔
      ∃ i : Nat, i < header.stopcount ∧ stop_one_stop t i = .ok s) ∧
    (∀ s v, map_find stops s = some v ↔
      ∃ j : Nat, v = (tileid, j) ∧ j < header.stopcount ∧ stop_one_stop t j = .ok s ∧
        ∀ i : Nat, j < i → i < header.stopcount → stop_one_stop t i ≠ .ok s) := by
  unfold GraphTile.index_stops at h
  rw [hheader, hempty] at h
  exact index_stops_range t tileid header.stopcount stops h

/-- **C16.** For every transit-level tile (level 3) that the constructor makes from a buffer,
with `header` its header and `graphid.tileid` its tile id: the one-stop id of every stop
`i < stopcount` is read; the stop index has a value for `s` exactly when `s` is the one-stop id
of a stop `i < stopcount`; its value for `s` is `(tile id, j)` exactly when `j < stopcount` is
the largest stop ordinal whose one-stop id is `s`; and when the one-stop ids of the stops are
pairwise distinct, the index maps the one-stop id of every stop `j < stopcount` to
`(tile id, j)`. -/
theorem stop_index_last_write_wins {PointLL : Type} (P : Platform) (uninitialised : GraphTile)
    (hierarchy : TileHierarchy PointLL) (graphid : GraphId) (tile_data : List Nat)
    (t : GraphTile) (reads : List GraphId) (header : GraphTileHeader)
    (hvalid : GraphId.Is_Valid P graphid = true)
    (hread : hierarchy.tile_storage graphid = some tile_data)
    (hlevel : graphid.level = 3)
    (h : GraphTile.construct P uninitialised hierarchy graphid = .ok (t, reads))
    (hheader : t.header_ = some header) :
    (∀ i : Nat, i < header.stopcount → ∃ s, stop_one_stop t i = .ok s) ∧
    (∀ s, (map_find t.stop_one_stops s).isSome ↔
      ∃ i : Nat, i < header.stopcount ∧ stop_one_stop t i = .ok s) ∧
    (∀ s v, map_find t.stop_one_stops s = some v ↔
      ∃ j : Nat, v = (graphid.tileid, j) ∧ j < header.stopcount ∧ stop_one_stop t j = .ok s ∧
        ∀ i : Nat, j < i → i < header.stopcount → stop_one_stop t i ≠ .ok s) ∧
    ((∀ i j : Nat, i < header.stopcount → j < header.stopcount →
        stop_one_stop t i = stop_one_stop t j → i = j) →
      ∀ j : Nat, j < header.stopcount → ∀ s, stop_one_stop t j = .ok s →
        map_find t.stop_one_stops s = some (graphid.tileid, j)) := by
  obtain ⟨stops, routes, opers, ht, hidx⟩ :=
    construct_read_ok P uninitialised hierarchy graphid tile_data t reads hvalid hread h
  obtain ⟨hstops, -⟩ := hidx hlevel
  subst ht
  have hspec := index_stops_spec (GraphTile.over P tile_data) graphid.tileid header stops
    hheader rfl hstops
  have hsame : ∀ i : Int, stop_one_stop
      { GraphTile.over P tile_data with
        stop_one_stops := stops, route_one_stops := routes, oper_one_stops := opers,
        size_ := tile_data.length } i = stop_one_stop (GraphTile.over P tile_data) i :=
    fun _ => rfl
  simp only [hsame]
  refine ⟨hspec.1, hspec.2.1, hspec.2.2, ?_⟩
  intro hdistinct j hj s hs
  refine (hspec.2.2 s (graphid.tileid, j)).mpr ⟨j, rfl, hj, hs, fun i hji hi hc => ?_⟩
  have hij := hdistinct i j hi hj (by rw [hc, hs])
  omega

/-- Witness of C16: the transit tile 9, whose two stops both have the one-stop id "S"; the
index has the one key "S", with the value (9, 1) of the later stop. -/
theorem stop_index_last_write_wins_witness :
    ∃ t, GraphTile.construct example_platform GraphTile.default_constructed example_hierarchy
        { tileid := 9, level := 3, id := 0 } = .ok (t, [{ tileid := 9, level := 3, id := 0 }]) ∧
      stop_one_stop t 0 = .ok [83] ∧ stop_one_stop t 1 = .ok [83] ∧
      t.stop_one_stops = [([83], 9, 1)] ∧
      (∀ s v, map_find t.stop_one_stops s = some v ↔
        ∃ j : Nat, v = (9, j) ∧ j < 2 ∧ stop_one_stop t j = .ok s ∧
          ∀ i : Nat, j < i → i < 2 → stop_one_stop t i ≠ .ok s) := by
  have h : GraphTile.construct example_platform GraphTile.default_constructed example_hierarchy
      { tileid := 9, level := 3, id := 0 } =
      .ok ({ GraphTile.over example_platform example_transit_data with
        stop_one_stops := [([83], 9, 1)]
        route_one_stops := [([82], [(9, 5), (9, 6)])]
        oper_one_stops := [([79], [(9, 5)]), ([80], [(9, 6)])]
        size_ := 33 }, [{ tileid := 9, level := 3, id := 0 }]) := by rfl
  have L := stop_index_last_write_wins example_platform GraphTile.default_constructed
    example_hierarchy { tileid := 9, level := 3, id := 0 } example_transit_data _ _
    (example_platform.read_GraphTileHeader (example_transit_data.take 11))
    (by decide) (by decide) rfl h rfl
  exact ⟨_, h, by decide, by decide, rfl, L.2.2.1⟩

theorem map_find_none_iff {κ ν : Type} [DecidableEq κ] (m : List (κ × ν)) (k : κ) :
    map_find m k = none ↔ ∀ e ∈ m, e.1 ≠ k := by
  induction m with
  | nil => simp [map_find]
  | cons e rest ih =>
    by_cases he : e.1 = k
    · simp [map_find, he]
    · simp [map_find, he, ih]

theorem map_find_some_mem {κ ν : Type} [DecidableEq κ] (m : List (κ × ν)) (k : κ) (v : ν)
    (h : map_find m k = some v) : (k, v) ∈ m := by
  induction m with
  | nil => simp [map_find] at h
  | cons e rest ih =>
    by_cases he : e.1 = k
    · simp only [map_find, he, if_true, Option.some.injEq] at h
      have : e = (k, v) := Prod.ext he h
      simp [this]
    · simp only [map_find, he, if_false] at h
      exact List.mem_cons_of_mem _ (ih h)

/-- The loop of `GetTransitDepartures` over the first `n` departures: the keys of the map are
pairwise distinct, its entries are the pairs of a line id and the first position at which it
occurs, and every line id that occurs has an entry. -/
theorem GetTransitDepartures_fold (departures : Int → TransitDeparture) :
    ∀ n : Nat,
      (((List.range n).foldl
          (fun deps (i : Nat) => map_insert deps (departures (i : Int)).lineid (i : Int))
          ([] : List (Nat × Int))).map Prod.fst).Nodup ∧
      (∀ e : Nat × Int,
        e ∈ (List.range n).foldl
            (fun deps (i : Nat) => map_insert deps (departures (i : Int)).lineid (i : Int))
            ([] : List (Nat × Int)) ↔
          ∃ i : Nat, i < n ∧ e = ((departures (i : Int)).lineid, (i : Int)) ∧
            ∀ i' : Nat, i' < i → (departures (i' : Int)).lineid ≠ (departures (i : Int)).lineid) ∧
      (∀ i : Nat, i < n →
        ∃ e ∈ (List.range n).foldl
            (fun deps (i : Nat) => map_insert deps (departures (i : Int)).lineid (i : Int))
            ([] : List (Nat × Int)), e.1 = (departures (i : Int)).lineid) := by
  intro n
  induction n with
  | zero => simp
  | succ n ih =>
    rw [List.range_succ, List.foldl_append]
    generalize (List.range n).foldl
      (fun deps (i : Nat) => map_insert deps (departures (i : Int)).lineid (i : Int))
      ([] : List (Nat × Int)) = m at ih
    obtain ⟨hnodup, hmem, hcover⟩ := ih
    simp only [List.foldl_cons, List.foldl_nil]
    unfold map_insert
    cases hfind : map_find m (departures (n : Int)).lineid with
    | some v =>
      simp only []
      have hin := map_find_some_mem m _ v hfind
      obtain ⟨i0, hi0, he0, -⟩ := (hmem _).mp hin
      have hline : (departures (i0 : Int)).lineid = (departures (n : Int)).lineid :=
        (congrArg Prod.fst he0).symm
      refine ⟨hnodup, fun e => ?_, fun i hi => ?_⟩
      · rw [hmem e]
        constructor
        · rintro ⟨i, hi, he, hfirst⟩
          exact ⟨i, Nat.lt_succ_of_lt hi, he, hfirst⟩
        · rintro ⟨i, hi, he, hfirst⟩
          rcases Nat.lt_succ_iff_lt_or_eq.mp hi with hlt | heq
          · exact ⟨i, hlt, he, hfirst⟩
          · subst heq
            exact absurd hline (hfirst i0 hi0)
      · rcases Nat.lt_succ_iff_lt_or_eq.mp hi with hlt | heq
        · exact hcover i hlt
        · subst heq
          exact ⟨_, hin, rfl⟩
    | none =>
      simp only []
      have hnone := (map_find_none_iff m _).mp hfind
      have hnew : ∀ i' : Nat, i' < n →
          (departures (i' : Int)).lineid ≠ (departures (n : Int)).lineid := by
        intro i' hi'
        obtain ⟨e, he, hkey⟩ := hcover i' hi'
        rw [← hkey]
        exact hnone e he
      refine ⟨?_, fun e => ?_, fun i hi => ?_⟩
      · rw [List.map_append, List.nodup_append]
        refine ⟨hnodup, List.nodup_singleton _, ?_⟩
        intro k hk hk'
        simp only [List.map_cons, List.map_nil, List.mem_singleton] at hk'
        obtain ⟨e, he, hkey⟩ := List.mem_map.mp hk
        exact hnone e he (hkey.trans hk')
      · rw [List.mem_append, hmem e, List.mem_singleton]
        constructor
        · rintro (⟨i, hi, he, hfirst⟩ | he)
          · exact ⟨i, Nat.lt_succ_of_lt hi, he, hfirst⟩
          · exact ⟨n, Nat.lt_succ_self n, he, hnew⟩
        · rintro ⟨i, hi, he, hfirst⟩
          rcases Nat.lt_succ_iff_lt_or_eq.mp hi with hlt | heq
          · exact Or.inl ⟨i, hlt, he, hfirst⟩
          · subst heq
            exact Or.inr he
      · rcases Nat.lt_succ_iff_lt_or_eq.mp hi with hlt | heq
        · obtain ⟨e, he, hkey⟩ := hcover i hlt
          exact ⟨e, List.mem_append_left _ he, hkey⟩
        · subst heq
          exact ⟨_, List.mem_append_right _ (List.mem_singleton_self _), rfl⟩

theorem index_line_ok (t : GraphTile) (tileid : Nat)
    (maps maps' : List (List Nat × List (Nat × Nat)) × List (List Nat × List (Nat × Nat)))
    (dep : Int) (h : GraphTile.index_line t tileid maps dep = .ok maps') :
    ∃ r o, route_one_stop t dep = .ok r ∧ operator_one_stop t dep = .ok o ∧
      maps' = (map_push maps.1 r (tileid, (t.departures_ dep).lineid),
        map_push maps.2 o (tileid, (t.departures_ dep).lineid)) := by
  unfold GraphTile.index_line at h
  unfold route_one_stop operator_one_stop
  cases hroute : GetTransitRoute t (t.departures_ dep).routeid with
  | error e => rw [hroute] at h; cases h
  | ok p =>
    rw [hroute] at h
    cases p with
    | none => cases h
    | some route =>
      simp only [bind, Except.bind, deref] at h ⊢
      cases hr : GetName t (t.transit_routes_ route).one_stop_offset with
      | error e => rw [hr] at h; cases h
      | ok r =>
        rw [hr] at h
        simp only [] at h
        cases ho : GetName t (t.transit_routes_ route).op_by_onestop_id_offset with
        | error e => rw [ho] at h; cases h
        | ok o =>
          rw [ho] at h
          simp only [pure, Except.pure, Except.ok.injEq] at h
          exact ⟨r, o, rfl, rfl, h.symm⟩

theorem pushed_value_cons {ν : Type} (before : Option (List ν)) (v : ν) (pushed : List ν) :
    pushed_value (some (before.getD [] ++ [v])) pushed = pushed_value before (v :: pushed) := by
  cases pushed with
  | nil => simp [pushed_value]
  | cons w rest => simp [pushed_value]

theorem index_lines_fold (t : GraphTile) (tileid : Nat) :
    ∀ (l : List (Nat × Int))
      (maps0 maps : List (List Nat × List (Nat × Nat)) × List (List Nat × List (Nat × Nat))),
      l.foldlM (fun maps dep => GraphTile.index_line t tileid maps dep.2) maps0 = .ok maps →
      (∀ d ∈ l, (∃ r, route_one_stop t d.2 = .ok r) ∧ ∃ o, operator_one_stop t d.2 = .ok o) ∧
      (∀ r, map_find maps.1 r = pushed_value (map_find maps0.1 r) (route_pairs t tileid l r)) ∧
      (∀ o, map_find maps.2 o =
        pushed_value (map_find maps0.2 o) (operator_pairs t tileid l o)) := by
  intro l
  induction l with
  | nil =>
    intro maps0 maps h
    simp only [List.foldlM_nil, pure, Except.pure, Except.ok.injEq] at h
    subst h
    simp [pushed_value, route_pairs, operator_pairs]
  | cons d l ih =>
    intro maps0 maps h
    rw [List.foldlM_cons] at h
    cases hstep : GraphTile.index_line t tileid maps0 d.2 with
    | error e => rw [hstep] at h; cases h
    | ok maps1 =>
      rw [hstep] at h
      obtain ⟨r0, o0, hr0, ho0, hmaps1⟩ := index_line_ok t tileid maps0 maps1 d.2 hstep
      obtain ⟨hall, hroutes, hopers⟩ := ih maps1 maps h
      subst hmaps1
      refine ⟨?_, fun r => ?_, fun o => ?_⟩
      · intro d' hd'
        rcases List.mem_cons.mp hd' with heq | hin
        · subst heq; exact ⟨⟨r0, hr0⟩, ⟨o0, ho0⟩⟩
        · exact hall d' hin
      · rw [hroutes r]
        simp only [map_find_push]
        by_cases hr : r0 = r
        · subst hr
          rw [if_pos rfl, pushed_value_cons]
          simp [route_pairs, hr0]
        · have hne : ¬ route_one_stop t d.2 = .ok r := by
            rw [hr0]; intro hc; exact hr (Except.ok.inj hc)
          rw [if_neg hr]
          simp [route_pairs, hne]
      · rw [hopers o]
        simp only [map_find_push]
        by_cases ho : o0 = o
        · subst ho
          rw [if_pos rfl, pushed_value_cons]
          simp [operator_pairs, ho0]
        · have hne : ¬ operator_one_stop t d.2 = .ok o := by
            rw [ho0]; intro hc; exact ho (Except.ok.inj hc)
          rw [if_neg ho]
          simp [operator_pairs, hne]

theorem pushed_value_none_getD {ν : Type} (pushed : List ν) :
    (pushed_value none pushed).getD [] = pushed := by
  cases pushed with
  | nil => rfl
  | cons v rest => simp [pushed_value]

theorem index_lines_spec (iteration_order : List (Nat × Int) → List (Nat × Int))
    (t : GraphTile) (tileid : Nat) (header : GraphTileHeader)
    (lines : List (List Nat × List (Nat × Nat)) × List (List Nat × List (Nat × Nat)))
    (hheader : t.header_ = some header)
    (hroutes : t.route_one_stops = []) (hopers : t.oper_one_stops = [])
    (h : GraphTile.index_lines iteration_order t tileid = .ok lines) :
    ∃ deps, GetTransitDepartures t = .ok deps ∧
      (deps.map Prod.fst).Nodup ∧
      (∀ e : Nat × Int, e ∈ deps ↔
        ∃ i : Nat, i < header.departurecount ∧
          e = ((t.departures_ (i : Int)).lineid, (i : Int)) ∧
          ∀ i' : Nat, i' < i →
            (t.departures_ (i' : Int)).lineid ≠ (t.departures_ (i : Int)).lineid) ∧
      (∀ d ∈ iteration_order deps,
        (∃ r, route_one_stop t d.2 = .ok r) ∧ ∃ o, operator_one_stop t d.2 = .ok o) ∧
      (∀ r, map_find lines.1 r =
        pushed_value none (route_pairs t tileid (iteration_order deps) r)) ∧
      (∀ o, map_find lines.2 o =
        pushed_value none (operator_pairs t tileid (iteration_order deps) o)) := by
  unfold GraphTile.index_lines at h
  have hdeps : GetTransitDepartures t = .ok ((List.range header.departurecount).foldl
      (fun deps (i : Nat) => map_insert deps (t.departures_ (i : Int)).lineid (i : Int))
      ([] : List (Nat × Int))) := by
    unfold GetTransitDepartures
    rw [hheader]
    rfl
  rw [hdeps, hroutes, hopers] at h
  obtain ⟨hnodup, hmem, -⟩ := GetTransitDepartures_fold t.departures_ header.departurecount
  obtain ⟨hall, hr, ho⟩ := index_lines_fold t tileid _ _ _ h
  exact ⟨_, hdeps, hnodup, hmem, hall, hr, ho⟩

/-- Counterexample to C15 as stated: tile 8 has two departures, both of line 5 and of the route
with the one-stop id "R" and the operator "O"; after loading, the list of "R" and the list of
"O" hold one pair each, not two. -/
theorem one_stop_index_one_pair_per_line :
    (GraphTile.construct example_platform GraphTile.default_constructed example_hierarchy
        { tileid := 8, level := 3, id := 0 }).map
      (fun r => (r.1.route_one_stops, r.1.oper_one_stops)) =
        .ok ([([82], [(8, 5)])], [([79], [(8, 5)])]) ∧
    ((List.range 2).filter (fun (i : Nat) =>
      decide (route_one_stop (GraphTile.over example_platform example_transit_data_one_line)
        (i : Int) = .ok [82]))).length = 2 ∧
    ((List.range 2).filter (fun (i : Nat) =>
      decide (operator_one_stop (GraphTile.over example_platform example_transit_data_one_line)
        (i : Int) = .ok [79]))).length = 2 := by
  refine ⟨by rfl, by decide, by decide⟩

/-- **C15, as amended.** For every transit-level tile (level 3) that the constructor makes from
a buffer, with `header` its header: `GetTransitDepartures` returns a map `deps` whose keys are
pairwise distinct and whose entries are, for each line id of the array, the line id with the
first position at which it occurs; the route and the operator one-stop id of every entry are
read; for every route one-stop id `r` the index has no list at `r` when no entry of `deps` has
a route with the one-stop id `r`, and otherwise the list of the pairs (tile id, line id) of the
entries whose route has the one-stop id `r`, in the order in which the map is iterated;
likewise the operator index; and when the iteration visits every entry of the map once, the
length of the list at `r` is the number of entries of `deps` (of lines, not of departures)
whose route has the one-stop id `r`, likewise for operators. -/
theorem one_stop_index_per_line {PointLL : Type} (P : Platform) (uninitialised : GraphTile)
    (hierarchy : TileHierarchy PointLL) (graphid : GraphId) (tile_data : List Nat)
    (t : GraphTile) (reads : List GraphId) (header : GraphTileHeader)
    (hvalid : GraphId.Is_Valid P graphid = true)
    (hread : hierarchy.tile_storage graphid = some tile_data)
    (hlevel : graphid.level = 3)
    (h : GraphTile.construct P uninitialised hierarchy graphid = .ok (t, reads))
    (hheader : t.header_ = some header) :
    ∃ deps, GetTransitDepartures t = .ok deps ∧
      (deps.map Prod.fst).Nodup ∧
      (∀ e : Nat × Int, e ∈ deps ↔
        ∃ i : Nat, i < header.departurecount ∧
          e = ((t.departures_ (i : Int)).lineid, (i : Int)) ∧
          ∀ i' : Nat, i' < i →
            (t.departures_ (i' : Int)).lineid ≠ (t.departures_ (i : Int)).lineid) ∧
      (∀ d ∈ P.iteration_order deps,
        (∃ r, route_one_stop t d.2 = .ok r) ∧ ∃ o, operator_one_stop t d.2 = .ok o) ∧
      (∀ r, map_find t.route_one_stops r =
        pushed_value none (route_pairs t graphid.tileid (P.iteration_order deps) r)) ∧
      (∀ o, map_find t.oper_one_stops o =
        pushed_value none (operator_pairs t graphid.tileid (P.iteration_order deps) o)) ∧
      ((P.iteration_order deps).Perm deps →
        (∀ r, ((map_find t.route_one_stops r).getD []).length =
          (deps.filter (fun d => decide (route_one_stop t d.2 = .ok r))).length) ∧
        (∀ o, ((map_find t.oper_one_stops o).getD []).length =
          (deps.filter (fun d => decide (operator_one_stop t d.2 = .ok o))).length)) := by
  obtain ⟨stops, routes, opers, ht, hidx⟩ :=
    construct_read_ok P uninitialised hierarchy graphid tile_data t reads hvalid hread h
  obtain ⟨-, hlines⟩ := hidx hlevel
  subst ht
  obtain ⟨deps, hdeps, hnodup, hmem, hall, hr, ho⟩ :=
    index_lines_spec P.iteration_order (GraphTile.over P tile_data) graphid.tileid header
      (routes, opers) hheader rfl rfl hlines
  refine ⟨deps, hdeps, hnodup, hmem, hall, hr, ho, fun hperm => ⟨fun r => ?_, fun o => ?_⟩⟩
  · have hr' := hr r
    simp only [] at hr'
    show ((map_find routes r).getD []).length = _
    rw [hr', pushed_value_none_getD]
    unfold route_pairs
    rw [List.length_map]
    exact (hperm.filter _).length_eq
  · have ho' := ho o
    simp only [] at ho'
    show ((map_find opers o).getD []).length = _
    rw [ho', pushed_value_none_getD]
    unfold operator_pairs
    rw [List.length_map]
    exact (hperm.filter _).length_eq

/-- Witness of C15 as amended: tile 9, whose two departures are of the lines 5 and 6, of two
routes that both have the one-stop id "R", with the operators "O" and "P"; the route index has
the one entry "R" with two pairs, the operator index the entries "O" and "P" with one pair
each. -/
theorem one_stop_index_per_line_witness :
    ∃ t, GraphTile.construct example_platform GraphTile.default_constructed example_hierarchy
        { tileid := 9, level := 3, id := 0 } = .ok (t, [{ tileid := 9, level := 3, id := 0 }]) ∧
      GetTransitDepartures t = .ok [(5, 0), (6, 1)] ∧
      t.route_one_stops = [([82], [(9, 5), (9, 6)])] ∧
      t.oper_one_stops = [([79], [(9, 5)]), ([80], [(9, 6)])] ∧
      (∀ r, ((map_find t.route_one_stops r).getD []).length =
        (([(5, 0), (6, 1)] : List (Nat × Int)).filter
          (fun d => decide (route_one_stop t d.2 = .ok r))).length) := by
  have h : GraphTile.construct example_platform GraphTile.default_constructed example_hierarchy
      { tileid := 9, level := 3, id := 0 } =
      .ok ({ GraphTile.over example_platform example_transit_data with
        stop_one_stops := [([83], 9, 1)]
        route_one_stops := [([82], [(9, 5), (9, 6)])]
        oper_one_stops := [([79], [(9, 5)]), ([80], [(9, 6)])]
        size_ := 33 }, [{ tileid := 9, level := 3, id := 0 }]) := by rfl
  obtain ⟨deps, hdeps, -, -, -, -, -, hlen⟩ :=
    one_stop_index_per_line example_platform GraphTile.default_constructed
      example_hierarchy { tileid := 9, level := 3, id := 0 } example_transit_data _ _
      (example_platform.read_GraphTileHeader (example_transit_data.take 11))
      (by decide) (by decide) rfl h rfl
  have hd : deps = [(5, 0), (6, 1)] := by
    have : (Except.ok deps : Except Fault (List (Nat × Int))) = .ok [(5, 0), (6, 1)] :=
      hdeps.symm.trans (by decide)
    exact Except.ok.inj this
  subst hd
  exact ⟨_, h, by decide, rfl, rfl, (hlen (List.Perm.refl _)).1⟩

/-! ## The offsets `GetNextDeparture` reads -/

theorem GetNextDeparture_back_up_traced_snd (t : GraphTile) (lineid current_time : Nat) :
    ∀ (fuel : Nat) (mid : Int),
      (GetNextDeparture.back_up_traced t lineid current_time fuel mid).2 =
        GetNextDeparture.back_up t lineid current_time fuel mid := by
  intro fuel
  induction fuel with
  | zero => intro mid; rfl
  | succ fuel ih =>
    intro mid
    unfold GetNextDeparture.back_up_traced GetNextDeparture.back_up
    by_cases hpos : 0 < mid
    · rw [if_pos hpos, if_pos hpos]
      cases hp : int32 (mid - 1) with
      | error e => rfl
      | ok prior =>
        simp only [bind, Except.bind]
        by_cases hc : (t.departures_ prior).lineid = lineid ∧
            (t.departures_ prior).departure_time ≥ current_time
        · rw [if_pos hc, if_pos hc]
          exact ih prior
        · rw [if_neg hc, if_neg hc]
          rfl
    · rw [if_neg hpos, if_neg hpos]
      rfl

theorem GetNextDeparture_iterate_traced_snd (t : GraphTile) (lineid current_time day dow : Nat)
    (date_before_tile : Bool) (count : Nat) :
    ∀ (fuel : Nat) (mid dep : Int),
      (GetNextDeparture.iterate_traced t lineid current_time day dow date_before_tile count
        fuel mid dep).2 =
        GetNextDeparture.iterate t lineid current_time day dow date_before_tile count
          fuel mid dep := by
  intro fuel
  induction fuel with
  | zero => intro mid dep; rfl
  | succ fuel ih =>
    intro mid dep
    unfold GetNextDeparture.iterate_traced GetNextDeparture.iterate
    cases hv : GetNextDeparture.valid t current_time day dow date_before_tile dep with
    | error e => rfl
    | ok v =>
      cases v with
      | true => rfl
      | false =>
        cases hn : int32 (mid + 1) with
        | error e => simp [bind, Except.bind, hn, pure, Except.pure]
        | ok next =>
          by_cases hend : to_uint32 mid = count
          · simp [bind, Except.bind, hn, hend, pure, Except.pure]
          · by_cases hline : (t.departures_ (dep + 1)).lineid = lineid
            · simp [bind, Except.bind, hn, hend, hline, pure, Except.pure, ih]
            · simp [bind, Except.bind, hn, hend, hline, pure, Except.pure]

/-- The traced `GetNextDeparture` returns what `GetNextDeparture` returns. -/
theorem GetNextDeparture_traced_snd (t : GraphTile) (lineid current_time day dow : Nat)
    (date_before_tile : Bool) :
    (GetNextDeparture.traced t lineid current_time day dow date_before_tile).2.2 =
      GetNextDeparture t lineid current_time day dow date_before_tile := by
  unfold GetNextDeparture.traced GetNextDeparture
  cases hh : t.header_ with
  | none => rfl
  | some header =>
    simp only [deref, bind, Except.bind]
    by_cases h0 : header.departurecount = 0
    · simp [h0, pure, Except.pure]
    · simp only [h0, if_false]
      rw [← binary_search_traced_snd]
      cases hb : (binary_search_traced (fun i => (t.departures_ i).lineid)
          header.departurecount lineid).2 with
      | error e => rfl
      | ok r =>
        cases r with
        | none => rfl
        | some mid =>
          simp only [pure, Except.pure]
          rw [← GetNextDeparture_back_up_traced_snd]
          cases hf : (GetNextDeparture.back_up_traced t lineid current_time
              (header.departurecount + 2) mid).2 with
          | error e => rfl
          | ok first => exact GetNextDeparture_iterate_traced_snd _ _ _ _ _ _ _ _ _ _

/-- **C21, the failing inputs.** The array is sorted and the four departures of line 7 are all
of it, so the run of the line is the last; none leaves at 350 or later.  Whether the bytes after
the array decode to a departure of another line or to one of line 7, the scan of
`GetNextDeparture(7, 350, ...)` reads the offsets 1, 2, 3 and then 4, which is
`departurecount`: `mid++ == count` is tested with the value of `mid` before the increment, so
`dep` is advanced to the end of the array and `dep->lineid()` is read there.  In the first
buffer the mismatch of the line ends the scan; in the second the record after the array is
tested and returned. -/
theorem GetNextDeparture_scan_reads_past_the_end :
    (records example_last_run_then_other.departures_ 4).Pairwise departure_le ∧
    example_last_run_then_other.header_ = some { departurecount := 4, schedulecount := 1 } ∧
    GetNextDeparture.traced example_last_run_then_other 7 350 0 0 false =
      ([1, 0], [1, 2, 2, 3, 3, 4], .ok none) ∧
    (records example_last_run.departures_ 4).Pairwise departure_le ∧
    example_last_run.header_ = some { departurecount := 4, schedulecount := 1 } ∧
    GetNextDeparture.traced example_last_run 7 350 0 0 false =
      ([1, 0], [1, 2, 2, 3, 3, 4, 4], .ok (some 4)) := by
  decide

/-! ## `GetDirectedEdges` -/

/-- **C22.** On a loaded tile, for a node index `n` with `count` and `edge_index` holding any
values at the call: when `n < nodecount` and the node record has the edge index `e` and the
edge count `c`, `GetDirectedEdges` sets `count = c` and `edge_index = e`, and it returns the
directed edge at position `e` when `e < directededgecount` and throws the directed-edge
out-of-range error of `directededge(e)` when `e ≥ directededgecount`, as for a node with
`c = 0` and `e = directededgecount`; when `n ≥ nodecount` it throws the node out-of-range
error of `node(n)` and leaves `count` and `edge_index` as they were. -/
theorem GetDirectedEdges_spec (t : GraphTile) (header : GraphTileHeader)
    (node_index count edge_index : Nat) (hheader : t.header_ = some header) :
    (node_index < header.nodecount →
      (t.nodes_ (node_index : Int)).edge_index < header.directededgecount →
      GetDirectedEdges t node_index count edge_index =
        (((t.nodes_ (node_index : Int)).edge_count, (t.nodes_ (node_index : Int)).edge_index),
          .ok ((t.nodes_ (node_index : Int)).edge_index : Int))) ∧
    (node_index < header.nodecount →
      header.directededgecount ≤ (t.nodes_ (node_index : Int)).edge_index →
      GetDirectedEdges t node_index count edge_index =
        (((t.nodes_ (node_index : Int)).edge_count, (t.nodes_ (node_index : Int)).edge_index),
          .error (.runtime_error ("GraphTile DirectedEdge index out of bounds: " ++
            toString header.graphid.tileid ++ "," ++ toString header.graphid.level ++ "," ++
            toString (t.nodes_ (node_index : Int)).edge_index ++ " directededgecount= " ++
            toString header.directededgecount)))) ∧
    (node_index < header.nodecount →
      (t.nodes_ (node_index : Int)).edge_count = 0 →
      (t.nodes_ (node_index : Int)).edge_index = header.directededgecount →
      GetDirectedEdges t node_index count edge_index =
        ((0, header.directededgecount),
          .error (.runtime_error ("GraphTile DirectedEdge index out of bounds: " ++
            toString header.graphid.tileid ++ "," ++ toString header.graphid.level ++ "," ++
            toString header.directededgecount ++ " directededgecount= " ++
            toString header.directededgecount)))) ∧
    (header.nodecount ≤ node_index →
      GetDirectedEdges t node_index count edge_index =
        ((count, edge_index),
          .error (.runtime_error ("GraphTile NodeInfo index out of bounds: " ++
            toString header.graphid.tileid ++ "," ++ toString header.graphid.level ++ "," ++
            toString node_index ++ " nodecount= " ++ toString header.nodecount)))) := by
  have hnode : node_index < header.nodecount → node t node_index = .ok (node_index : Int) := by
    intro h
    unfold node
    simp only [hheader, deref, bind, Except.bind, if_pos h]
    rfl
  have hedge : ∀ e, e < header.directededgecount → directededge t e = .ok (e : Int) := by
    intro e h
    unfold directededge
    simp only [hheader, deref, bind, Except.bind, if_pos h]
    rfl
  have hedge_error : ∀ e, header.directededgecount ≤ e →
      directededge t e = .error (.runtime_error ("GraphTile DirectedEdge index out of bounds: " ++
        toString header.graphid.tileid ++ "," ++ toString header.graphid.level ++ "," ++
        toString e ++ " directededgecount= " ++ toString header.directededgecount)) := by
    intro e h
    unfold directededge
    simp only [hheader, deref, bind, Except.bind, if_neg (not_lt.mpr h)]
    rfl
  refine ⟨fun hn he => ?_, fun hn he => ?_, fun hn hc he => ?_, fun hn => ?_⟩
  · unfold GetDirectedEdges
    rw [hnode hn]
    simp only []
    rw [hedge _ he]
  · unfold GetDirectedEdges
    rw [hnode hn]
    simp only []
    rw [hedge_error _ he]
  · unfold GetDirectedEdges
    rw [hnode hn]
    simp only []
    rw [hedge_error _ (le_of_eq he.symm), hc, he]
  · unfold GetDirectedEdges node
    simp only [hheader, deref, bind, Except.bind, if_neg (not_lt.mpr hn)]
    rfl

/-- Witness of C22: node 0 with the edges from 0 on, node 2 with no edge and the edge index 4
of 4 edges, and the node index 3 of 3 nodes. -/
theorem GetDirectedEdges_spec_witness :
    GetDirectedEdges example_slices 0 77 88 = ((2, 0), .ok 0) ∧
    GetDirectedEdges example_slices 2 77 88 =
      ((0, 4), .error (.runtime_error
        "GraphTile DirectedEdge index out of bounds: 1,0,4 directededgecount= 4")) ∧
    GetDirectedEdges example_slices 3 77 88 =
      ((77, 88), .error (.runtime_error
        "GraphTile NodeInfo index out of bounds: 1,0,3 nodecount= 3")) :=
  ⟨((GetDirectedEdges_spec example_slices _ 0 77 88 rfl).1 (by decide) (by decide)).trans
      (by decide),
   ((GetDirectedEdges_spec example_slices _ 2 77 88 rfl).2.2.1 (by decide) (by decide)
      (by decide)).trans (by decide),
   ((GetDirectedEdges_spec example_slices _ 3 77 88 rfl).2.2.2 (by decide)).trans (by decide)⟩

/-! ## The order of access restrictions -/

theorem AccessRestriction_not_lt_iff (a b : AccessRestriction) :
    AccessRestriction.lt b a = false ↔ a.edgeindex ≤ b.edgeindex := by
  unfold AccessRestriction.lt
  rw [decide_eq_false_iff_not, not_lt]

/-- **C23.** For all access restrictions, `a < b` holds exactly when
`a.edgeindex() < b.edgeindex()`, so it is the same for records with the same edge indexes,
whatever their type, modes, days of week and value are; `<` is irreflexive, asymmetric and
transitive; `a` and `b` are incomparable exactly when they have the same edge index, and
incomparability is an equivalence; and a list that is sorted with `<` (no record is less than
the one before it) is non-decreasing in `edgeindex` between any two positions, and conversely,
which for the access restrictions of a tile is the condition under which
`GetAccessRestrictions` is proved to return the restrictions of an edge. -/
theorem AccessRestriction_lt_spec :
    (∀ a b : AccessRestriction, AccessRestriction.lt a b = true ↔ a.edgeindex < b.edgeindex) ∧
    (∀ a b a' b' : AccessRestriction, a'.edgeindex = a.edgeindex → b'.edgeindex = b.edgeindex →
      AccessRestriction.lt a' b' = AccessRestriction.lt a b) ∧
    (∀ a : AccessRestriction, AccessRestriction.lt a a = false) ∧
    (∀ a b : AccessRestriction, AccessRestriction.lt a b = true →
      AccessRestriction.lt b a = false) ∧
    (∀ a b c : AccessRestriction, AccessRestriction.lt a b = true →
      AccessRestriction.lt b c = true → AccessRestriction.lt a c = true) ∧
    (∀ a b : AccessRestriction,
      (AccessRestriction.lt a b = false ∧ AccessRestriction.lt b a = false) ↔
        a.edgeindex = b.edgeindex) ∧
    Equivalence (fun a b : AccessRestriction =>
      AccessRestriction.lt a b = false ∧ AccessRestriction.lt b a = false) ∧
    (∀ l : List AccessRestriction,
      l.Chain' (fun a b => AccessRestriction.lt b a = false) ↔
        l.Pairwise (fun a b => a.edgeindex ≤ b.edgeindex)) ∧
    (∀ (t : GraphTile) (count : Nat),
      (records t.access_restrictions_ count).Chain'
          (fun a b => AccessRestriction.lt b a = false) →
        (records t.access_restrictions_ count).Pairwise
          (fun a b => a.edgeindex ≤ b.edgeindex)) := by
  have hlt : ∀ a b : AccessRestriction,
      AccessRestriction.lt a b = true ↔ a.edgeindex < b.edgeindex := by
    intro a b
    unfold AccessRestriction.lt
    exact decide_eq_true_iff
  have hincomparable : ∀ a b : AccessRestriction,
      (AccessRestriction.lt a b = false ∧ AccessRestriction.lt b a = false) ↔
        a.edgeindex = b.edgeindex := by
    intro a b
    rw [AccessRestriction_not_lt_iff, AccessRestriction_not_lt_iff]
    omega
  have hsorted : ∀ l : List AccessRestriction,
      l.Chain' (fun a b => AccessRestriction.lt b a = false) ↔
        l.Pairwise (fun a b => a.edgeindex ≤ b.edgeindex) := by
    intro l
    haveI : IsTrans AccessRestriction (fun a b => a.edgeindex ≤ b.edgeindex) :=
      ⟨fun a b c h1 h2 => le_trans h1 h2⟩
    rw [← List.chain'_iff_pairwise]
    constructor
    · exact List.Chain'.imp (fun a b h => (AccessRestriction_not_lt_iff a b).mp h)
    · exact List.Chain'.imp (fun a b h => (AccessRestriction_not_lt_iff a b).mpr h)
  refine ⟨hlt, ?_, ?_, ?_, ?_, hincomparable, ?_, hsorted, fun t count h => (hsorted _).mp h⟩
  · intro a b a' b' ha hb
    unfold AccessRestriction.lt
    rw [ha, hb]
  · intro a
    unfold AccessRestriction.lt
    exact decide_eq_false (lt_irrefl _)
  · intro a b h
    rw [AccessRestriction_not_lt_iff]
    exact le_of_lt ((hlt a b).mp h)
  · intro a b c hab hbc
    exact (hlt a c).mpr (lt_trans ((hlt a b).mp hab) ((hlt b c).mp hbc))
  · refine ⟨fun a => (hincomparable a a).mpr rfl, fun h => ⟨h.2, h.1⟩, fun hab hbc => ?_⟩
    exact (hincomparable _ _).mpr
      (((hincomparable _ _).mp hab).trans ((hincomparable _ _).mp hbc))

/-- Witness of C23: two restrictions of the edges 2 and 3 that differ in every other field, and
the array of `example_restrictions`, in which no restriction is less than the one before it. -/
theorem AccessRestriction_lt_spec_witness :
    AccessRestriction.lt { edgeindex := 2, type := 9, modes := 7, days_of_week := 127, value := 5 }
      { edgeindex := 3 } = true ∧
    AccessRestriction.lt { edgeindex := 3 }
      { edgeindex := 2, type := 9, modes := 7, days_of_week := 127, value := 5 } = false ∧
    (records example_restrictions.access_restrictions_ 4).Pairwise
      (fun a b => a.edgeindex ≤ b.edgeindex) :=
  ⟨(AccessRestriction_lt_spec.1 _ _).mpr (by decide),
   AccessRestriction_lt_spec.2.2.2.1 _ _ ((AccessRestriction_lt_spec.1 _ _).mpr (by decide)),
   AccessRestriction_lt_spec.2.2.2.2.2.2.2.2 example_restrictions 4
    (by
      rw [show records example_restrictions.access_restrictions_ 4 =
        [{ edgeindex := 1, modes := 1 }, { edgeindex := 2, modes := 2 },
         { edgeindex := 2, modes := 4 }, { edgeindex := 3, modes := 3 }] from by decide]
      simp [AccessRestriction.lt])⟩

/-! ## `GetTransitDepartures` -/

theorem map_find_of_mem_nodup {κ ν : Type} [DecidableEq κ] (m : List (κ × ν)) (k : κ) (v : ν)
    (hnodup : (m.map Prod.fst).Nodup) (hmem : (k, v) ∈ m) : map_find m k = some v := by
  induction m with
  | nil => cases hmem
  | cons e rest ih =>
    rw [List.map_cons, List.nodup_cons] at hnodup
    rcases List.mem_cons.mp hmem with heq | hin
    · subst heq
      simp [map_find]
    · have hk : e.1 ≠ k := by
        intro he
        apply hnodup.1
        rw [he]
        exact List.mem_map.mpr ⟨(k, v), hin, rfl⟩
      simp only [map_find, hk, if_false]
      exact ih hnodup.2 hin

/-- **C24.** On a tile with its header pointer set, whatever the departure array is,
`GetTransitDepartures()` returns a map `deps`: its keys are pairwise distinct; a line id is a
key exactly when it is the line id of a departure of the array, so that the keys are, up to
their order, the line ids of the array with the repetitions removed; the value at the line `L`
is the pointer `p` exactly when `p` points to the first departure of the array whose line id is
`L`; and for every departure of the array the map holds for its line a departure of that line
at the same or an earlier position, which later departures of the line have not replaced. -/
theorem GetTransitDepartures_first_of_each_line (t : GraphTile) (header : GraphTileHeader)
    (hheader : t.header_ = some header) :
    ∃ deps, GetTransitDepartures t = .ok deps ∧
      (deps.map Prod.fst).Nodup ∧
      (∀ L, L ∈ deps.map Prod.fst ↔
        ∃ i : Nat, i < header.departurecount ∧ (t.departures_ (i : Int)).lineid = L) ∧
      (deps.map Prod.fst).Perm
        ((records t.departures_ header.departurecount).map (fun d => d.lineid)).dedup ∧
      (∀ L (p : Int), map_find deps L = some p ↔
        ∃ i : Nat, p = (i : Int) ∧ i < header.departurecount ∧
          (t.departures_ (i : Int)).lineid = L ∧
          ∀ i' : Nat, i' < i → (t.departures_ (i' : Int)).lineid ≠ L) ∧
      (∀ i : Nat, i < header.departurecount →
        ∃ j : Nat, j ≤ i ∧ map_find deps (t.departures_ (i : Int)).lineid = some (j : Int) ∧
          (t.departures_ (j : Int)).lineid = (t.departures_ (i : Int)).lineid) := by
  have hdeps : GetTransitDepartures t = .ok ((List.range header.departurecount).foldl
      (fun deps (i : Nat) => map_insert deps (t.departures_ (i : Int)).lineid (i : Int))
      ([] : List (Nat × Int))) := by
    unfold GetTransitDepartures
    rw [hheader]
    rfl
  obtain ⟨hnodup, hmem, hcover⟩ :=
    GetTransitDepartures_fold t.departures_ header.departurecount
  generalize (List.range header.departurecount).foldl
    (fun deps (i : Nat) => map_insert deps (t.departures_ (i : Int)).lineid (i : Int))
    ([] : List (Nat × Int)) = deps at hdeps hnodup hmem hcover
  have hkeys : ∀ L, L ∈ deps.map Prod.fst ↔
      ∃ i : Nat, i < header.departurecount ∧ (t.departures_ (i : Int)).lineid = L := by
    intro L
    constructor
    · intro hL
      obtain ⟨e, he, hkey⟩ := List.mem_map.mp hL
      obtain ⟨i, hi, hei, -⟩ := (hmem e).mp he
      exact ⟨i, hi, by rw [← hkey, hei]⟩
    · rintro ⟨i, hi, hline⟩
      obtain ⟨e, he, hkey⟩ := hcover i hi
      exact List.mem_map.mpr ⟨e, he, hkey.trans hline⟩
  have hfind : ∀ L (p : Int), map_find deps L = some p ↔
      ∃ i : Nat, p = (i : Int) ∧ i < header.departurecount ∧
        (t.departures_ (i : Int)).lineid = L ∧
        ∀ i' : Nat, i' < i → (t.departures_ (i' : Int)).lineid ≠ L := by
    intro L p
    constructor
    · intro hp
      obtain ⟨i, hi, hei, hfirst⟩ := (hmem (L, p)).mp (map_find_some_mem deps L p hp)
      have hL : L = (t.departures_ (i : Int)).lineid := congrArg Prod.fst hei
      refine ⟨i, congrArg Prod.snd hei, hi, hL.symm, fun i' hi' => ?_⟩
      rw [hL]
      exact hfirst i' hi'
    · rintro ⟨i, hp, hi, hline, hfirst⟩
      apply map_find_of_mem_nodup deps L p hnodup
      refine (hmem (L, p)).mpr ⟨i, hi, by rw [hp, hline], fun i' hi' => ?_⟩
      rw [hline]
      exact hfirst i' hi'
  refine ⟨deps, hdeps, hnodup, hkeys, ?_, hfind, ?_⟩
  · refine (List.perm_ext_iff_of_nodup hnodup (List.nodup_dedup _)).mpr (fun L => ?_)
    rw [List.mem_dedup, hkeys L, List.mem_map]
    constructor
    · rintro ⟨i, hi, hline⟩
      exact ⟨t.departures_ (i : Int), (mem_records _ _ _).mpr ⟨i, hi, rfl⟩, hline⟩
    · rintro ⟨d, hd, hline⟩
      obtain ⟨i, hi, hdi⟩ := (mem_records _ _ _).mp hd
      exact ⟨i, hi, by rw [hdi]; exact hline⟩
  · intro i hi
    obtain ⟨e, he, hkey⟩ := hcover i hi
    obtain ⟨j, hj, hej, hfirst⟩ := (hmem e).mp he
    have hline : (t.departures_ (j : Int)).lineid = (t.departures_ (i : Int)).lineid := by
      rw [← hkey, hej]
    refine ⟨j, ?_, ?_, hline⟩
    · by_contra hgt
      exact hfirst i (by omega) hline.symm
    · apply map_find_of_mem_nodup deps _ _ hnodup
      rw [← hline, ← hej]
      exact he

/-- Witness of C24: the departures of the lines 5, 5, 6, 8, 6; the map has the three entries of
the lines 5, 6 and 8, with the departures at the positions 0, 2 and 3. -/
theorem GetTransitDepartures_first_of_each_line_witness :
    GetTransitDepartures example_lines = .ok [(5, 0), (6, 2), (8, 3)] ∧
    (∀ i : Nat, i < 5 →
      ∃ j : Nat, j ≤ i ∧
        map_find [((5 : Nat), (0 : Int)), (6, 2), (8, 3)]
          (example_lines.departures_ (i : Int)).lineid = some (j : Int) ∧
        (example_lines.departures_ (j : Int)).lineid =
          (example_lines.departures_ (i : Int)).lineid) := by
  obtain ⟨deps, hdeps, -, -, -, -, hlater⟩ :=
    GetTransitDepartures_first_of_each_line example_lines { departurecount := 5 } rfl
  have hd : deps = [(5, 0), (6, 2), (8, 3)] := by
    have : (Except.ok deps : Except Fault (List (Nat × Int))) = .ok [(5, 0), (6, 2), (8, 3)] :=
      hdeps.symm.trans (by decide)
    exact Except.ok.inj this
  subst hd
  exact ⟨hdeps, hlater⟩

end baldr
